import Mathlib

/-!
Verification of the runtime configuration reconciler
(`scripts/sync-runtime-config.mjs`): a shallow embedding of the script's
data model and reconciliation pass, followed by theorems settling the
specification claims.

Modelling conventions:
* JSON documents are `JVal` trees; JS objects are association lists in
  insertion order (assignment to an existing key updates it in place,
  a new key is appended), exactly the order `JSON.stringify` observes.
* JS numbers are modelled as `Option Int`, `none` standing for `NaN`
  (the only non-finite value this script can produce, via `Number()` on
  a non-numeric string); `JSON.stringify` renders it as `null` just as
  JS does.  The script performs no arithmetic, only `Number(string)`
  parsing and strict equality, so integer precision suffices.
* `undefined` is `Option.none` at use sites (absent key / absent env var).
* The process environment is a total function `String → String`, the
  empty string standing for an unset variable — the script reads every
  variable through `trim(process.env.X)`, which maps `undefined` to `""`.
-/

namespace SyncConfig

/-- JSON-compatible value, as held by the parsed configuration document. -/
inductive JVal where
  | jstr : String → JVal
  | jnum : Option Int → JVal
  | jbool : Bool → JVal
  | jnull : JVal
  | jarr : List JVal → JVal
  | jobj : List (String × JVal) → JVal

mutual
/-- Boolean structural equality on `JVal` (decidable equality is not
derivable for this nested inductive, so it is built by hand). -/
def beqJVal : JVal → JVal → Bool
  | .jstr a, .jstr b => a = b
  | .jnum a, .jnum b => a = b
  | .jbool a, .jbool b => a = b
  | .jnull, .jnull => true
  | .jarr a, .jarr b => beqJList a b
  | .jobj a, .jobj b => beqJObj a b
  | _, _ => false

/-- Boolean structural equality on arrays. -/
def beqJList : List JVal → List JVal → Bool
  | [], [] => true
  | x :: xs, y :: ys => beqJVal x y && beqJList xs ys
  | _, _ => false

/-- Boolean structural equality on object field lists. -/
def beqJObj : List (String × JVal) → List (String × JVal) → Bool
  | [], [] => true
  | (k, v) :: xs, (k2, v2) :: ys => (k = k2) && beqJVal v v2 && beqJObj xs ys
  | _, _ => false
end

mutual
/-- `beqJVal` decides propositional equality. -/
theorem beqJVal_iff : ∀ (a b : JVal), beqJVal a b = true ↔ a = b
  | .jstr a, b => by cases b <;> simp [beqJVal]
  | .jnum a, b => by cases b <;> simp [beqJVal]
  | .jbool a, b => by cases b <;> simp [beqJVal]
  | .jnull, b => by cases b <;> simp [beqJVal]
  | .jarr a, b => by
      cases b <;> simp [beqJVal]
      case jarr b => rw [beqJList_iff a b]
  | .jobj a, b => by
      cases b <;> simp [beqJVal]
      case jobj b => rw [beqJObj_iff a b]

/-- `beqJList` decides propositional equality. -/
theorem beqJList_iff : ∀ (a b : List JVal), beqJList a b = true ↔ a = b
  | [], [] => by simp [beqJList]
  | [], _ :: _ => by simp [beqJList]
  | _ :: _, [] => by simp [beqJList]
  | x :: xs, y :: ys => by
      simp [beqJList, Bool.and_eq_true, beqJVal_iff x y, beqJList_iff xs ys]

/-- `beqJObj` decides propositional equality. -/
theorem beqJObj_iff : ∀ (a b : List (String × JVal)), beqJObj a b = true ↔ a = b
  | [], [] => by simp [beqJObj]
  | [], _ :: _ => by simp [beqJObj]
  | _ :: _, [] => by simp [beqJObj]
  | (k, v) :: xs, (k2, v2) :: ys => by
      simp [beqJObj, Bool.and_eq_true, beqJVal_iff v v2, beqJObj_iff xs ys,
        Prod.mk.injEq, and_assoc]
end

instance : DecidableEq JVal := fun a b =>
  decidable_of_iff (beqJVal a b = true) (beqJVal_iff a b)

/-- Whitespace as trimmed by `String.prototype.trim`. -/
def isJsWs (c : Char) : Bool :=
  c = ' ' ∨ c = '\t' ∨ c = '\n' ∨ c = '\r' ∨ c = '\x0b' ∨ c = '\x0c'

/-- Model of `String.prototype.trim`. -/
def strTrim (s : String) : String :=
  ⟨((s.data.dropWhile isJsWs).reverse.dropWhile isJsWs).reverse⟩

/-- `String(v)` for a JSON value (array elements join with `,`,
null elements of an array render as `""`, objects as `[object Object]`). -/
def jsToString : JVal → String
  | .jstr s => s
  | .jnum none => "NaN"
  | .jnum (some n) => toString n
  | .jbool true => "true"
  | .jbool false => "false"
  | .jnull => "null"
  | .jobj _ => "[object Object]"
  | .jarr xs => jsToStringList xs
where
  /-- `Array.prototype.join(",")` over the element stringifications. -/
  jsToStringList : List JVal → String
  | [] => ""
  | [.jnull] => ""
  | [x] => jsToString x
  | .jnull :: xs => "," ++ jsToStringList xs
  | x :: xs => jsToString x ++ "," ++ jsToStringList xs

/-- The script's `trim(value)` = `String(value ?? "").trim()` on a JS value
(`null`/`undefined` collapse to `""` via `??`). -/
def trimOf : JVal → String
  | .jnull => ""
  | v => strTrim (jsToString v)

/-- `trim(value)` where the value may be `undefined` (absent property). -/
def trimOfO : Option JVal → String
  | none => ""
  | some v => trimOf v

/-- `providerFromModel` on an arbitrary JS value (the script always feeds
it through `trim`): the substring of the trimmed form before the first
`/`, or `""` when there is no `/`. -/
def providerFromModelV (v : JVal) : String :=
  let m := trimOf v
  if '/' ∈ m.data then ⟨m.data.takeWhile (fun c => c ≠ '/')⟩ else ""

/-- `providerFromModel` on a plain string. -/
def providerFromModelS (s : String) : String :=
  providerFromModelV (.jstr s)

/-- `providerFromModel` on a possibly-`undefined` value. -/
def providerFromModelO : Option JVal → String
  | none => ""
  | some v => providerFromModelV v

/-- First occurrence lookup in an association list (JS property read). -/
def getKey : List (String × JVal) → String → Option JVal
  | [], _ => none
  | (k', v) :: rest, k => if k' = k then some v else getKey rest k

/-- JS property assignment: update the existing key in place (keeping its
position) or append a new key at the end. -/
def setKey : List (String × JVal) → String → JVal → List (String × JVal)
  | [], k, v => [(k, v)]
  | (k', v') :: rest, k, v =>
      if k' = k then (k, v) :: rest else (k', v') :: setKey rest k v

/-- Property read through a possibly-absent value; non-objects have no
(string-keyed, JSON-visible) properties. -/
def jget : Option JVal → String → Option JVal
  | some (.jobj l), k => getKey l k
  | _, _ => none

/-- Property write on a value; a no-op on non-objects (matching the
observable JSON state: assignments to array/primitive targets are either
invisible to `JSON.stringify` or raise, which the caller handles). -/
def jset (d : JVal) (k : String) (v : JVal) : JVal :=
  match d with
  | .jobj l => .jobj (setKey l k v)
  | _ => d

/-- Read along a key path. -/
def getPath (o : Option JVal) : List String → Option JVal
  | [] => o
  | k :: ks => getPath (jget o k) ks

/-- Write along a key path, creating fresh empty objects below missing
keys (the pass only writes below paths it has passed through
`ensureObject`, so intermediate nodes are objects or absent). -/
def setPath (d : JVal) : List String → JVal → JVal
  | [], v => v
  | k :: ks, v =>
      let child := match jget (some d) k with
        | some c => c
        | none => .jobj []
      jset d k (setPath child ks v)

/-- Is the value a (non-null, non-array) object? -/
def isObjB : Option JVal → Bool
  | some (.jobj _) => true
  | _ => false

/-- `ensureObject(target, key)` where `target` sits at `path` in the
document: if `target[key]` is not a non-null non-array object, replace it
with `{}` (possible only when the target itself exists). -/
def ensureAt (d : JVal) (path : List String) (k : String) : JVal :=
  if isObjB (getPath (some d) (path ++ [k]))
  then d
  else
    match getPath (some d) path with
    | some _ => setPath d (path ++ [k]) (.jobj [])
    | none => d

/-- JS truthiness of a JSON value. -/
def jsTruthy : JVal → Bool
  | .jstr s => s ≠ ""
  | .jnum none => false
  | .jnum (some n) => n ≠ 0
  | .jbool b => b
  | .jnull => false
  | .jarr _ => true
  | .jobj _ => true

/-- JS truthiness of a possibly-`undefined` value. -/
def jsTruthyO : Option JVal → Bool
  | none => false
  | some v => jsTruthy v

/-- Strict inequality `m !== prim` between a document node and another
(possibly `undefined`) document node.  Primitives compare by value,
`NaN !== NaN` holds, and two structurally equal arrays/objects at
distinct paths of a parsed document are distinct heap references, hence
strictly unequal. -/
def jsStrictNe (m : JVal) (prim : Option JVal) : Bool :=
  match m, prim with
  | .jstr a, some (.jstr b) => a ≠ b
  | .jnum (some a), some (.jnum (some b)) => a ≠ b
  | .jbool a, some (.jbool b) => a ≠ b
  | .jnull, some .jnull => false
  | _, _ => true

/-- `Number(s)` restricted to the shapes this script can meet: optional
sign plus decimal digits parses exactly; the empty string is `0`;
any other shape is conservatively `NaN` (`none`).  (JS would also accept
float/hex syntax; the script only compares the result for equality and
stores it, so the integer fragment is faithful on integer inputs.) -/
def jsNumber (s : String) : Option Int :=
  let t := strTrim s
  if t = "" then some 0
  else
    match t.data with
    | '-' :: ds => (digitsToNat ds).map (fun n => -(n : Int))
    | '+' :: ds => (digitsToNat ds).map (fun n => (n : Int))
    | ds => (digitsToNat ds).map (fun n => (n : Int))
where
  /-- All-decimal-digit string to `Nat`, else `none`. -/
  digitsToNat : List Char → Option Nat
  | [] => none
  | ds => if ds.all Char.isDigit
          then some (ds.foldl (fun a c => a * 10 + (c.toNat - 48)) 0)
          else none

/-- Strict inequality `field !== Number(v)` used by the max-concurrency
rule; true whenever the field is not a number, and always true against
`NaN`. -/
def jsNumNe (field : Option JVal) (n : Option Int) : Bool :=
  match field, n with
  | some (.jnum (some a)), some b => a ≠ b
  | _, _ => true

/-- One escaped character of `JSON.stringify`'s string encoder. -/
def jsonEscapeChar (c : Char) : String :=
  if c = '"' then "\\\""
  else if c = '\\' then "\\\\"
  else if c = '\n' then "\\n"
  else if c = '\r' then "\\r"
  else if c = '\t' then "\\t"
  else if c = '\x08' then "\\b"
  else if c = '\x0c' then "\\f"
  else if c.toNat < 32 then
    "\\u00" ++ String.mk [Nat.digitChar (c.toNat / 16), Nat.digitChar (c.toNat % 16)]
  else String.mk [c]

/-- `JSON.stringify` string escaping. -/
def jsonEscape (s : String) : String :=
  s.data.foldl (fun acc c => acc ++ jsonEscapeChar c) ""

mutual
/-- Compact `JSON.stringify` of a document value (insertion-order keys,
`NaN` as `null`). -/
def jsonStringify : JVal → String
  | .jstr s => "\"" ++ jsonEscape s ++ "\""
  | .jnum none => "null"
  | .jnum (some n) => toString n
  | .jbool true => "true"
  | .jbool false => "false"
  | .jnull => "null"
  | .jarr xs => "[" ++ jsonStringifyArr xs ++ "]"
  | .jobj l => "\x7b" ++ jsonStringifyObj l ++ "\x7d"

/-- Comma-joined stringification of array elements. -/
def jsonStringifyArr : List JVal → String
  | [] => ""
  | [x] => jsonStringify x
  | x :: xs => jsonStringify x ++ "," ++ jsonStringifyArr xs

/-- Comma-joined stringification of object entries. -/
def jsonStringifyObj : List (String × JVal) → String
  | [] => ""
  | [(k, v)] => "\"" ++ jsonEscape k ++ "\":" ++ jsonStringify v
  | (k, v) :: rest =>
      "\"" ++ jsonEscape k ++ "\":" ++ jsonStringify v ++ "," ++ jsonStringifyObj rest
end

/-- `toUniqueStrings` on a list already known to contain strings
(the recommended-model call): keep each string whose trimmed form is
non-empty and unseen, remembering trimmed forms. -/
def tusGoS (seen : List String) : List String → List String
  | [] => []
  | s :: rest =>
      let n := strTrim s
      if n = "" then tusGoS seen rest
      else if n ∈ seen then tusGoS seen rest
      else s :: tusGoS (n :: seen) rest

/-- `toUniqueStrings` on strings. -/
def toUniqueStringsS (l : List String) : List String := tusGoS [] l

/-- `toUniqueStrings` on arbitrary JS values (the fallback-filter call):
non-strings are dropped first (`typeof v !== "string"`), then the same
trim/dedupe filter as `tusGoS`; the surviving values are the original
(untrimmed) strings. -/
def tusGoV (seen : List String) : List JVal → List String
  | [] => []
  | .jstr s :: rest =>
      let n := strTrim s
      if n = "" then tusGoV seen rest
      else if n ∈ seen then tusGoV seen rest
      else s :: tusGoV (n :: seen) rest
  | _ :: rest => tusGoV seen rest

/-- `toUniqueStrings` on JS values. -/
def toUniqueStringsV (l : List JVal) : List String := tusGoV [] l

/-- Static provider descriptor (`PROVIDERS` table entry). -/
structure ProviderSpec where
  provider : String
  envVar : String
  profileKey : String
  primaryModel : String
  fallbackModels : List String
deriving Repr, DecidableEq

/-- Provider priority order — first available becomes primary. -/
def PROVIDERS : List ProviderSpec :=
  [ { provider := "anthropic", envVar := "ANTHROPIC_API_KEY",
      profileKey := "anthropic:default",
      primaryModel := "anthropic/claude-sonnet-4-5",
      fallbackModels := ["anthropic/claude-haiku-4-5"] },
    { provider := "openai-codex", envVar := "OPENAI_API_KEY",
      profileKey := "openai-codex:default",
      primaryModel := "openai-codex/gpt-5.3-codex",
      fallbackModels := ["openai-codex/gpt-5.2-codex"] },
    { provider := "openai", envVar := "OPENAI_API_KEY",
      profileKey := "openai:default",
      primaryModel := "openai/gpt-5.2",
      fallbackModels := ["openai/gpt-4o"] },
    { provider := "google", envVar := "GOOGLE_API_KEY",
      profileKey := "google:default",
      primaryModel := "google/gemini-3-pro-preview",
      fallbackModels := [] } ]

/-- `PROVIDERS_BY_NAME.get`: first spec with the given provider name. -/
def providersByName (name : String) : Option ProviderSpec :=
  PROVIDERS.find? (fun pc => pc.provider = name)

/-- The process environment; an unset variable reads as `""` (the script
reads every variable through `trim`, which maps `undefined` to `""`). -/
abbrev Env : Type := String → String

/-- JS `a || b` on strings: `b` when `a` is empty. -/
def orEmpty (a b : String) : String := if a = "" then b else a

/-- `availableProviders` as computed by the credential loop: providers in
priority order whose credential env var is non-empty after trimming,
deduplicated by env var (`seenEnvVars`). -/
def availableFrom (e : Env) : List ProviderSpec → List String → List String
  | [], _ => []
  | pc :: rest, seen =>
      if strTrim (e pc.envVar) = "" then availableFrom e rest seen
      else if pc.envVar ∈ seen then availableFrom e rest seen
      else pc.provider :: availableFrom e rest (pc.envVar :: seen)

/-- The computed AvailableProviderSet for an environment. -/
def computeAvailable (e : Env) : List String := availableFrom e PROVIDERS []

/-- The keep-condition of the credential-profile loop:
`existing && existing.mode === "token" && existing.provider === pc.provider`
(property reads on non-objects yield `undefined`). -/
def profileOk (existing : Option JVal) (pc : ProviderSpec) : Bool :=
  jsTruthyO existing &&
    decide (jget existing "mode" = some (JVal.jstr "token")) &&
    decide (jget existing "provider" = some (JVal.jstr pc.provider))

/-- The credential-profile loop: for each spec with a non-empty,
not-yet-consumed env var, rewrite `auth.profiles.<profileKey>` unless it
already matches `{mode: "token", provider: <name>}`. -/
def profilesStep (e : Env) : List ProviderSpec → List String → JVal → JVal
  | [], _, d => d
  | pc :: rest, seen, d =>
      if strTrim (e pc.envVar) = "" then profilesStep e rest seen d
      else if pc.envVar ∈ seen then profilesStep e rest seen d
      else
        let existing := getPath (some d) ["auth", "profiles", pc.profileKey]
        let d' :=
          if profileOk existing pc then d
          else setPath d ["auth", "profiles", pc.profileKey]
                 (.jobj [("mode", .jstr "token"), ("provider", .jstr pc.provider)])
        profilesStep e rest (pc.envVar :: seen) d'

/-- The path of the model-selection subtree. -/
def modelPath : List String := ["agents", "defaults", "model"]

/-- `recommended`: for every available provider other than the active
primary provider, its primary model then its fallback models, deduped,
defensively dropping entries whose provider equals the active one. -/
def recommendedFor (available : List String) (activeProvider : String) : List String :=
  toUniqueStringsS
    ((((available.filter (fun p => p ≠ activeProvider)).map (fun p =>
        match providersByName p with
        | some pc => pc.primaryModel :: pc.fallbackModels
        | none => [])).flatten).filter
      (fun m => providerFromModelS m ≠ activeProvider))

/-- The filter applied to pre-existing `model.fallbacks` entries: keep an
entry whose provider is non-empty and available and which is not
(strictly) equal to `model.primary`. -/
def fallbackKeep (available : List String) (primaryVal : Option JVal) (m : JVal) : Bool :=
  let p := providerFromModelV m
  p ≠ "" && available.contains p && jsStrictNe m primaryVal

/-- `merged`: filtered pre-existing fallbacks followed by recommended
entries of providers not yet represented, deduped. -/
def mergedFor (available : List String) (primaryVal : Option JVal)
    (existing : List JVal) : List String :=
  let filtered := toUniqueStringsV (existing.filter (fallbackKeep available primaryVal))
  let recommended := recommendedFor available (providerFromModelO primaryVal)
  let fbProviders := (filtered.map providerFromModelS).filter (fun p => p ≠ "")
  let missing := recommended.filter (fun m => ¬ (providerFromModelS m ∈ fbProviders))
  toUniqueStringsS (filtered ++ missing)

/-- Reset `model.primary` to the first available provider's primary model
when the current primary is empty or names a provider without a key
(`availableProviders[0]` exists since the rule runs only when
`availableProviders.length > 0`). -/
def modelPrimaryStep (available : List String) (d1 : JVal) : JVal :=
  match available with
  | [] => d1
  | a0 :: _ =>
      let currentPrimary := trimOfO (getPath (some d1) (modelPath ++ ["primary"]))
      let currentProvider := providerFromModelS currentPrimary
      if currentPrimary = "" ∨ ¬ currentProvider ∈ available then
        match providersByName a0 with
        | some preferred =>
            if getPath (some d1) (modelPath ++ ["primary"])
                ≠ some (.jstr preferred.primaryModel)
            then setPath d1 (modelPath ++ ["primary"]) (.jstr preferred.primaryModel)
            else d1
        | none => d1
      else d1

/-- The pre-existing `model.fallbacks` array (`Array.isArray` guard). -/
def existingFallbacks (d : JVal) : List JVal :=
  match getPath (some d) (modelPath ++ ["fallbacks"]) with
  | some (.jarr xs) => xs
  | _ => []

/-- Reconcile `model.fallbacks` to the merged list when their
serializations differ. -/
def modelFallbacksStep (available : List String) (d2 : JVal) : JVal :=
  let primaryVal := getPath (some d2) (modelPath ++ ["primary"])
  let existing := existingFallbacks d2
  let merged := mergedFor available primaryVal existing
  if jsonStringify (.jarr existing) ≠ jsonStringify (.jarr (merged.map .jstr))
  then setPath d2 (modelPath ++ ["fallbacks"]) (.jarr (merged.map .jstr))
  else d2

/-- The model-selection rule (runs only when a provider is available):
ensure `model` is an object, possibly reset `model.primary`, then
reconcile `model.fallbacks`. -/
def modelRule (available : List String) (d : JVal) : JVal :=
  match available with
  | [] => d
  | _ :: _ =>
      modelFallbacksStep available
        (modelPrimaryStep available (ensureAt d ["agents", "defaults"] "model"))

/-- Desired workspace: `WORKSPACE_DIR` env override or `<stateDir>/workspace`. -/
def wsDesired (e : Env) : String :=
  let stateDir := orEmpty (strTrim (e "OPENCLAW_STATE_DIR")) "/data"
  orEmpty (strTrim (e "OPENCLAW_WORKSPACE_DIR")) (stateDir ++ "/workspace")

/-- Workspace rule: ensure `agents.defaults` and set `workspace`. -/
def wsRule (e : Env) (d : JVal) : JVal :=
  let d1 := ensureAt d [] "agents"
  let d2 := ensureAt d1 ["agents"] "defaults"
  if getPath (some d2) ["agents", "defaults", "workspace"] ≠ some (.jstr (wsDesired e))
  then setPath d2 ["agents", "defaults", "workspace"] (.jstr (wsDesired e))
  else d2

/-- Unconditional `ensureObject` of `auth` and `auth.profiles`. -/
def authRule (d : JVal) : JVal :=
  ensureAt (ensureAt d [] "auth") ["auth"] "profiles"

/-- Thinking-default rule. -/
def tdRule (e : Env) (d : JVal) : JVal :=
  let v := strTrim (e "OPENCLAW_THINKING_DEFAULT")
  if v ≠ "" ∧ getPath (some d) ["agents", "defaults", "thinkingDefault"] ≠ some (.jstr v)
  then setPath d ["agents", "defaults", "thinkingDefault"] (.jstr v)
  else d

/-- Max-concurrency rule (numeric comparison via `Number`). -/
def mcRule (e : Env) (d : JVal) : JVal :=
  let v := strTrim (e "OPENCLAW_MAX_CONCURRENT")
  if v ≠ "" ∧ jsNumNe (getPath (some d) ["agents", "defaults", "maxConcurrent"]) (jsNumber v) = true
  then setPath d ["agents", "defaults", "maxConcurrent"] (.jnum (jsNumber v))
  else d

/-- Context-pruning rule; note the ttl update is nested inside the
mode's non-emptiness check, exactly as in the source. -/
def cpRule (e : Env) (d : JVal) : JVal :=
  let mode := strTrim (e "OPENCLAW_CONTEXT_PRUNING_MODE")
  if mode = "" then d
  else
    let d1 := ensureAt d ["agents", "defaults"] "contextPruning"
    let d2 :=
      if getPath (some d1) ["agents", "defaults", "contextPruning", "mode"]
          ≠ some (.jstr mode)
      then setPath d1 ["agents", "defaults", "contextPruning", "mode"] (.jstr mode)
      else d1
    let ttl := strTrim (e "OPENCLAW_CONTEXT_PRUNING_TTL")
    if ttl ≠ "" ∧ getPath (some d2) ["agents", "defaults", "contextPruning", "ttl"]
        ≠ some (.jstr ttl)
    then setPath d2 ["agents", "defaults", "contextPruning", "ttl"] (.jstr ttl)
    else d2

/-- Compaction rule. -/
def compRule (e : Env) (d : JVal) : JVal :=
  let mode := strTrim (e "OPENCLAW_COMPACTION_MODE")
  if mode = "" then d
  else
    let d1 := ensureAt d ["agents", "defaults"] "compaction"
    if getPath (some d1) ["agents", "defaults", "compaction", "mode"] ≠ some (.jstr mode)
    then setPath d1 ["agents", "defaults", "compaction", "mode"] (.jstr mode)
    else d1

/-- Heartbeat rule. -/
def hbRule (e : Env) (d : JVal) : JVal :=
  let v := strTrim (e "OPENCLAW_HEARTBEAT_EVERY")
  if v = "" then d
  else
    let d1 := ensureAt d ["agents", "defaults"] "heartbeat"
    if getPath (some d1) ["agents", "defaults", "heartbeat", "every"] ≠ some (.jstr v)
    then setPath d1 ["agents", "defaults", "heartbeat", "every"] (.jstr v)
    else d1

/-- Gateway-auth rule: sets both `mode` and `token` when either differs. -/
def gwRule (e : Env) (d : JVal) : JVal :=
  let gt := strTrim (e "OPENCLAW_GATEWAY_TOKEN")
  if gt = "" then d
  else
    let d1 := ensureAt d [] "gateway"
    let d2 := ensureAt d1 ["gateway"] "auth"
    if getPath (some d2) ["gateway", "auth", "mode"] ≠ some (.jstr "token")
        ∨ getPath (some d2) ["gateway", "auth", "token"] ≠ some (.jstr gt)
    then setPath (setPath d2 ["gateway", "auth", "mode"] (.jstr "token"))
           ["gateway", "auth", "token"] (.jstr gt)
    else d2

/-- Telegram rule: enable the channel and the plugin entry. -/
def tgRule (e : Env) (d : JVal) : JVal :=
  let t := strTrim (e "TELEGRAM_BOT_TOKEN")
  if t = "" then d
  else
    let d1 := ensureAt d [] "channels"
    let d2 := ensureAt d1 ["channels"] "telegram"
    let d3 :=
      if getPath (some d2) ["channels", "telegram", "enabled"] ≠ some (.jbool true)
      then setPath d2 ["channels", "telegram", "enabled"] (.jbool true)
      else d2
    let d4 := ensureAt d3 [] "plugins"
    let d5 := ensureAt d4 ["plugins"] "entries"
    let d6 := ensureAt d5 ["plugins", "entries"] "telegram"
    if getPath (some d6) ["plugins", "entries", "telegram", "enabled"] ≠ some (.jbool true)
    then setPath d6 ["plugins", "entries", "telegram", "enabled"] (.jbool true)
    else d6

/-- Discord rule: requires both a bot token and a guild id. -/
def dcRule (e : Env) (d : JVal) : JVal :=
  let t := strTrim (e "DISCORD_BOT_TOKEN")
  let g := strTrim (e "DISCORD_GUILD_ID")
  if t = "" ∨ g = "" then d
  else
    let d1 := ensureAt d [] "channels"
    let d2 := ensureAt d1 ["channels"] "discord"
    let d3 :=
      if getPath (some d2) ["channels", "discord", "enabled"] ≠ some (.jbool true)
      then setPath d2 ["channels", "discord", "enabled"] (.jbool true)
      else d2
    let d4 := ensureAt d3 [] "plugins"
    let d5 := ensureAt d4 ["plugins"] "entries"
    let d6 := ensureAt d5 ["plugins", "entries"] "discord"
    if getPath (some d6) ["plugins", "entries", "discord", "enabled"] ≠ some (.jbool true)
    then setPath d6 ["plugins", "entries", "discord", "enabled"] (.jbool true)
    else d6

/-- The whole reconciliation pass on the in-memory document, rule by rule
in source order.  On a document whose root is not an object the pass
leaves the document unchanged, matching the script's observable
behaviour there (a primitive root raises a caught `TypeError` before any
write; property writes on an array root are invisible to
`JSON.stringify`, so the stored document never changes). -/
def syncPass (e : Env) (d : JVal) : JVal :=
  dcRule e (tgRule e (gwRule e (hbRule e (compRule e (cpRule e (mcRule e (tdRule e
    (modelRule (computeAvailable e)
      (profilesStep e PROVIDERS [] (authRule (wsRule e d)))))))))))

/-- File states: `none` = file absent; `some none` = present but not
valid JSON (`readConfig` yields `{}`); `some (some v)` = parses to `v`. -/
abbrev FileState : Type := Option (Option JVal)

/-- The document `readConfig` yields from a (post-creation) file state. -/
def loadedDoc (fs : FileState) : JVal :=
  match fs with
  | none => .jobj []
  | some none => .jobj []
  | some (some v) => v

/-- Result of one reconciler process run. -/
structure RunResult where
  file : FileState
  writes : Nat
  exitCode : Nat
  warned : Bool
deriving DecidableEq

/-- One end-to-end run: create the file as `{}` when absent (a first
write), load, run the pass inside the top-level try, and write back only
when the serialized document differs from the load-time snapshot.
A primitive root makes `ensureObject(config, "agents")` raise a strict-mode
`TypeError`, caught at top level (warning logged, no write); an array
root accepts the property writes but `JSON.stringify` does not serialize
them, so the comparison sees no change.  The process exits 0 always. -/
def runSync (fs : FileState) (e : Env) : RunResult :=
  let w1 : Nat := match fs with | none => 1 | some _ => 0
  let fs1 : FileState := match fs with | none => some (some (.jobj [])) | some c => some c
  let config := loadedDoc fs1
  match config with
  | .jobj l =>
      let updated := syncPass e (.jobj l)
      if jsonStringify updated ≠ jsonStringify (.jobj l)
      then { file := some (some updated), writes := w1 + 1, exitCode := 0, warned := false }
      else { file := fs1, writes := w1, exitCode := 0, warned := false }
  | .jarr _ => { file := fs1, writes := w1, exitCode := 0, warned := false }
  | _ => { file := fs1, writes := w1, exitCode := 0, warned := true }

/-! ### Generic association-list and path lemmas -/

/-- The value at a path is an object. -/
def isObjAt (d : JVal) (q : List String) : Prop :=
  ∃ l, getPath (some d) q = some (.jobj l)

/-- The document root is an object. -/
def rootObj (d : JVal) : Prop := ∃ l, d = .jobj l

/-- Paths that part ways at some shared index: a write below one cannot
be seen from below the other. -/
def divergesPath : List String → List String → Bool
  | [], _ => false
  | _, [] => false
  | a :: as, b :: bs => if a = b then divergesPath as bs else true

/-- Strict prefix on paths. -/
def strictPre : List String → List String → Bool
  | [], _ :: _ => true
  | a :: as, b :: bs => a = b && strictPre as bs
  | _, _ => false

theorem getKey_setKey_self (l : List (String × JVal)) (k : String) (v : JVal) :
    getKey (setKey l k v) k = some v := by
  induction l with
  | nil => simp [setKey, getKey]
  | cons hd tl ih =>
      obtain ⟨k', v'⟩ := hd
      by_cases h : k' = k <;> simp [setKey, getKey, h, ih]

theorem getKey_setKey_ne (l : List (String × JVal)) (k k' : String) (v : JVal)
    (h : k' ≠ k) : getKey (setKey l k v) k' = getKey l k' := by
  have hkk : k ≠ k' := fun hh => h hh.symm
  induction l with
  | nil => simp [setKey, getKey, hkk]
  | cons hd tl ih =>
      obtain ⟨k0, v0⟩ := hd
      by_cases h0 : k0 = k
      · subst h0
        simp [setKey, getKey, hkk]
      · simp only [setKey, if_neg h0, getKey]
        by_cases h1 : k0 = k' <;> simp [h1, ih]

theorem setKey_of_getKey_eq (l : List (String × JVal)) (k : String) (v : JVal)
    (h : getKey l k = some v) : setKey l k v = l := by
  induction l with
  | nil => simp [getKey] at h
  | cons hd tl ih =>
      obtain ⟨k0, v0⟩ := hd
      by_cases h0 : k0 = k
      · subst h0
        simp [getKey] at h
        simp [setKey, h]
      · simp [getKey, h0] at h
        simp [setKey, h0, ih h]

theorem jget_none (k : String) : jget none k = none := rfl

theorem getPath_none (p : List String) : getPath none p = none := by
  induction p with
  | nil => rfl
  | cons k ks ih => simp [getPath, jget_none, ih]

theorem getPath_emptyObj (k : String) (ks : List String) :
    getPath (some (.jobj [])) (k :: ks) = none := by
  simp [getPath, jget, getKey, getPath_none]

theorem getPath_append (o : Option JVal) (p q : List String) :
    getPath o (p ++ q) = getPath (getPath o p) q := by
  induction p generalizing o with
  | nil => rfl
  | cons k ks ih => simp [getPath, ih]

theorem getPath_jset_ne (d : JVal) (k k' : String) (v : JVal) (q : List String)
    (h : k' ≠ k) : getPath (some (jset d k v)) (k' :: q) = getPath (some d) (k' :: q) := by
  cases d <;> simp [jset, getPath, jget, getKey_setKey_ne _ _ _ _ h]

theorem getPath_setPath_diverges : ∀ (p q : List String) (d v : JVal),
    divergesPath p q = true →
    getPath (some (setPath d p v)) q = getPath (some d) q := by
  intro p
  induction p with
  | nil => intro q d v h; simp [divergesPath] at h
  | cons a as ih =>
      intro q d v h
      cases q with
      | nil => simp [divergesPath] at h
      | cons b bs =>
          by_cases hab : a = b
          · subst hab
            simp only [divergesPath, if_pos rfl] at h
            cases d with
            | jobj l =>
                simp only [setPath, jset, getPath, jget, getKey_setKey_self]
                cases hg : getKey l a with
                | some c => simp only [hg]; exact ih bs c v h
                | none =>
                    simp only [hg]
                    rw [ih bs (.jobj []) v h, getPath_none]
                    cases bs with
                    | nil => simp [divergesPath] at h ⊢; cases as <;> simp [divergesPath] at h ⊢
                    | cons b' bs' => rw [getPath_emptyObj]
            | jstr s => simp [setPath, jset]
            | jnum n => simp [setPath, jset]
            | jbool b => simp [setPath, jset]
            | jnull => simp [setPath, jset]
            | jarr xs => simp [setPath, jset]
          · simp only [setPath]
            exact getPath_jset_ne d a b _ bs (fun hh => hab hh.symm)

theorem setPath_of_getPath_eq : ∀ (p : List String) (d v : JVal),
    getPath (some d) p = some v → setPath d p v = d := by
  intro p
  induction p with
  | nil => intro d v h; simp [getPath] at h; simp [setPath, h]
  | cons k ks ih =>
      intro d v h
      cases d with
      | jobj l =>
          simp only [getPath, jget] at h
          cases hg : getKey l k with
          | none => rw [hg] at h; rw [getPath_none] at h; exact absurd h (by simp)
          | some c =>
              rw [hg] at h
              simp only [setPath, jget, hg, jset]
              rw [ih c v h, setKey_of_getKey_eq l k c hg]
      | jstr s => simp [getPath, jget, getPath_none] at h
      | jnum n => simp [getPath, jget, getPath_none] at h
      | jbool b => simp [getPath, jget, getPath_none] at h
      | jnull => simp [getPath, jget, getPath_none] at h
      | jarr xs => simp [getPath, jget, getPath_none] at h

/-- Writability of a path: every node already present along it is an
object (missing tails are created as fresh objects). -/
def canWrite : Option JVal → List String → Prop
  | _, [] => True
  | o, k :: ks =>
      match o with
      | some (.jobj l) => canWrite (getKey l k) ks
      | none => True
      | some _ => False

theorem canWrite_none : ∀ ks, canWrite none ks
  | [] => trivial
  | _ :: _ => trivial

theorem canWrite_emptyObj : ∀ ks, canWrite (some (.jobj [])) ks
  | [] => trivial
  | k :: ks => by
      show canWrite (getKey [] k) ks
      simp only [getKey]
      exact canWrite_none ks

theorem getPath_setPath_self : ∀ (p : List String) (d v : JVal),
    canWrite (some d) p → getPath (some (setPath d p v)) p = some v := by
  intro p
  induction p with
  | nil => intro d v _; rfl
  | cons k ks ih =>
      intro d v hcw
      cases d with
      | jobj l =>
          have hcw' : canWrite (getKey l k) ks := hcw
          simp only [setPath, jset, getPath, jget, getKey_setKey_self]
          cases hg : getKey l k with
          | some c => rw [hg] at hcw'; exact ih c v hcw'
          | none => exact ih (.jobj []) v (canWrite_emptyObj ks)
      | jstr s => exact absurd hcw (by simp [canWrite])
      | jnum n => exact absurd hcw (by simp [canWrite])
      | jbool b => exact absurd hcw (by simp [canWrite])
      | jnull => exact absurd hcw (by simp [canWrite])
      | jarr xs => exact absurd hcw (by simp [canWrite])

theorem canWrite_of_isObj : ∀ (p : List String) (d : JVal) (m : List (String × JVal))
    (k : String), getPath (some d) p = some (.jobj m) → canWrite (some d) (p ++ [k]) := by
  intro p
  induction p with
  | nil =>
      intro d m k h
      simp [getPath] at h
      subst h
      show canWrite (getKey m k) []
      trivial
  | cons a as ih =>
      intro d m k h
      cases d with
      | jobj l =>
          simp only [getPath, jget] at h
          cases hg : getKey l a with
          | none => rw [hg, getPath_none] at h; exact absurd h (by simp)
          | some c =>
              rw [hg] at h
              show canWrite (getKey l a) (as ++ [k])
              rw [hg]
              exact ih c m k h
      | jstr s => simp [getPath, jget, getPath_none] at h
      | jnum n => simp [getPath, jget, getPath_none] at h
      | jbool b => simp [getPath, jget, getPath_none] at h
      | jnull => simp [getPath, jget, getPath_none] at h
      | jarr xs => simp [getPath, jget, getPath_none] at h

/-- A write strictly below a path keeps the object at that path an
object (its field list may change). -/
theorem isObjAt_setPath_strictPre : ∀ (q p : List String) (d v : JVal),
    strictPre q p = true → isObjAt d q → isObjAt (setPath d p v) q := by
  intro q
  induction q with
  | nil =>
      intro p d v hsp hobj
      obtain ⟨l, hl⟩ := hobj
      simp [getPath] at hl
      subst hl
      cases p with
      | nil => simp [strictPre] at hsp
      | cons k ks => exact ⟨_, rfl⟩
  | cons a as ih =>
      intro p d v hsp hobj
      cases p with
      | nil => simp [strictPre] at hsp
      | cons b bs =>
          simp only [strictPre, Bool.and_eq_true, decide_eq_true_eq] at hsp
          obtain ⟨hab, hsp'⟩ := hsp
          subst hab
          obtain ⟨l, hl⟩ := hobj
          cases d with
          | jobj m =>
              simp only [getPath, jget] at hl
              cases hg : getKey m a with
              | none => rw [hg, getPath_none] at hl; exact absurd hl (by simp)
              | some c =>
                  rw [hg] at hl
                  have := ih bs c v hsp' ⟨l, hl⟩
                  obtain ⟨l', hl'⟩ := this
                  refine ⟨l', ?_⟩
                  simp only [setPath, jget, hg, jset, getPath, getKey_setKey_self]
                  exact hl'
          | jstr s => simp [getPath, jget, getPath_none] at hl
          | jnum n => simp [getPath, jget, getPath_none] at hl
          | jbool b => simp [getPath, jget, getPath_none] at hl
          | jnull => simp [getPath, jget, getPath_none] at hl
          | jarr xs => simp [getPath, jget, getPath_none] at hl

/-- `ensureAt` either leaves the document alone or writes `{}` at
`path ++ [k]`. -/
theorem isObjB_iff (o : Option JVal) :
    isObjB o = true ↔ ∃ l, o = some (.jobj l) := by
  cases o with
  | none => simp [isObjB]
  | some v => cases v <;> simp [isObjB]

theorem ensureAt_cases (d : JVal) (p : List String) (k : String) :
    ensureAt d p k = d ∨ ensureAt d p k = setPath d (p ++ [k]) (.jobj []) := by
  unfold ensureAt
  by_cases hb : isObjB (getPath (some d) (p ++ [k])) = true
  · rw [if_pos hb]; exact Or.inl rfl
  · rw [if_neg hb]
    cases hg : getPath (some d) p with
    | none => exact Or.inl rfl
    | some parent => exact Or.inr rfl

/-- `ensureAt` is a no-op when the child is already an object. -/
theorem ensureAt_noop (d : JVal) (p : List String) (k : String)
    (g : List (String × JVal)) (h : getPath (some d) (p ++ [k]) = some (.jobj g)) :
    ensureAt d p k = d := by
  have hb : isObjB (getPath (some d) (p ++ [k])) = true := by rw [h]; rfl
  unfold ensureAt
  rw [if_pos hb]

/-- After `ensureAt` below an object, the child is an object. -/
theorem ensureAt_isObj (d : JVal) (p : List String) (k : String)
    (m : List (String × JVal)) (h : getPath (some d) p = some (.jobj m)) :
    isObjAt (ensureAt d p k) (p ++ [k]) := by
  unfold ensureAt
  by_cases hb : isObjB (getPath (some d) (p ++ [k])) = true
  · rw [if_pos hb]
    obtain ⟨g, hg⟩ := (isObjB_iff _).mp hb
    exact ⟨g, hg⟩
  · rw [if_neg hb, h]
    exact ⟨[], getPath_setPath_self _ _ _ (canWrite_of_isObj p d m k h)⟩

theorem getPath_ensureAt_diverges (d : JVal) (p : List String) (k : String)
    (q : List String) (h : divergesPath (p ++ [k]) q = true) :
    getPath (some (ensureAt d p k)) q = getPath (some d) q := by
  rcases ensureAt_cases d p k with hc | hc <;> rw [hc]
  exact getPath_setPath_diverges _ _ _ _ h

theorem isObjAt_ensureAt_strictPre (d : JVal) (p : List String) (k : String)
    (q : List String) (h : strictPre q (p ++ [k]) = true) (hobj : isObjAt d q) :
    isObjAt (ensureAt d p k) q := by
  rcases ensureAt_cases d p k with hc | hc <;> rw [hc]
  · exact hobj
  · exact isObjAt_setPath_strictPre _ _ _ _ h hobj

/-- Root objects stay root objects under `jset`. -/
theorem rootObj_jset (d : JVal) (k : String) (v : JVal) (h : rootObj d) :
    rootObj (jset d k v) := by
  obtain ⟨l, rfl⟩ := h
  exact ⟨_, rfl⟩

theorem rootObj_setPath (d : JVal) (k : String) (ks : List String) (v : JVal)
    (h : rootObj d) : rootObj (setPath d (k :: ks) v) := by
  simp only [setPath]
  exact rootObj_jset _ _ _ h

theorem rootObj_ensureAt (d : JVal) (p : List String) (k : String) (h : rootObj d) :
    rootObj (ensureAt d p k) := by
  rcases ensureAt_cases d p k with hc | hc <;> rw [hc]
  · exact h
  · cases p with
    | nil => exact rootObj_setPath _ _ _ _ h
    | cons a as => exact rootObj_setPath _ _ _ _ h

theorem divergesPath_append_right : ∀ (p r q : List String),
    divergesPath p q = true → divergesPath (p ++ r) q = true := by
  intro p
  induction p with
  | nil =>
      intro r q h
      rw [show divergesPath [] q = false by cases q <;> rfl] at h
      exact absurd h (by decide)
  | cons a as ih =>
      intro r q h
      cases q with
      | nil =>
          rw [show divergesPath (a :: as) [] = false from rfl] at h
          exact absurd h (by decide)
      | cons b bs =>
          rw [List.cons_append]
          rw [show divergesPath (a :: as) (b :: bs)
                = if a = b then divergesPath as bs else true from rfl] at h
          rw [show divergesPath (a :: (as ++ r)) (b :: bs)
                = if a = b then divergesPath (as ++ r) bs else true from rfl]
          by_cases hab : a = b
          · rw [if_pos hab] at h ⊢; exact ih r bs h
          · rw [if_neg hab]

theorem strictPre_nil_right : ∀ (x : List String), strictPre x [] = false := by
  intro x; cases x <;> rfl

theorem strictPre_append : ∀ (q p r : List String),
    strictPre q p = true → strictPre q (p ++ r) = true := by
  intro q
  induction q with
  | nil =>
      intro p r h
      cases p with
      | nil => rw [strictPre_nil_right] at h; exact absurd h (by simp)
      | cons b bs => simp [strictPre]
  | cons a as ih =>
      intro p r h
      cases p with
      | nil => rw [strictPre_nil_right] at h; exact absurd h (by simp)
      | cons b bs =>
          simp only [strictPre, Bool.and_eq_true, decide_eq_true_eq] at h
          obtain ⟨rfl, h2⟩ := h
          simp only [List.cons_append, strictPre, Bool.and_eq_true, decide_eq_true_eq]
          exact ⟨by simp, ih bs r h2⟩

/-- Frame/object-preservation facts for `ensureAt` at a sub-path. -/
theorem isObjAt_ensureAt_of_strictPre_base (d : JVal) (p : List String) (k : String)
    (q : List String) (h : strictPre q (p ++ [k]) = true) :
    isObjAt d q → isObjAt (ensureAt d p k) q :=
  isObjAt_ensureAt_strictPre d p k q h

/-! ### Per-rule frame and preservation lemmas -/

theorem wsRule_frame (e : Env) (d : JVal) (q : List String)
    (h : divergesPath ["agents"] q = true) :
    getPath (some (wsRule e d)) q = getPath (some d) q := by
  have h2 : divergesPath ["agents", "defaults"] q = true :=
    divergesPath_append_right ["agents"] ["defaults"] q h
  have h3 : divergesPath ["agents", "defaults", "workspace"] q = true :=
    divergesPath_append_right ["agents"] ["defaults", "workspace"] q h
  simp only [wsRule]
  split <;>
    simp only [getPath_setPath_diverges _ _ _ _ h3,
      getPath_ensureAt_diverges _ ["agents"] "defaults" _ h2,
      getPath_ensureAt_diverges _ [] "agents" _ h]

theorem authRule_frame (d : JVal) (q : List String)
    (h : divergesPath ["auth"] q = true) :
    getPath (some (authRule d)) q = getPath (some d) q := by
  have h2 : divergesPath ["auth", "profiles"] q = true :=
    divergesPath_append_right ["auth"] ["profiles"] q h
  unfold authRule
  rw [getPath_ensureAt_diverges _ ["auth"] "profiles" _ h2,
    getPath_ensureAt_diverges _ [] "auth" _ h]

theorem profilesStep_frame (e : Env) : ∀ (specs : List ProviderSpec)
    (seen : List String) (d : JVal) (q : List String),
    divergesPath ["auth"] q = true →
    getPath (some (profilesStep e specs seen d)) q = getPath (some d) q := by
  intro specs
  induction specs with
  | nil => intro seen d q _; rfl
  | cons pc rest ih =>
      intro seen d q h
      simp only [profilesStep]
      by_cases h1 : strTrim (e pc.envVar) = ""
      · rw [if_pos h1]; exact ih seen d q h
      · rw [if_neg h1]
        by_cases h2 : pc.envVar ∈ seen
        · rw [if_pos h2]; exact ih seen d q h
        · rw [if_neg h2]
          split
          · exact ih _ d q h
          · rw [ih _ _ q h]
            exact getPath_setPath_diverges _ _ _ _
              (divergesPath_append_right ["auth"] ["profiles", pc.profileKey] q h)

theorem modelPrimaryStep_frame (av : List String) (d : JVal) (q : List String)
    (h : divergesPath modelPath q = true) :
    getPath (some (modelPrimaryStep av d)) q = getPath (some d) q := by
  have hp : divergesPath (modelPath ++ ["primary"]) q = true :=
    divergesPath_append_right _ _ _ h
  cases av with
  | nil => rfl
  | cons a0 rest =>
      simp only [modelPrimaryStep]
      repeat' split
      all_goals first
        | rfl
        | exact getPath_setPath_diverges _ _ _ _ hp

theorem modelFallbacksStep_frame (av : List String) (d : JVal) (q : List String)
    (h : divergesPath modelPath q = true) :
    getPath (some (modelFallbacksStep av d)) q = getPath (some d) q := by
  have hf : divergesPath (modelPath ++ ["fallbacks"]) q = true :=
    divergesPath_append_right _ _ _ h
  simp only [modelFallbacksStep]
  split
  · exact getPath_setPath_diverges _ _ _ _ hf
  · rfl

theorem modelRule_frame (av : List String) (d : JVal) (q : List String)
    (h : divergesPath modelPath q = true) :
    getPath (some (modelRule av d)) q = getPath (some d) q := by
  cases av with
  | nil => rfl
  | cons a0 rest =>
      show getPath (some (modelFallbacksStep _ (modelPrimaryStep _ (ensureAt _ _ _)))) q = _
      rw [modelFallbacksStep_frame _ _ _ h, modelPrimaryStep_frame _ _ _ h,
        getPath_ensureAt_diverges _ ["agents", "defaults"] "model" _ h]

theorem tdRule_frame (e : Env) (d : JVal) (q : List String)
    (h : divergesPath ["agents", "defaults", "thinkingDefault"] q = true) :
    getPath (some (tdRule e d)) q = getPath (some d) q := by
  simp only [tdRule]
  split
  · exact getPath_setPath_diverges _ _ _ _ h
  · rfl

theorem mcRule_frame (e : Env) (d : JVal) (q : List String)
    (h : divergesPath ["agents", "defaults", "maxConcurrent"] q = true) :
    getPath (some (mcRule e d)) q = getPath (some d) q := by
  simp only [mcRule]
  split
  · exact getPath_setPath_diverges _ _ _ _ h
  · rfl

theorem cpRule_frame (e : Env) (d : JVal) (q : List String)
    (h : divergesPath ["agents", "defaults", "contextPruning"] q = true) :
    getPath (some (cpRule e d)) q = getPath (some d) q := by
  have hm : divergesPath ["agents", "defaults", "contextPruning", "mode"] q = true :=
    divergesPath_append_right _ ["mode"] _ h
  have ht : divergesPath ["agents", "defaults", "contextPruning", "ttl"] q = true :=
    divergesPath_append_right _ ["ttl"] _ h
  simp only [cpRule]
  split
  · rfl
  · split <;> split <;>
      simp only [getPath_setPath_diverges _ _ _ _ hm, getPath_setPath_diverges _ _ _ _ ht,
        getPath_ensureAt_diverges _ ["agents", "defaults"] "contextPruning" _ h]

theorem compRule_frame (e : Env) (d : JVal) (q : List String)
    (h : divergesPath ["agents", "defaults", "compaction"] q = true) :
    getPath (some (compRule e d)) q = getPath (some d) q := by
  have hm : divergesPath ["agents", "defaults", "compaction", "mode"] q = true :=
    divergesPath_append_right _ ["mode"] _ h
  simp only [compRule]
  split
  · rfl
  · split <;>
      simp only [getPath_setPath_diverges _ _ _ _ hm,
        getPath_ensureAt_diverges _ ["agents", "defaults"] "compaction" _ h]

theorem hbRule_frame (e : Env) (d : JVal) (q : List String)
    (h : divergesPath ["agents", "defaults", "heartbeat"] q = true) :
    getPath (some (hbRule e d)) q = getPath (some d) q := by
  have hm : divergesPath ["agents", "defaults", "heartbeat", "every"] q = true :=
    divergesPath_append_right _ ["every"] _ h
  simp only [hbRule]
  split
  · rfl
  · split <;>
      simp only [getPath_setPath_diverges _ _ _ _ hm,
        getPath_ensureAt_diverges _ ["agents", "defaults"] "heartbeat" _ h]

theorem gwRule_frame (e : Env) (d : JVal) (q : List String)
    (h : divergesPath ["gateway"] q = true) :
    getPath (some (gwRule e d)) q = getPath (some d) q := by
  have h2 : divergesPath ["gateway", "auth"] q = true :=
    divergesPath_append_right _ ["auth"] _ h
  have h3 : divergesPath ["gateway", "auth", "mode"] q = true :=
    divergesPath_append_right _ ["auth", "mode"] _ h
  have h4 : divergesPath ["gateway", "auth", "token"] q = true :=
    divergesPath_append_right _ ["auth", "token"] _ h
  simp only [gwRule]
  split
  · rfl
  · split <;>
      simp only [getPath_setPath_diverges _ _ _ _ h3, getPath_setPath_diverges _ _ _ _ h4,
        getPath_ensureAt_diverges _ [] "gateway" _ h,
        getPath_ensureAt_diverges _ ["gateway"] "auth" _ h2]

theorem tgRule_frame (e : Env) (d : JVal) (q : List String)
    (hc : divergesPath ["channels"] q = true)
    (hp : divergesPath ["plugins"] q = true) :
    getPath (some (tgRule e d)) q = getPath (some d) q := by
  have hc2 : divergesPath ["channels", "telegram"] q = true :=
    divergesPath_append_right _ ["telegram"] _ hc
  have hc3 : divergesPath ["channels", "telegram", "enabled"] q = true :=
    divergesPath_append_right _ ["telegram", "enabled"] _ hc
  have hp2 : divergesPath ["plugins", "entries"] q = true :=
    divergesPath_append_right _ ["entries"] _ hp
  have hp3 : divergesPath ["plugins", "entries", "telegram"] q = true :=
    divergesPath_append_right _ ["entries", "telegram"] _ hp
  have hp4 : divergesPath ["plugins", "entries", "telegram", "enabled"] q = true :=
    divergesPath_append_right _ ["entries", "telegram", "enabled"] _ hp
  simp only [tgRule]
  split
  · rfl
  · split <;> split <;>
      simp only [getPath_setPath_diverges _ _ _ _ hc3, getPath_setPath_diverges _ _ _ _ hp4,
        getPath_ensureAt_diverges _ [] "channels" _ hc,
        getPath_ensureAt_diverges _ ["channels"] "telegram" _ hc2,
        getPath_ensureAt_diverges _ [] "plugins" _ hp,
        getPath_ensureAt_diverges _ ["plugins"] "entries" _ hp2,
        getPath_ensureAt_diverges _ ["plugins", "entries"] "telegram" _ hp3]

theorem strictPre_self_append : ∀ (p : List String) (k : String) (rs : List String),
    strictPre p (p ++ k :: rs) = true := by
  intro p
  induction p with
  | nil => intro k rs; simp [strictPre]
  | cons a as ih =>
      intro k rs
      simp only [List.cons_append, strictPre, Bool.and_eq_true, decide_eq_true_eq]
      exact ⟨by simp, ih k rs⟩

/-- Extend a (possibly improper) prefix fact to a strictly longer path. -/
theorem strictPreExt (q p : List String) (k : String) (rs : List String)
    (h : strictPre q p = true ∨ q = p) : strictPre q (p ++ k :: rs) = true := by
  rcases h with h | rfl
  · exact strictPre_append q p (k :: rs) h
  · exact strictPre_self_append q k rs

theorem canWrite_of_getPath : ∀ (p : List String) (d : JVal) (v : JVal),
    getPath (some d) p = some v → canWrite (some d) p := by
  intro p
  induction p with
  | nil => intro d v _; trivial
  | cons k ks ih =>
      intro d v h
      cases d with
      | jobj l =>
          simp only [getPath, jget] at h
          cases hg : getKey l k with
          | none => rw [hg, getPath_none] at h; exact absurd h (by simp)
          | some c =>
              rw [hg] at h
              show canWrite (getKey l k) ks
              rw [hg]
              exact ih c v h
      | jstr s => simp [getPath, jget, getPath_none] at h
      | jnum n => simp [getPath, jget, getPath_none] at h
      | jbool b => simp [getPath, jget, getPath_none] at h
      | jnull => simp [getPath, jget, getPath_none] at h
      | jarr xs => simp [getPath, jget, getPath_none] at h

theorem tdRule_objPres (e : Env) (d : JVal) (q : List String)
    (h : strictPre q ["agents", "defaults", "thinkingDefault"] = true)
    (hd : isObjAt d q) : isObjAt (tdRule e d) q := by
  simp only [tdRule]
  split
  · exact isObjAt_setPath_strictPre _ _ _ _ h hd
  · exact hd

theorem mcRule_objPres (e : Env) (d : JVal) (q : List String)
    (h : strictPre q ["agents", "defaults", "maxConcurrent"] = true)
    (hd : isObjAt d q) : isObjAt (mcRule e d) q := by
  simp only [mcRule]
  split
  · exact isObjAt_setPath_strictPre _ _ _ _ h hd
  · exact hd

theorem cpRule_objPres (e : Env) (d : JVal) (q : List String)
    (h : strictPre q ["agents", "defaults", "contextPruning"] = true)
    (hd : isObjAt d q) : isObjAt (cpRule e d) q := by
  have hm : strictPre q (["agents", "defaults", "contextPruning"] ++ ["mode"]) = true :=
    strictPre_append _ _ _ h
  have ht : strictPre q (["agents", "defaults", "contextPruning"] ++ ["ttl"]) = true :=
    strictPre_append _ _ _ h
  have h1 : isObjAt (ensureAt d ["agents", "defaults"] "contextPruning") q :=
    isObjAt_ensureAt_strictPre _ ["agents", "defaults"] "contextPruning" _ h hd
  simp only [cpRule]
  repeat' split
  all_goals first
    | exact hd
    | exact h1
    | exact isObjAt_setPath_strictPre _ _ _ _ ht (isObjAt_setPath_strictPre _ _ _ _ hm h1)
    | exact isObjAt_setPath_strictPre _ _ _ _ ht h1
    | exact isObjAt_setPath_strictPre _ _ _ _ hm h1

theorem compRule_objPres (e : Env) (d : JVal) (q : List String)
    (h : strictPre q ["agents", "defaults", "compaction"] = true)
    (hd : isObjAt d q) : isObjAt (compRule e d) q := by
  have hm : strictPre q (["agents", "defaults", "compaction"] ++ ["mode"]) = true :=
    strictPre_append _ _ _ h
  have h1 : isObjAt (ensureAt d ["agents", "defaults"] "compaction") q :=
    isObjAt_ensureAt_strictPre _ ["agents", "defaults"] "compaction" _ h hd
  simp only [compRule]
  split
  · exact hd
  · split
    · exact isObjAt_setPath_strictPre _ _ _ _ hm h1
    · exact h1

theorem hbRule_objPres (e : Env) (d : JVal) (q : List String)
    (h : strictPre q ["agents", "defaults", "heartbeat"] = true)
    (hd : isObjAt d q) : isObjAt (hbRule e d) q := by
  have hm : strictPre q (["agents", "defaults", "heartbeat"] ++ ["every"]) = true :=
    strictPre_append _ _ _ h
  have h1 : isObjAt (ensureAt d ["agents", "defaults"] "heartbeat") q :=
    isObjAt_ensureAt_strictPre _ ["agents", "defaults"] "heartbeat" _ h hd
  simp only [hbRule]
  split
  · exact hd
  · split
    · exact isObjAt_setPath_strictPre _ _ _ _ hm h1
    · exact h1

theorem modelPrimaryStep_objPres (av : List String) (d : JVal) (q : List String)
    (h : strictPre q modelPath = true ∨ q = modelPath)
    (hd : isObjAt d q) : isObjAt (modelPrimaryStep av d) q := by
  have hp : strictPre q (modelPath ++ ["primary"]) = true := strictPreExt _ _ _ _ h
  cases av with
  | nil => exact hd
  | cons a0 rest =>
      simp only [modelPrimaryStep]
      repeat' split
      all_goals first
        | exact hd
        | exact isObjAt_setPath_strictPre _ _ _ _ hp hd

theorem modelFallbacksStep_objPres (av : List String) (d : JVal) (q : List String)
    (h : strictPre q modelPath = true ∨ q = modelPath)
    (hd : isObjAt d q) : isObjAt (modelFallbacksStep av d) q := by
  have hf : strictPre q (modelPath ++ ["fallbacks"]) = true := strictPreExt _ _ _ _ h
  simp only [modelFallbacksStep]
  split
  · exact isObjAt_setPath_strictPre _ _ _ _ hf hd
  · exact hd

theorem modelRule_objPres (av : List String) (d : JVal) (q : List String)
    (h : strictPre q modelPath = true)
    (hd : isObjAt d q) : isObjAt (modelRule av d) q := by
  cases av with
  | nil => exact hd
  | cons a0 rest =>
      show isObjAt (modelFallbacksStep _ (modelPrimaryStep _ (ensureAt _ _ _))) q
      apply modelFallbacksStep_objPres _ _ _ (Or.inl h)
      apply modelPrimaryStep_objPres _ _ _ (Or.inl h)
      exact isObjAt_ensureAt_strictPre _ ["agents", "defaults"] "model" _ h hd

theorem profilesStep_objPres (e : Env) : ∀ (specs : List ProviderSpec)
    (seen : List String) (d : JVal) (q : List String),
    (strictPre q ["auth", "profiles"] = true ∨ q = ["auth", "profiles"]) →
    isObjAt d q → isObjAt (profilesStep e specs seen d) q := by
  intro specs
  induction specs with
  | nil => intro seen d q _ hd; exact hd
  | cons pc rest ih =>
      intro seen d q h hd
      simp only [profilesStep]
      by_cases h1 : strTrim (e pc.envVar) = ""
      · rw [if_pos h1]; exact ih seen d q h hd
      · rw [if_neg h1]
        by_cases h2 : pc.envVar ∈ seen
        · rw [if_pos h2]; exact ih seen d q h hd
        · rw [if_neg h2]
          split
          · exact ih _ d q h hd
          · apply ih _ _ q h
            exact isObjAt_setPath_strictPre _ _ _ _
              (strictPreExt q ["auth", "profiles"] pc.profileKey [] h) hd

theorem dcRule_frame (e : Env) (d : JVal) (q : List String)
    (hc : divergesPath ["channels"] q = true)
    (hp : divergesPath ["plugins"] q = true) :
    getPath (some (dcRule e d)) q = getPath (some d) q := by
  have hc2 : divergesPath ["channels", "discord"] q = true :=
    divergesPath_append_right _ ["discord"] _ hc
  have hc3 : divergesPath ["channels", "discord", "enabled"] q = true :=
    divergesPath_append_right _ ["discord", "enabled"] _ hc
  have hp2 : divergesPath ["plugins", "entries"] q = true :=
    divergesPath_append_right _ ["entries"] _ hp
  have hp3 : divergesPath ["plugins", "entries", "discord"] q = true :=
    divergesPath_append_right _ ["entries", "discord"] _ hp
  have hp4 : divergesPath ["plugins", "entries", "discord", "enabled"] q = true :=
    divergesPath_append_right _ ["entries", "discord", "enabled"] _ hp
  simp only [dcRule]
  split
  · rfl
  · split <;> split <;>
      simp only [getPath_setPath_diverges _ _ _ _ hc3, getPath_setPath_diverges _ _ _ _ hp4,
        getPath_ensureAt_diverges _ [] "channels" _ hc,
        getPath_ensureAt_diverges _ ["channels"] "discord" _ hc2,
        getPath_ensureAt_diverges _ [] "plugins" _ hp,
        getPath_ensureAt_diverges _ ["plugins"] "entries" _ hp2,
        getPath_ensureAt_diverges _ ["plugins", "entries"] "discord" _ hp3]

/-! ### Conditional-update helpers and rule no-op lemmas -/

theorem condSet_post (d : JVal) (p : List String) (v : JVal) (c : Prop) [Decidable c]
    (himp : ¬ c → getPath (some d) p = some v) (hcw : canWrite (some d) p) :
    getPath (some (if c then setPath d p v else d)) p = some v := by
  split
  · exact getPath_setPath_self p d v hcw
  · next hng => exact himp hng

theorem condSet_frame (d : JVal) (p : List String) (v : JVal) (c : Prop) [Decidable c]
    (q : List String) (h : divergesPath p q = true) :
    getPath (some (if c then setPath d p v else d)) q = getPath (some d) q := by
  split
  · exact getPath_setPath_diverges p q d v h
  · rfl

theorem condSet_objPres (d : JVal) (p : List String) (v : JVal) (c : Prop) [Decidable c]
    (q : List String) (h : strictPre q p = true) (hd : isObjAt d q) :
    isObjAt (if c then setPath d p v else d) q := by
  split
  · exact isObjAt_setPath_strictPre q p d v h hd
  · exact hd

theorem wsRule_noop (e : Env) (d : JVal)
    (hA : isObjAt d ["agents"]) (hD : isObjAt d ["agents", "defaults"])
    (hW : getPath (some d) ["agents", "defaults", "workspace"]
      = some (.jstr (wsDesired e))) : wsRule e d = d := by
  obtain ⟨la, ha⟩ := hA
  obtain ⟨ld, hd2⟩ := hD
  simp only [wsRule]
  rw [ensureAt_noop d [] "agents" la ha,
    ensureAt_noop d ["agents"] "defaults" ld hd2,
    if_neg (not_not_intro hW)]

theorem authRule_noop (d : JVal)
    (hA : isObjAt d ["auth"]) (hP : isObjAt d ["auth", "profiles"]) :
    authRule d = d := by
  obtain ⟨la, ha⟩ := hA
  obtain ⟨lp, hp⟩ := hP
  unfold authRule
  rw [ensureAt_noop d [] "auth" la ha,
    ensureAt_noop d ["auth"] "profiles" lp hp]

theorem tdRule_noop (e : Env) (d : JVal)
    (h : strTrim (e "OPENCLAW_THINKING_DEFAULT") = "" ∨
      getPath (some d) ["agents", "defaults", "thinkingDefault"]
        = some (.jstr (strTrim (e "OPENCLAW_THINKING_DEFAULT")))) :
    tdRule e d = d := by
  simp only [tdRule]
  rcases h with h | h
  · rw [if_neg (fun hc => hc.1 h)]
  · split
    · exact setPath_of_getPath_eq _ _ _ h
    · rfl

theorem mcRule_noop (e : Env) (d : JVal)
    (h : strTrim (e "OPENCLAW_MAX_CONCURRENT") = "" ∨
      getPath (some d) ["agents", "defaults", "maxConcurrent"]
        = some (.jnum (jsNumber (strTrim (e "OPENCLAW_MAX_CONCURRENT"))))) :
    mcRule e d = d := by
  simp only [mcRule]
  rcases h with h | h
  · rw [if_neg (fun hc => hc.1 h)]
  · split
    · exact setPath_of_getPath_eq _ _ _ h
    · rfl

theorem cpRule_noop (e : Env) (d : JVal)
    (h : strTrim (e "OPENCLAW_CONTEXT_PRUNING_MODE") = "" ∨
      (isObjAt d ["agents", "defaults", "contextPruning"] ∧
       getPath (some d) ["agents", "defaults", "contextPruning", "mode"]
         = some (.jstr (strTrim (e "OPENCLAW_CONTEXT_PRUNING_MODE"))) ∧
       (strTrim (e "OPENCLAW_CONTEXT_PRUNING_TTL") ≠ "" →
         getPath (some d) ["agents", "defaults", "contextPruning", "ttl"]
           = some (.jstr (strTrim (e "OPENCLAW_CONTEXT_PRUNING_TTL")))))) :
    cpRule e d = d := by
  simp only [cpRule]
  by_cases h0 : strTrim (e "OPENCLAW_CONTEXT_PRUNING_MODE") = ""
  · rw [if_pos h0]
  · rcases h with h | ⟨⟨lcp, hobj⟩, hmode, httl⟩
    · exact absurd h h0
    · rw [if_neg h0,
        ensureAt_noop d ["agents", "defaults"] "contextPruning" lcp hobj,
        if_neg (not_not_intro hmode)]
      split
      · next hc => exact absurd (httl hc.1) hc.2
      · rfl

theorem compRule_noop (e : Env) (d : JVal)
    (h : strTrim (e "OPENCLAW_COMPACTION_MODE") = "" ∨
      (isObjAt d ["agents", "defaults", "compaction"] ∧
       getPath (some d) ["agents", "defaults", "compaction", "mode"]
         = some (.jstr (strTrim (e "OPENCLAW_COMPACTION_MODE"))))) :
    compRule e d = d := by
  simp only [compRule]
  by_cases h0 : strTrim (e "OPENCLAW_COMPACTION_MODE") = ""
  · rw [if_pos h0]
  · rcases h with h | ⟨⟨lc, hobj⟩, hmode⟩
    · exact absurd h h0
    · rw [if_neg h0,
        ensureAt_noop d ["agents", "defaults"] "compaction" lc hobj,
        if_neg (not_not_intro hmode)]

theorem hbRule_noop (e : Env) (d : JVal)
    (h : strTrim (e "OPENCLAW_HEARTBEAT_EVERY") = "" ∨
      (isObjAt d ["agents", "defaults", "heartbeat"] ∧
       getPath (some d) ["agents", "defaults", "heartbeat", "every"]
         = some (.jstr (strTrim (e "OPENCLAW_HEARTBEAT_EVERY"))))) :
    hbRule e d = d := by
  simp only [hbRule]
  by_cases h0 : strTrim (e "OPENCLAW_HEARTBEAT_EVERY") = ""
  · rw [if_pos h0]
  · rcases h with h | ⟨⟨lc, hobj⟩, hev⟩
    · exact absurd h h0
    · rw [if_neg h0,
        ensureAt_noop d ["agents", "defaults"] "heartbeat" lc hobj,
        if_neg (not_not_intro hev)]

theorem gwRule_noop (e : Env) (d : JVal)
    (h : strTrim (e "OPENCLAW_GATEWAY_TOKEN") = "" ∨
      (isObjAt d ["gateway"] ∧ isObjAt d ["gateway", "auth"] ∧
       getPath (some d) ["gateway", "auth", "mode"] = some (.jstr "token") ∧
       getPath (some d) ["gateway", "auth", "token"]
         = some (.jstr (strTrim (e "OPENCLAW_GATEWAY_TOKEN"))))) :
    gwRule e d = d := by
  simp only [gwRule]
  by_cases h0 : strTrim (e "OPENCLAW_GATEWAY_TOKEN") = ""
  · rw [if_pos h0]
  · rcases h with h | ⟨⟨lg, hg⟩, ⟨la, ha⟩, hm, ht⟩
    · exact absurd h h0
    · rw [if_neg h0,
        ensureAt_noop d [] "gateway" lg hg,
        ensureAt_noop d ["gateway"] "auth" la ha,
        if_neg (by push_neg; exact ⟨hm, ht⟩)]

theorem tgRule_noop (e : Env) (d : JVal)
    (h : strTrim (e "TELEGRAM_BOT_TOKEN") = "" ∨
      (isObjAt d ["channels"] ∧ isObjAt d ["channels", "telegram"] ∧
       getPath (some d) ["channels", "telegram", "enabled"] = some (.jbool true) ∧
       isObjAt d ["plugins"] ∧ isObjAt d ["plugins", "entries"] ∧
       isObjAt d ["plugins", "entries", "telegram"] ∧
       getPath (some d) ["plugins", "entries", "telegram", "enabled"]
         = some (.jbool true))) :
    tgRule e d = d := by
  simp only [tgRule]
  by_cases h0 : strTrim (e "TELEGRAM_BOT_TOKEN") = ""
  · rw [if_pos h0]
  · rcases h with h | ⟨⟨l1, h1⟩, ⟨l2, h2⟩, he1, ⟨l3, h3⟩, ⟨l4, h4⟩, ⟨l5, h5⟩, he2⟩
    · exact absurd h h0
    · rw [if_neg h0,
        ensureAt_noop d [] "channels" l1 h1,
        ensureAt_noop d ["channels"] "telegram" l2 h2,
        if_neg (not_not_intro he1),
        ensureAt_noop d [] "plugins" l3 h3,
        ensureAt_noop d ["plugins"] "entries" l4 h4,
        ensureAt_noop d ["plugins", "entries"] "telegram" l5 h5,
        if_neg (not_not_intro he2)]

theorem dcRule_noop (e : Env) (d : JVal)
    (h : strTrim (e "DISCORD_BOT_TOKEN") = "" ∨ strTrim (e "DISCORD_GUILD_ID") = "" ∨
      (isObjAt d ["channels"] ∧ isObjAt d ["channels", "discord"] ∧
       getPath (some d) ["channels", "discord", "enabled"] = some (.jbool true) ∧
       isObjAt d ["plugins"] ∧ isObjAt d ["plugins", "entries"] ∧
       isObjAt d ["plugins", "entries", "discord"] ∧
       getPath (some d) ["plugins", "entries", "discord", "enabled"]
         = some (.jbool true))) :
    dcRule e d = d := by
  simp only [dcRule]
  by_cases h0 : strTrim (e "DISCORD_BOT_TOKEN") = "" ∨ strTrim (e "DISCORD_GUILD_ID") = ""
  · rw [if_pos h0]
  · rcases h with h | h | ⟨⟨l1, h1⟩, ⟨l2, h2⟩, he1, ⟨l3, h3⟩, ⟨l4, h4⟩, ⟨l5, h5⟩, he2⟩
    · exact absurd (Or.inl h) h0
    · exact absurd (Or.inr h) h0
    · rw [if_neg h0,
        ensureAt_noop d [] "channels" l1 h1,
        ensureAt_noop d ["channels"] "discord" l2 h2,
        if_neg (not_not_intro he1),
        ensureAt_noop d [] "plugins" l3 h3,
        ensureAt_noop d ["plugins"] "entries" l4 h4,
        ensureAt_noop d ["plugins", "entries"] "discord" l5 h5,
        if_neg (not_not_intro he2)]

/-! ### Rule establishment lemmas -/

theorem condSet_rootObj (d : JVal) (k : String) (ks : List String) (v : JVal)
    (c : Prop) [Decidable c] (h : rootObj d) :
    rootObj (if c then setPath d (k :: ks) v else d) := by
  split
  · exact rootObj_setPath d k ks v h
  · exact h

theorem wsRule_post (e : Env) (d : JVal) (hroot : rootObj d) :
    isObjAt (wsRule e d) ["agents"] ∧ isObjAt (wsRule e d) ["agents", "defaults"] ∧
    getPath (some (wsRule e d)) ["agents", "defaults", "workspace"]
      = some (.jstr (wsDesired e)) := by
  obtain ⟨l, rfl⟩ := hroot
  have hA1 : isObjAt (ensureAt (.jobj l) [] "agents") ["agents"] :=
    ensureAt_isObj (.jobj l) [] "agents" l rfl
  obtain ⟨la, hla⟩ := hA1
  have hD2 : isObjAt (ensureAt (ensureAt (.jobj l) [] "agents") ["agents"] "defaults")
      ["agents", "defaults"] :=
    ensureAt_isObj _ ["agents"] "defaults" la hla
  have hA2 : isObjAt (ensureAt (ensureAt (.jobj l) [] "agents") ["agents"] "defaults")
      ["agents"] :=
    isObjAt_ensureAt_strictPre _ ["agents"] "defaults" ["agents"] (by decide) ⟨la, hla⟩
  obtain ⟨ld, hld⟩ := hD2
  refine ⟨?_, ?_, ?_⟩
  · simp only [wsRule]
    exact condSet_objPres _ _ _ _ _ (by decide) hA2
  · simp only [wsRule]
    exact condSet_objPres _ _ _ _ _ (by decide) ⟨ld, hld⟩
  · simp only [wsRule]
    exact condSet_post _ _ _ _ (fun hng => not_not.mp hng)
      (canWrite_of_isObj ["agents", "defaults"] _ ld "workspace" hld)

theorem authRule_post (d : JVal) (hroot : rootObj d) :
    isObjAt (authRule d) ["auth"] ∧ isObjAt (authRule d) ["auth", "profiles"] := by
  obtain ⟨l, rfl⟩ := hroot
  have hA1 : isObjAt (ensureAt (.jobj l) [] "auth") ["auth"] :=
    ensureAt_isObj (.jobj l) [] "auth" l rfl
  obtain ⟨la, hla⟩ := hA1
  unfold authRule
  constructor
  · exact isObjAt_ensureAt_strictPre _ ["auth"] "profiles" ["auth"] (by decide) ⟨la, hla⟩
  · exact ensureAt_isObj _ ["auth"] "profiles" la hla

theorem tdRule_post (e : Env) (d : JVal) (hD : isObjAt d ["agents", "defaults"])
    (hv : strTrim (e "OPENCLAW_THINKING_DEFAULT") ≠ "") :
    getPath (some (tdRule e d)) ["agents", "defaults", "thinkingDefault"]
      = some (.jstr (strTrim (e "OPENCLAW_THINKING_DEFAULT"))) := by
  obtain ⟨ld, hld⟩ := hD
  simp only [tdRule]
  exact condSet_post _ _ _ _
    (fun hng => not_not.mp (not_and.mp hng hv))
    (canWrite_of_isObj ["agents", "defaults"] _ ld "thinkingDefault" hld)

theorem mcRule_post (e : Env) (d : JVal) (hD : isObjAt d ["agents", "defaults"])
    (hv : strTrim (e "OPENCLAW_MAX_CONCURRENT") ≠ "") :
    getPath (some (mcRule e d)) ["agents", "defaults", "maxConcurrent"]
      = some (.jnum (jsNumber (strTrim (e "OPENCLAW_MAX_CONCURRENT")))) := by
  obtain ⟨ld, hld⟩ := hD
  simp only [mcRule]
  apply condSet_post _ _ _ _ ?_ (canWrite_of_isObj ["agents", "defaults"] _ ld "maxConcurrent" hld)
  intro hng
  have h2 : ¬ jsNumNe (getPath (some d) ["agents", "defaults", "maxConcurrent"])
      (jsNumber (strTrim (e "OPENCLAW_MAX_CONCURRENT"))) = true := not_and.mp hng hv
  cases hf : getPath (some d) ["agents", "defaults", "maxConcurrent"] with
  | none => rw [hf] at h2; exact absurd rfl h2
  | some v =>
      rw [hf] at h2
      cases v with
      | jnum n =>
          cases n with
          | none => exact absurd rfl h2
          | some a =>
              cases hn : jsNumber (strTrim (e "OPENCLAW_MAX_CONCURRENT")) with
              | none => rw [hn] at h2; exact absurd rfl h2
              | some b =>
                  rw [hn] at h2
                  simp only [jsNumNe, decide_eq_true_eq, ne_eq] at h2
                  rw [not_not] at h2
                  rw [h2] at hf
                  exact hf
      | jstr s => exact absurd rfl h2
      | jbool b => exact absurd rfl h2
      | jnull => exact absurd rfl h2
      | jarr xs => exact absurd rfl h2
      | jobj m => exact absurd rfl h2

theorem cpRule_post (e : Env) (d : JVal) (hD : isObjAt d ["agents", "defaults"])
    (hm : strTrim (e "OPENCLAW_CONTEXT_PRUNING_MODE") ≠ "") :
    isObjAt (cpRule e d) ["agents", "defaults", "contextPruning"] ∧
    getPath (some (cpRule e d)) ["agents", "defaults", "contextPruning", "mode"]
      = some (.jstr (strTrim (e "OPENCLAW_CONTEXT_PRUNING_MODE"))) ∧
    (strTrim (e "OPENCLAW_CONTEXT_PRUNING_TTL") ≠ "" →
      getPath (some (cpRule e d)) ["agents", "defaults", "contextPruning", "ttl"]
        = some (.jstr (strTrim (e "OPENCLAW_CONTEXT_PRUNING_TTL")))) := by
  obtain ⟨ld, hld⟩ := hD
  have h1 : isObjAt (ensureAt d ["agents", "defaults"] "contextPruning")
      ["agents", "defaults", "contextPruning"] :=
    ensureAt_isObj d ["agents", "defaults"] "contextPruning" ld hld
  obtain ⟨l1, hl1⟩ := h1
  have h2obj : isObjAt
      (if getPath (some (ensureAt d ["agents", "defaults"] "contextPruning"))
            ["agents", "defaults", "contextPruning", "mode"]
          ≠ some (.jstr (strTrim (e "OPENCLAW_CONTEXT_PRUNING_MODE")))
       then setPath (ensureAt d ["agents", "defaults"] "contextPruning")
              ["agents", "defaults", "contextPruning", "mode"]
              (.jstr (strTrim (e "OPENCLAW_CONTEXT_PRUNING_MODE")))
       else ensureAt d ["agents", "defaults"] "contextPruning")
      ["agents", "defaults", "contextPruning"] :=
    condSet_objPres _ _ _ _ _ (by decide) ⟨l1, hl1⟩
  have h2mode : getPath (some
      (if getPath (some (ensureAt d ["agents", "defaults"] "contextPruning"))
            ["agents", "defaults", "contextPruning", "mode"]
          ≠ some (.jstr (strTrim (e "OPENCLAW_CONTEXT_PRUNING_MODE")))
       then setPath (ensureAt d ["agents", "defaults"] "contextPruning")
              ["agents", "defaults", "contextPruning", "mode"]
              (.jstr (strTrim (e "OPENCLAW_CONTEXT_PRUNING_MODE")))
       else ensureAt d ["agents", "defaults"] "contextPruning"))
      ["agents", "defaults", "contextPruning", "mode"]
      = some (.jstr (strTrim (e "OPENCLAW_CONTEXT_PRUNING_MODE"))) :=
    condSet_post _ _ _ _ (fun hng => not_not.mp hng)
      (canWrite_of_isObj ["agents", "defaults", "contextPruning"] _ l1 "mode" hl1)
  obtain ⟨l2, hl2⟩ := h2obj
  refine ⟨?_, ?_, ?_⟩
  · simp only [cpRule]
    rw [if_neg hm]
    exact condSet_objPres _ _ _ _ _ (by decide) ⟨l2, hl2⟩
  · simp only [cpRule]
    rw [if_neg hm]
    rw [condSet_frame _ _ _ _ _ (by decide)]
    exact h2mode
  · intro httl
    simp only [cpRule]
    rw [if_neg hm]
    exact condSet_post _ _ _ _
      (fun hng => not_not.mp (not_and.mp hng httl))
      (canWrite_of_isObj ["agents", "defaults", "contextPruning"] _ l2 "ttl" hl2)

theorem compRule_post (e : Env) (d : JVal) (hD : isObjAt d ["agents", "defaults"])
    (hm : strTrim (e "OPENCLAW_COMPACTION_MODE") ≠ "") :
    isObjAt (compRule e d) ["agents", "defaults", "compaction"] ∧
    getPath (some (compRule e d)) ["agents", "defaults", "compaction", "mode"]
      = some (.jstr (strTrim (e "OPENCLAW_COMPACTION_MODE"))) := by
  obtain ⟨ld, hld⟩ := hD
  have h1 : isObjAt (ensureAt d ["agents", "defaults"] "compaction")
      ["agents", "defaults", "compaction"] :=
    ensureAt_isObj d ["agents", "defaults"] "compaction" ld hld
  obtain ⟨l1, hl1⟩ := h1
  constructor
  · simp only [compRule]
    rw [if_neg hm]
    exact condSet_objPres _ _ _ _ _ (by decide) ⟨l1, hl1⟩
  · simp only [compRule]
    rw [if_neg hm]
    exact condSet_post _ _ _ _ (fun hng => not_not.mp hng)
      (canWrite_of_isObj ["agents", "defaults", "compaction"] _ l1 "mode" hl1)

theorem hbRule_post (e : Env) (d : JVal) (hD : isObjAt d ["agents", "defaults"])
    (hm : strTrim (e "OPENCLAW_HEARTBEAT_EVERY") ≠ "") :
    isObjAt (hbRule e d) ["agents", "defaults", "heartbeat"] ∧
    getPath (some (hbRule e d)) ["agents", "defaults", "heartbeat", "every"]
      = some (.jstr (strTrim (e "OPENCLAW_HEARTBEAT_EVERY"))) := by
  obtain ⟨ld, hld⟩ := hD
  have h1 : isObjAt (ensureAt d ["agents", "defaults"] "heartbeat")
      ["agents", "defaults", "heartbeat"] :=
    ensureAt_isObj d ["agents", "defaults"] "heartbeat" ld hld
  obtain ⟨l1, hl1⟩ := h1
  constructor
  · simp only [hbRule]
    rw [if_neg hm]
    exact condSet_objPres _ _ _ _ _ (by decide) ⟨l1, hl1⟩
  · simp only [hbRule]
    rw [if_neg hm]
    exact condSet_post _ _ _ _ (fun hng => not_not.mp hng)
      (canWrite_of_isObj ["agents", "defaults", "heartbeat"] _ l1 "every" hl1)

theorem isObjAt_congr (d d' : JVal) (q : List String)
    (h : getPath (some d') q = getPath (some d) q) (hd : isObjAt d q) :
    isObjAt d' q := by
  obtain ⟨x, hx⟩ := hd
  exact ⟨x, h.trans hx⟩

theorem gwRule_post (e : Env) (d : JVal) (hroot : rootObj d)
    (hg : strTrim (e "OPENCLAW_GATEWAY_TOKEN") ≠ "") :
    isObjAt (gwRule e d) ["gateway"] ∧ isObjAt (gwRule e d) ["gateway", "auth"] ∧
    getPath (some (gwRule e d)) ["gateway", "auth", "mode"] = some (.jstr "token") ∧
    getPath (some (gwRule e d)) ["gateway", "auth", "token"]
      = some (.jstr (strTrim (e "OPENCLAW_GATEWAY_TOKEN"))) := by
  obtain ⟨l, rfl⟩ := hroot
  have h1 : isObjAt (ensureAt (.jobj l) [] "gateway") ["gateway"] :=
    ensureAt_isObj (.jobj l) [] "gateway" l rfl
  obtain ⟨l1, hl1⟩ := h1
  have h2 : isObjAt (ensureAt (ensureAt (.jobj l) [] "gateway") ["gateway"] "auth")
      ["gateway", "auth"] :=
    ensureAt_isObj _ ["gateway"] "auth" l1 hl1
  have h2g : isObjAt (ensureAt (ensureAt (.jobj l) [] "gateway") ["gateway"] "auth")
      ["gateway"] :=
    isObjAt_ensureAt_strictPre _ ["gateway"] "auth" ["gateway"] (by decide) ⟨l1, hl1⟩
  obtain ⟨l2, hl2⟩ := h2
  simp only [gwRule]
  rw [if_neg hg]
  split
  · have hmode1 : getPath (some (setPath
        (ensureAt (ensureAt (.jobj l) [] "gateway") ["gateway"] "auth")
        ["gateway", "auth", "mode"] (.jstr "token"))) ["gateway", "auth", "mode"]
        = some (.jstr "token") :=
      getPath_setPath_self _ _ _ (canWrite_of_isObj ["gateway", "auth"] _ l2 "mode" hl2)
    have hobj1 : isObjAt (setPath
        (ensureAt (ensureAt (.jobj l) [] "gateway") ["gateway"] "auth")
        ["gateway", "auth", "mode"] (.jstr "token")) ["gateway", "auth"] :=
      isObjAt_setPath_strictPre _ _ _ _ (by decide) ⟨l2, hl2⟩
    have hobj1g : isObjAt (setPath
        (ensureAt (ensureAt (.jobj l) [] "gateway") ["gateway"] "auth")
        ["gateway", "auth", "mode"] (.jstr "token")) ["gateway"] :=
      isObjAt_setPath_strictPre _ _ _ _ (by decide) h2g
    obtain ⟨l3, hl3⟩ := hobj1
    refine ⟨?_, ?_, ?_, ?_⟩
    · exact isObjAt_setPath_strictPre _ _ _ _ (by decide) hobj1g
    · exact isObjAt_setPath_strictPre _ _ _ _ (by decide) ⟨l3, hl3⟩
    · rw [getPath_setPath_diverges ["gateway", "auth", "token"]
        ["gateway", "auth", "mode"] _ _ (by decide)]
      exact hmode1
    · exact getPath_setPath_self _ _ _
        (canWrite_of_isObj ["gateway", "auth"] _ l3 "token" hl3)
  · next hng =>
      push_neg at hng
      exact ⟨h2g, ⟨l2, hl2⟩, hng.1, hng.2⟩

theorem tgRule_post (e : Env) (d : JVal) (hroot : rootObj d)
    (ht : strTrim (e "TELEGRAM_BOT_TOKEN") ≠ "") :
    isObjAt (tgRule e d) ["channels"] ∧ isObjAt (tgRule e d) ["channels", "telegram"] ∧
    getPath (some (tgRule e d)) ["channels", "telegram", "enabled"]
      = some (.jbool true) ∧
    isObjAt (tgRule e d) ["plugins"] ∧ isObjAt (tgRule e d) ["plugins", "entries"] ∧
    isObjAt (tgRule e d) ["plugins", "entries", "telegram"] ∧
    getPath (some (tgRule e d)) ["plugins", "entries", "telegram", "enabled"]
      = some (.jbool true) := by
  obtain ⟨l, rfl⟩ := hroot
  -- stage c1
  have hc1 : isObjAt (ensureAt (.jobj l) [] "channels") ["channels"] :=
    ensureAt_isObj (.jobj l) [] "channels" l rfl
  have hr1 : rootObj (ensureAt (.jobj l) [] "channels") :=
    rootObj_ensureAt _ _ _ ⟨l, rfl⟩
  obtain ⟨l1, hl1⟩ := hc1
  -- stage c2
  have hc2tg : isObjAt (ensureAt (ensureAt (.jobj l) [] "channels") ["channels"] "telegram")
      ["channels", "telegram"] :=
    ensureAt_isObj _ ["channels"] "telegram" l1 hl1
  have hc2ch : isObjAt (ensureAt (ensureAt (.jobj l) [] "channels") ["channels"] "telegram")
      ["channels"] :=
    isObjAt_ensureAt_strictPre _ ["channels"] "telegram" ["channels"] (by decide) ⟨l1, hl1⟩
  have hr2 : rootObj (ensureAt (ensureAt (.jobj l) [] "channels") ["channels"] "telegram") :=
    rootObj_ensureAt _ _ _ hr1
  obtain ⟨l2, hl2⟩ := hc2tg
  simp only [tgRule]
  rw [if_neg ht]
  -- stage d3 (channel enabled)
  set c2 := ensureAt (ensureAt (.jobj l) [] "channels") ["channels"] "telegram" with hc2def
  set d3 := if getPath (some c2) ["channels", "telegram", "enabled"] ≠ some (.jbool true)
      then setPath c2 ["channels", "telegram", "enabled"] (.jbool true) else c2 with hd3def
  have hd3en : getPath (some d3) ["channels", "telegram", "enabled"] = some (.jbool true) := by
    rw [hd3def]
    exact condSet_post _ _ _ _ (fun hng => not_not.mp hng)
      (canWrite_of_isObj ["channels", "telegram"] _ l2 "enabled" hl2)
  have hd3tg : isObjAt d3 ["channels", "telegram"] := by
    rw [hd3def]
    exact condSet_objPres _ _ _ _ _ (by decide) ⟨l2, hl2⟩
  have hd3ch : isObjAt d3 ["channels"] := by
    rw [hd3def]
    exact condSet_objPres _ _ _ _ _ (by decide) hc2ch
  have hr3 : rootObj d3 := by
    rw [hd3def]
    exact condSet_rootObj _ _ _ _ _ hr2
  obtain ⟨lr3, hlr3⟩ := hr3
  -- stage c4 (ensure plugins)
  have hc4pl : isObjAt (ensureAt d3 [] "plugins") ["plugins"] :=
    ensureAt_isObj d3 [] "plugins" lr3 (by rw [hlr3]; rfl)
  have hc4f : ∀ q : List String, divergesPath ["plugins"] q = true →
      getPath (some (ensureAt d3 [] "plugins")) q = getPath (some d3) q :=
    fun q hq => getPath_ensureAt_diverges d3 [] "plugins" q hq
  have hr4 : rootObj (ensureAt d3 [] "plugins") := rootObj_ensureAt _ _ _ ⟨lr3, hlr3⟩
  obtain ⟨l4, hl4⟩ := hc4pl
  -- stage c5 (ensure plugins.entries)
  have hc5en : isObjAt (ensureAt (ensureAt d3 [] "plugins") ["plugins"] "entries")
      ["plugins", "entries"] :=
    ensureAt_isObj _ ["plugins"] "entries" l4 hl4
  have hc5pl : isObjAt (ensureAt (ensureAt d3 [] "plugins") ["plugins"] "entries")
      ["plugins"] :=
    isObjAt_ensureAt_strictPre _ ["plugins"] "entries" ["plugins"] (by decide) ⟨l4, hl4⟩
  have hc5f : ∀ q : List String, divergesPath ["plugins", "entries"] q = true →
      getPath (some (ensureAt (ensureAt d3 [] "plugins") ["plugins"] "entries")) q
        = getPath (some (ensureAt d3 [] "plugins")) q :=
    fun q hq => getPath_ensureAt_diverges _ ["plugins"] "entries" q hq
  obtain ⟨l5, hl5⟩ := hc5en
  -- stage c6 (ensure plugins.entries.telegram)
  have hc6tg : isObjAt (ensureAt (ensureAt (ensureAt d3 [] "plugins") ["plugins"] "entries")
      ["plugins", "entries"] "telegram") ["plugins", "entries", "telegram"] :=
    ensureAt_isObj _ ["plugins", "entries"] "telegram" l5 hl5
  have hc6en : isObjAt (ensureAt (ensureAt (ensureAt d3 [] "plugins") ["plugins"] "entries")
      ["plugins", "entries"] "telegram") ["plugins", "entries"] :=
    isObjAt_ensureAt_strictPre _ ["plugins", "entries"] "telegram" ["plugins", "entries"]
      (by decide) ⟨l5, hl5⟩
  have hc6pl : isObjAt (ensureAt (ensureAt (ensureAt d3 [] "plugins") ["plugins"] "entries")
      ["plugins", "entries"] "telegram") ["plugins"] :=
    isObjAt_ensureAt_strictPre _ ["plugins", "entries"] "telegram" ["plugins"]
      (by decide) hc5pl
  have hc6f : ∀ q : List String, divergesPath ["plugins", "entries", "telegram"] q = true →
      getPath (some (ensureAt (ensureAt (ensureAt d3 [] "plugins") ["plugins"] "entries")
        ["plugins", "entries"] "telegram")) q
        = getPath (some (ensureAt (ensureAt d3 [] "plugins") ["plugins"] "entries")) q :=
    fun q hq => getPath_ensureAt_diverges _ ["plugins", "entries"] "telegram" q hq
  obtain ⟨l6, hl6⟩ := hc6tg
  -- final ite
  refine ⟨?_, ?_, ?_, ?_, ?_, ?_, ?_⟩
  · apply isObjAt_congr _ _ _ (condSet_frame _ _ _ _ _ (by decide))
    apply isObjAt_congr _ _ _ (hc6f _ (by decide))
    apply isObjAt_congr _ _ _ (hc5f _ (by decide))
    apply isObjAt_congr _ _ _ (hc4f _ (by decide))
    exact hd3ch
  · apply isObjAt_congr _ _ _ (condSet_frame _ _ _ _ _ (by decide))
    apply isObjAt_congr _ _ _ (hc6f _ (by decide))
    apply isObjAt_congr _ _ _ (hc5f _ (by decide))
    apply isObjAt_congr _ _ _ (hc4f _ (by decide))
    exact hd3tg
  · rw [condSet_frame _ _ _ _ _ (by decide), hc6f _ (by decide), hc5f _ (by decide),
      hc4f _ (by decide)]
    exact hd3en
  · exact condSet_objPres _ _ _ _ _ (by decide) hc6pl
  · exact condSet_objPres _ _ _ _ _ (by decide) hc6en
  · exact condSet_objPres _ _ _ _ _ (by decide) ⟨l6, hl6⟩
  · exact condSet_post _ _ _ _ (fun hng => not_not.mp hng)
      (canWrite_of_isObj ["plugins", "entries", "telegram"] _ l6 "enabled" hl6)

theorem dcRule_post (e : Env) (d : JVal) (hroot : rootObj d)
    (ht : strTrim (e "DISCORD_BOT_TOKEN") ≠ "")
    (hgid : strTrim (e "DISCORD_GUILD_ID") ≠ "") :
    isObjAt (dcRule e d) ["channels"] ∧ isObjAt (dcRule e d) ["channels", "discord"] ∧
    getPath (some (dcRule e d)) ["channels", "discord", "enabled"]
      = some (.jbool true) ∧
    isObjAt (dcRule e d) ["plugins"] ∧ isObjAt (dcRule e d) ["plugins", "entries"] ∧
    isObjAt (dcRule e d) ["plugins", "entries", "discord"] ∧
    getPath (some (dcRule e d)) ["plugins", "entries", "discord", "enabled"]
      = some (.jbool true) := by
  obtain ⟨l, rfl⟩ := hroot
  have hc1 : isObjAt (ensureAt (.jobj l) [] "channels") ["channels"] :=
    ensureAt_isObj (.jobj l) [] "channels" l rfl
  have hr1 : rootObj (ensureAt (.jobj l) [] "channels") :=
    rootObj_ensureAt _ _ _ ⟨l, rfl⟩
  obtain ⟨l1, hl1⟩ := hc1
  have hc2tg : isObjAt (ensureAt (ensureAt (.jobj l) [] "channels") ["channels"] "discord")
      ["channels", "discord"] :=
    ensureAt_isObj _ ["channels"] "discord" l1 hl1
  have hc2ch : isObjAt (ensureAt (ensureAt (.jobj l) [] "channels") ["channels"] "discord")
      ["channels"] :=
    isObjAt_ensureAt_strictPre _ ["channels"] "discord" ["channels"] (by decide) ⟨l1, hl1⟩
  have hr2 : rootObj (ensureAt (ensureAt (.jobj l) [] "channels") ["channels"] "discord") :=
    rootObj_ensureAt _ _ _ hr1
  obtain ⟨l2, hl2⟩ := hc2tg
  simp only [dcRule]
  rw [if_neg (by push_neg; exact ⟨ht, hgid⟩)]
  set c2 := ensureAt (ensureAt (.jobj l) [] "channels") ["channels"] "discord" with hc2def
  set d3 := if getPath (some c2) ["channels", "discord", "enabled"] ≠ some (.jbool true)
      then setPath c2 ["channels", "discord", "enabled"] (.jbool true) else c2 with hd3def
  have hd3en : getPath (some d3) ["channels", "discord", "enabled"] = some (.jbool true) := by
    rw [hd3def]
    exact condSet_post _ _ _ _ (fun hng => not_not.mp hng)
      (canWrite_of_isObj ["channels", "discord"] _ l2 "enabled" hl2)
  have hd3tg : isObjAt d3 ["channels", "discord"] := by
    rw [hd3def]
    exact condSet_objPres _ _ _ _ _ (by decide) ⟨l2, hl2⟩
  have hd3ch : isObjAt d3 ["channels"] := by
    rw [hd3def]
    exact condSet_objPres _ _ _ _ _ (by decide) hc2ch
  have hr3 : rootObj d3 := by
    rw [hd3def]
    exact condSet_rootObj _ _ _ _ _ hr2
  obtain ⟨lr3, hlr3⟩ := hr3
  have hc4pl : isObjAt (ensureAt d3 [] "plugins") ["plugins"] :=
    ensureAt_isObj d3 [] "plugins" lr3 (by rw [hlr3]; rfl)
  have hc4f : ∀ q : List String, divergesPath ["plugins"] q = true →
      getPath (some (ensureAt d3 [] "plugins")) q = getPath (some d3) q :=
    fun q hq => getPath_ensureAt_diverges d3 [] "plugins" q hq
  obtain ⟨l4, hl4⟩ := hc4pl
  have hc5en : isObjAt (ensureAt (ensureAt d3 [] "plugins") ["plugins"] "entries")
      ["plugins", "entries"] :=
    ensureAt_isObj _ ["plugins"] "entries" l4 hl4
  have hc5pl : isObjAt (ensureAt (ensureAt d3 [] "plugins") ["plugins"] "entries")
      ["plugins"] :=
    isObjAt_ensureAt_strictPre _ ["plugins"] "entries" ["plugins"] (by decide) ⟨l4, hl4⟩
  have hc5f : ∀ q : List String, divergesPath ["plugins", "entries"] q = true →
      getPath (some (ensureAt (ensureAt d3 [] "plugins") ["plugins"] "entries")) q
        = getPath (some (ensureAt d3 [] "plugins")) q :=
    fun q hq => getPath_ensureAt_diverges _ ["plugins"] "entries" q hq
  obtain ⟨l5, hl5⟩ := hc5en
  have hc6tg : isObjAt (ensureAt (ensureAt (ensureAt d3 [] "plugins") ["plugins"] "entries")
      ["plugins", "entries"] "discord") ["plugins", "entries", "discord"] :=
    ensureAt_isObj _ ["plugins", "entries"] "discord" l5 hl5
  have hc6en : isObjAt (ensureAt (ensureAt (ensureAt d3 [] "plugins") ["plugins"] "entries")
      ["plugins", "entries"] "discord") ["plugins", "entries"] :=
    isObjAt_ensureAt_strictPre _ ["plugins", "entries"] "discord" ["plugins", "entries"]
      (by decide) ⟨l5, hl5⟩
  have hc6pl : isObjAt (ensureAt (ensureAt (ensureAt d3 [] "plugins") ["plugins"] "entries")
      ["plugins", "entries"] "discord") ["plugins"] :=
    isObjAt_ensureAt_strictPre _ ["plugins", "entries"] "discord" ["plugins"]
      (by decide) hc5pl
  have hc6f : ∀ q : List String, divergesPath ["plugins", "entries", "discord"] q = true →
      getPath (some (ensureAt (ensureAt (ensureAt d3 [] "plugins") ["plugins"] "entries")
        ["plugins", "entries"] "discord")) q
        = getPath (some (ensureAt (ensureAt d3 [] "plugins") ["plugins"] "entries")) q :=
    fun q hq => getPath_ensureAt_diverges _ ["plugins", "entries"] "discord" q hq
  obtain ⟨l6, hl6⟩ := hc6tg
  refine ⟨?_, ?_, ?_, ?_, ?_, ?_, ?_⟩
  · apply isObjAt_congr _ _ _ (condSet_frame _ _ _ _ _ (by decide))
    apply isObjAt_congr _ _ _ (hc6f _ (by decide))
    apply isObjAt_congr _ _ _ (hc5f _ (by decide))
    apply isObjAt_congr _ _ _ (hc4f _ (by decide))
    exact hd3ch
  · apply isObjAt_congr _ _ _ (condSet_frame _ _ _ _ _ (by decide))
    apply isObjAt_congr _ _ _ (hc6f _ (by decide))
    apply isObjAt_congr _ _ _ (hc5f _ (by decide))
    apply isObjAt_congr _ _ _ (hc4f _ (by decide))
    exact hd3tg
  · rw [condSet_frame _ _ _ _ _ (by decide), hc6f _ (by decide), hc5f _ (by decide),
      hc4f _ (by decide)]
    exact hd3en
  · exact condSet_objPres _ _ _ _ _ (by decide) hc6pl
  · exact condSet_objPres _ _ _ _ _ (by decide) hc6en
  · exact condSet_objPres _ _ _ _ _ (by decide) ⟨l6, hl6⟩
  · exact condSet_post _ _ _ _ (fun hng => not_not.mp hng)
      (canWrite_of_isObj ["plugins", "entries", "discord"] _ l6 "enabled" hl6)

/-- The discord rule preserves every fact the telegram rule established. -/
theorem dcRule_pres_tg (e : Env) (d : JVal)
    (hch : isObjAt d ["channels"]) (htg : isObjAt d ["channels", "telegram"])
    (hen : getPath (some d) ["channels", "telegram", "enabled"] = some (.jbool true))
    (hpl : isObjAt d ["plugins"]) (hpe : isObjAt d ["plugins", "entries"])
    (hpt : isObjAt d ["plugins", "entries", "telegram"])
    (hpen : getPath (some d) ["plugins", "entries", "telegram", "enabled"]
      = some (.jbool true)) :
    isObjAt (dcRule e d) ["channels"] ∧ isObjAt (dcRule e d) ["channels", "telegram"] ∧
    getPath (some (dcRule e d)) ["channels", "telegram", "enabled"]
      = some (.jbool true) ∧
    isObjAt (dcRule e d) ["plugins"] ∧ isObjAt (dcRule e d) ["plugins", "entries"] ∧
    isObjAt (dcRule e d) ["plugins", "entries", "telegram"] ∧
    getPath (some (dcRule e d)) ["plugins", "entries", "telegram", "enabled"]
      = some (.jbool true) := by
  simp only [dcRule]
  split
  · exact ⟨hch, htg, hen, hpl, hpe, hpt, hpen⟩
  · obtain ⟨lc, hlc⟩ := id hch
    rw [ensureAt_noop d [] "channels" lc hlc]
    -- stage c2 = ensureAt d ["channels"] "discord"
    have hc2 := ensureAt_cases d ["channels"] "discord"
    set c2 := ensureAt d ["channels"] "discord" with hc2def
    have c2ch : isObjAt c2 ["channels"] := by
      rcases hc2 with hcc | hcc <;> rw [hcc]
      · exact hch
      · exact isObjAt_setPath_strictPre _ _ _ _ (by decide) hch
    have c2tg : isObjAt c2 ["channels", "telegram"] := by
      rcases hc2 with hcc | hcc <;> rw [hcc]
      · exact htg
      · exact isObjAt_congr _ _ _ (getPath_setPath_diverges _ _ _ _ (by decide)) htg
    have c2en : getPath (some c2) ["channels", "telegram", "enabled"]
        = some (.jbool true) := by
      rcases hc2 with hcc | hcc <;> rw [hcc]
      · exact hen
      · rw [getPath_setPath_diverges _ _ _ _ (by decide)]; exact hen
    have c2pl : isObjAt c2 ["plugins"] := by
      rcases hc2 with hcc | hcc <;> rw [hcc]
      · exact hpl
      · exact isObjAt_congr _ _ _ (getPath_setPath_diverges _ _ _ _ (by decide)) hpl
    have c2pe : isObjAt c2 ["plugins", "entries"] := by
      rcases hc2 with hcc | hcc <;> rw [hcc]
      · exact hpe
      · exact isObjAt_congr _ _ _ (getPath_setPath_diverges _ _ _ _ (by decide)) hpe
    have c2pt : isObjAt c2 ["plugins", "entries", "telegram"] := by
      rcases hc2 with hcc | hcc <;> rw [hcc]
      · exact hpt
      · exact isObjAt_congr _ _ _ (getPath_setPath_diverges _ _ _ _ (by decide)) hpt
    have c2pen : getPath (some c2) ["plugins", "entries", "telegram", "enabled"]
        = some (.jbool true) := by
      rcases hc2 with hcc | hcc <;> rw [hcc]
      · exact hpen
      · rw [getPath_setPath_diverges _ _ _ _ (by decide)]; exact hpen
    -- stage d3: discord channel enabled
    set d3 := if getPath (some c2) ["channels", "discord", "enabled"] ≠ some (.jbool true)
        then setPath c2 ["channels", "discord", "enabled"] (.jbool true) else c2 with hd3def
    have d3ch : isObjAt d3 ["channels"] := by
      rw [hd3def]; exact condSet_objPres _ _ _ _ _ (by decide) c2ch
    have d3tg : isObjAt d3 ["channels", "telegram"] := by
      rw [hd3def]
      exact isObjAt_congr _ _ _ (condSet_frame _ _ _ _ _ (by decide)) c2tg
    have d3en : getPath (some d3) ["channels", "telegram", "enabled"]
        = some (.jbool true) := by
      rw [hd3def, condSet_frame _ _ _ _ _ (by decide)]; exact c2en
    have d3pl : isObjAt d3 ["plugins"] := by
      rw [hd3def]
      exact isObjAt_congr _ _ _ (condSet_frame _ _ _ _ _ (by decide)) c2pl
    have d3pe : isObjAt d3 ["plugins", "entries"] := by
      rw [hd3def]
      exact isObjAt_congr _ _ _ (condSet_frame _ _ _ _ _ (by decide)) c2pe
    have d3pt : isObjAt d3 ["plugins", "entries", "telegram"] := by
      rw [hd3def]
      exact isObjAt_congr _ _ _ (condSet_frame _ _ _ _ _ (by decide)) c2pt
    have d3pen : getPath (some d3) ["plugins", "entries", "telegram", "enabled"]
        = some (.jbool true) := by
      rw [hd3def, condSet_frame _ _ _ _ _ (by decide)]; exact c2pen
    -- stages c4, c5 are no-ops
    obtain ⟨lp, hlp⟩ := id d3pl
    rw [ensureAt_noop d3 [] "plugins" lp hlp]
    obtain ⟨le, hle⟩ := id d3pe
    rw [ensureAt_noop d3 ["plugins"] "entries" le hle]
    -- stage c6 = ensureAt d3 ["plugins","entries"] "discord"
    have hc6 := ensureAt_cases d3 ["plugins", "entries"] "discord"
    set c6 := ensureAt d3 ["plugins", "entries"] "discord" with hc6def
    have c6ch : isObjAt c6 ["channels"] := by
      rcases hc6 with hcc | hcc <;> rw [hcc]
      · exact d3ch
      · exact isObjAt_congr _ _ _ (getPath_setPath_diverges _ _ _ _ (by decide)) d3ch
    have c6tg : isObjAt c6 ["channels", "telegram"] := by
      rcases hc6 with hcc | hcc <;> rw [hcc]
      · exact d3tg
      · exact isObjAt_congr _ _ _ (getPath_setPath_diverges _ _ _ _ (by decide)) d3tg
    have c6en : getPath (some c6) ["channels", "telegram", "enabled"]
        = some (.jbool true) := by
      rcases hc6 with hcc | hcc <;> rw [hcc]
      · exact d3en
      · rw [getPath_setPath_diverges _ _ _ _ (by decide)]; exact d3en
    have c6pl : isObjAt c6 ["plugins"] := by
      rcases hc6 with hcc | hcc <;> rw [hcc]
      · exact d3pl
      · exact isObjAt_setPath_strictPre _ _ _ _ (by decide) d3pl
    have c6pe : isObjAt c6 ["plugins", "entries"] := by
      rcases hc6 with hcc | hcc <;> rw [hcc]
      · exact d3pe
      · exact isObjAt_setPath_strictPre _ _ _ _ (by decide) d3pe
    have c6pt : isObjAt c6 ["plugins", "entries", "telegram"] := by
      rcases hc6 with hcc | hcc <;> rw [hcc]
      · exact d3pt
      · exact isObjAt_congr _ _ _ (getPath_setPath_diverges _ _ _ _ (by decide)) d3pt
    have c6pen : getPath (some c6) ["plugins", "entries", "telegram", "enabled"]
        = some (.jbool true) := by
      rcases hc6 with hcc | hcc <;> rw [hcc]
      · exact d3pen
      · rw [getPath_setPath_diverges _ _ _ _ (by decide)]; exact d3pen
    -- final ite
    refine ⟨?_, ?_, ?_, ?_, ?_, ?_, ?_⟩
    · exact isObjAt_congr _ _ _ (condSet_frame _ _ _ _ _ (by decide)) c6ch
    · exact isObjAt_congr _ _ _ (condSet_frame _ _ _ _ _ (by decide)) c6tg
    · rw [condSet_frame _ _ _ _ _ (by decide)]; exact c6en
    · exact condSet_objPres _ _ _ _ _ (by decide) c6pl
    · exact condSet_objPres _ _ _ _ _ (by decide) c6pe
    · exact isObjAt_congr _ _ _ (condSet_frame _ _ _ _ _ (by decide)) c6pt
    · rw [condSet_frame _ _ _ _ _ (by decide)]; exact c6pen

/-! ### Credential-profile loop lemmas -/

/-- The specs whose guards (non-empty credential, unseen env var) pass,
in loop order; `computeAvailable` is its provider projection. -/
def activeFrom (e : Env) : List ProviderSpec → List String → List ProviderSpec
  | [], _ => []
  | pc :: rest, seen =>
      if strTrim (e pc.envVar) = "" then activeFrom e rest seen
      else if pc.envVar ∈ seen then activeFrom e rest seen
      else pc :: activeFrom e rest (pc.envVar :: seen)

theorem availableFrom_eq_map (e : Env) : ∀ (specs : List ProviderSpec)
    (seen : List String),
    availableFrom e specs seen = (activeFrom e specs seen).map (fun pc => pc.provider) := by
  intro specs
  induction specs with
  | nil => intro seen; rfl
  | cons pc rest ih =>
      intro seen
      simp only [availableFrom, activeFrom]
      by_cases h1 : strTrim (e pc.envVar) = ""
      · rw [if_pos h1, if_pos h1, ih]
      · rw [if_neg h1, if_neg h1]
        by_cases h2 : pc.envVar ∈ seen
        · rw [if_pos h2, if_pos h2, ih]
        · rw [if_neg h2, if_neg h2]
          simp [ih]

theorem divergesPath_proKey (p : List String) (k1 k2 : String) (h : ¬ k1 = k2) :
    divergesPath (p ++ [k1]) (p ++ [k2]) = true := by
  induction p with
  | nil => simp [divergesPath, h]
  | cons a as ih => simpa [divergesPath, List.cons_append] using ih

theorem profilesStep_frame_key (e : Env) : ∀ (specs : List ProviderSpec)
    (seen : List String) (d : JVal) (K : String),
    K ∉ specs.map (fun pc => pc.profileKey) →
    getPath (some (profilesStep e specs seen d)) ["auth", "profiles", K]
      = getPath (some d) ["auth", "profiles", K] := by
  intro specs
  induction specs with
  | nil => intro seen d K _; rfl
  | cons pc rest ih =>
      intro seen d K hK
      simp only [List.map, List.mem_cons, not_or] at hK
      obtain ⟨hK1, hK2⟩ := hK
      simp only [profilesStep]
      by_cases h1 : strTrim (e pc.envVar) = ""
      · rw [if_pos h1]; exact ih seen d K hK2
      · rw [if_neg h1]
        by_cases h2 : pc.envVar ∈ seen
        · rw [if_pos h2]; exact ih seen d K hK2
        · rw [if_neg h2]
          rw [ih _ _ K hK2]
          split
          · rfl
          · exact getPath_setPath_diverges _ _ _ _
              (divergesPath_proKey ["auth", "profiles"] pc.profileKey K
                (fun hh => hK1 hh.symm))

/-- The freshly written profile object satisfies the keep-condition. -/
theorem profileOk_fresh (pc : ProviderSpec) :
    profileOk (some (.jobj [("mode", .jstr "token"), ("provider", .jstr pc.provider)])) pc
      = true := by
  simp [profileOk, jsTruthyO, jsTruthy, jget, getKey]

theorem profilesStep_noop (e : Env) : ∀ (specs : List ProviderSpec)
    (seen : List String) (d : JVal),
    (∀ pc ∈ activeFrom e specs seen,
      profileOk (getPath (some d) ["auth", "profiles", pc.profileKey]) pc = true) →
    profilesStep e specs seen d = d := by
  intro specs
  induction specs with
  | nil => intro seen d _; rfl
  | cons pc rest ih =>
      intro seen d h
      simp only [profilesStep]
      by_cases h1 : strTrim (e pc.envVar) = ""
      · rw [if_pos h1]
        exact ih seen d (fun pc2 hm => h pc2 (by
          simp only [activeFrom, if_pos h1]; exact hm))
      · rw [if_neg h1]
        by_cases h2 : pc.envVar ∈ seen
        · rw [if_pos h2]
          exact ih seen d (fun pc2 hm => h pc2 (by
            simp only [activeFrom, if_neg h1, if_pos h2]; exact hm))
        · rw [if_neg h2]
          have hpc : profileOk (getPath (some d) ["auth", "profiles", pc.profileKey]) pc
              = true :=
            h pc (by
              simp only [activeFrom, if_neg h1, if_neg h2]
              exact List.mem_cons_self _ _)
          rw [if_pos hpc]
          exact ih _ d (fun pc2 hm => h pc2 (by
            simp only [activeFrom, if_neg h1, if_neg h2]
            exact List.mem_cons_of_mem _ hm))

theorem profilesStep_post (e : Env) : ∀ (specs : List ProviderSpec)
    (seen : List String) (d : JVal),
    (specs.map (fun pc => pc.profileKey)).Nodup →
    isObjAt d ["auth", "profiles"] →
    ∀ pc ∈ activeFrom e specs seen,
      profileOk (getPath (some (profilesStep e specs seen d))
        ["auth", "profiles", pc.profileKey]) pc = true := by
  intro specs
  induction specs with
  | nil => intro seen d _ _ pc hm; simp [activeFrom] at hm
  | cons pc0 rest ih =>
      intro seen d hnd hobj pc hm
      simp only [List.map, List.nodup_cons] at hnd
      obtain ⟨hnotin, hnd'⟩ := hnd
      simp only [profilesStep]
      by_cases h1 : strTrim (e pc0.envVar) = ""
      · rw [if_pos h1]
        simp only [activeFrom, if_pos h1] at hm
        exact ih seen d hnd' hobj pc hm
      · rw [if_neg h1]
        by_cases h2 : pc0.envVar ∈ seen
        · rw [if_pos h2]
          simp only [activeFrom, if_neg h1, if_pos h2] at hm
          exact ih seen d hnd' hobj pc hm
        · rw [if_neg h2]
          simp only [activeFrom, if_neg h1, if_neg h2] at hm
          obtain ⟨lp, hlp⟩ := id hobj
          have hobj' : isObjAt
              (if profileOk (getPath (some d) ["auth", "profiles", pc0.profileKey]) pc0
                  = true
               then d
               else setPath d ["auth", "profiles", pc0.profileKey]
                 (.jobj [("mode", .jstr "token"), ("provider", .jstr pc0.provider)]))
              ["auth", "profiles"] := by
            split
            · exact hobj
            · exact isObjAt_setPath_strictPre _ _ _ _
                (strictPre_self_append ["auth", "profiles"] pc0.profileKey []) hobj
          rcases List.mem_cons.mp hm with rfl | hm2
          · -- the spec written (or kept) at this very step; later steps keep other keys
            rw [profilesStep_frame_key e rest _ _ pc.profileKey hnotin]
            split
            · next hk => exact hk
            · exact (by
                have hgp : getPath (some (setPath d ["auth", "profiles", pc.profileKey]
                    (.jobj [("mode", .jstr "token"), ("provider", .jstr pc.provider)])))
                    ["auth", "profiles", pc.profileKey]
                    = some (.jobj [("mode", .jstr "token"),
                        ("provider", .jstr pc.provider)]) :=
                  getPath_setPath_self _ _ _
                    (canWrite_of_isObj ["auth", "profiles"] _ lp pc.profileKey hlp)
                rw [hgp]
                exact profileOk_fresh pc)
          · exact ih _ _ hnd' hobj' pc hm2

/-! ### Root-object preservation -/

theorem rootObj_setPath_ne (d : JVal) (p : List String) (v : JVal)
    (hp : p ≠ []) (h : rootObj d) : rootObj (setPath d p v) := by
  cases p with
  | nil => exact absurd rfl hp
  | cons k ks => exact rootObj_setPath d k ks v h

theorem condSet_rootObj_ne (d : JVal) (p : List String) (v : JVal) (c : Prop)
    [Decidable c] (hp : p ≠ []) (h : rootObj d) :
    rootObj (if c then setPath d p v else d) := by
  split
  · exact rootObj_setPath_ne d p v hp h
  · exact h

theorem wsRule_rootObj (e : Env) (d : JVal) (h : rootObj d) : rootObj (wsRule e d) := by
  simp only [wsRule]
  exact condSet_rootObj_ne _ _ _ _ (by simp)
    (rootObj_ensureAt _ _ _ (rootObj_ensureAt _ _ _ h))

theorem authRule_rootObj (d : JVal) (h : rootObj d) : rootObj (authRule d) :=
  rootObj_ensureAt _ _ _ (rootObj_ensureAt _ _ _ h)

theorem profilesStep_rootObj (e : Env) : ∀ (specs : List ProviderSpec)
    (seen : List String) (d : JVal), rootObj d → rootObj (profilesStep e specs seen d) := by
  intro specs
  induction specs with
  | nil => intro seen d h; exact h
  | cons pc rest ih =>
      intro seen d h
      simp only [profilesStep]
      by_cases h1 : strTrim (e pc.envVar) = ""
      · rw [if_pos h1]; exact ih seen d h
      · rw [if_neg h1]
        by_cases h2 : pc.envVar ∈ seen
        · rw [if_pos h2]; exact ih seen d h
        · rw [if_neg h2]
          apply ih
          split
          · exact h
          · exact rootObj_setPath_ne _ _ _ (by simp) h

theorem modelPrimaryStep_rootObj (av : List String) (d : JVal) (h : rootObj d) :
    rootObj (modelPrimaryStep av d) := by
  cases av with
  | nil => exact h
  | cons a0 rest =>
      simp only [modelPrimaryStep]
      repeat' split
      all_goals first
        | exact h
        | exact rootObj_setPath_ne _ _ _ (by simp [modelPath]) h

theorem modelFallbacksStep_rootObj (av : List String) (d : JVal) (h : rootObj d) :
    rootObj (modelFallbacksStep av d) := by
  simp only [modelFallbacksStep]
  split
  · exact rootObj_setPath_ne _ _ _ (by simp [modelPath]) h
  · exact h

theorem modelRule_rootObj (av : List String) (d : JVal) (h : rootObj d) :
    rootObj (modelRule av d) := by
  cases av with
  | nil => exact h
  | cons a0 rest =>
      exact modelFallbacksStep_rootObj _ _
        (modelPrimaryStep_rootObj _ _ (rootObj_ensureAt _ _ _ h))

theorem tdRule_rootObj (e : Env) (d : JVal) (h : rootObj d) : rootObj (tdRule e d) := by
  simp only [tdRule]
  exact condSet_rootObj_ne _ _ _ _ (by simp) h

theorem mcRule_rootObj (e : Env) (d : JVal) (h : rootObj d) : rootObj (mcRule e d) := by
  simp only [mcRule]
  exact condSet_rootObj_ne _ _ _ _ (by simp) h

theorem cpRule_rootObj (e : Env) (d : JVal) (h : rootObj d) : rootObj (cpRule e d) := by
  simp only [cpRule]
  split
  · exact h
  · exact condSet_rootObj_ne _ _ _ _ (by simp)
      (condSet_rootObj_ne _ _ _ _ (by simp) (rootObj_ensureAt _ _ _ h))

theorem compRule_rootObj (e : Env) (d : JVal) (h : rootObj d) : rootObj (compRule e d) := by
  simp only [compRule]
  split
  · exact h
  · exact condSet_rootObj_ne _ _ _ _ (by simp) (rootObj_ensureAt _ _ _ h)

theorem hbRule_rootObj (e : Env) (d : JVal) (h : rootObj d) : rootObj (hbRule e d) := by
  simp only [hbRule]
  split
  · exact h
  · exact condSet_rootObj_ne _ _ _ _ (by simp) (rootObj_ensureAt _ _ _ h)

theorem gwRule_rootObj (e : Env) (d : JVal) (h : rootObj d) : rootObj (gwRule e d) := by
  simp only [gwRule]
  split
  · exact h
  · split
    · exact rootObj_setPath_ne _ _ _ (by simp)
        (rootObj_setPath_ne _ _ _ (by simp)
          (rootObj_ensureAt _ _ _ (rootObj_ensureAt _ _ _ h)))
    · exact rootObj_ensureAt _ _ _ (rootObj_ensureAt _ _ _ h)

theorem tgRule_rootObj (e : Env) (d : JVal) (h : rootObj d) : rootObj (tgRule e d) := by
  simp only [tgRule]
  split
  · exact h
  · exact condSet_rootObj_ne _ _ _ _ (by simp)
      (rootObj_ensureAt _ _ _ (rootObj_ensureAt _ _ _ (rootObj_ensureAt _ _ _
        (condSet_rootObj_ne _ _ _ _ (by simp)
          (rootObj_ensureAt _ _ _ (rootObj_ensureAt _ _ _ h))))))

theorem dcRule_rootObj (e : Env) (d : JVal) (h : rootObj d) : rootObj (dcRule e d) := by
  simp only [dcRule]
  split
  · exact h
  · exact condSet_rootObj_ne _ _ _ _ (by simp)
      (rootObj_ensureAt _ _ _ (rootObj_ensureAt _ _ _ (rootObj_ensureAt _ _ _
        (condSet_rootObj_ne _ _ _ _ (by simp)
          (rootObj_ensureAt _ _ _ (rootObj_ensureAt _ _ _ h))))))

theorem syncPass_rootObj (e : Env) (d : JVal) (h : rootObj d) :
    rootObj (syncPass e d) := by
  unfold syncPass
  exact dcRule_rootObj _ _ (tgRule_rootObj _ _ (gwRule_rootObj _ _ (hbRule_rootObj _ _
    (compRule_rootObj _ _ (cpRule_rootObj _ _ (mcRule_rootObj _ _ (tdRule_rootObj _ _
      (modelRule_rootObj _ _ (profilesStep_rootObj _ _ _ _
        (authRule_rootObj _ (wsRule_rootObj _ _ h)))))))))))

/-! ### Dedup-filter (`toUniqueStrings`) lemmas -/

/-- `providerFromModel` on a string depends only on its trimmed form. -/
theorem providerS_congr (a b : String) (h : strTrim a = strTrim b) :
    providerFromModelS a = providerFromModelS b := by
  simp only [providerFromModelS, providerFromModelV, trimOf, jsToString]
  rw [h]

theorem tusGoS_props : ∀ (l seen : List String),
    (((tusGoS seen l).map strTrim).Nodup) ∧
    ∀ x ∈ tusGoS seen l, strTrim x ∉ seen ∧ strTrim x ≠ "" ∧ x ∈ l := by
  intro l
  induction l with
  | nil =>
      intro seen
      exact ⟨by simp [tusGoS], fun x hx => by simp [tusGoS] at hx⟩
  | cons s rest ih =>
      intro seen
      simp only [tusGoS]
      by_cases h1 : strTrim s = ""
      · rw [if_pos h1]
        refine ⟨(ih seen).1, fun x hx => ?_⟩
        obtain ⟨a, b, c⟩ := (ih seen).2 x hx
        exact ⟨a, b, List.mem_cons_of_mem _ c⟩
      · rw [if_neg h1]
        by_cases h2 : strTrim s ∈ seen
        · rw [if_pos h2]
          refine ⟨(ih seen).1, fun x hx => ?_⟩
          obtain ⟨a, b, c⟩ := (ih seen).2 x hx
          exact ⟨a, b, List.mem_cons_of_mem _ c⟩
        · rw [if_neg h2]
          constructor
          · rw [List.map_cons, List.nodup_cons]
            constructor
            · intro hmem
              obtain ⟨y, hy, hey⟩ := List.mem_map.mp hmem
              have := ((ih (strTrim s :: seen)).2 y hy).1
              rw [hey] at this
              exact this (List.mem_cons_self _ _)
            · exact (ih (strTrim s :: seen)).1
          · intro x hx
            rcases List.mem_cons.mp hx with rfl | hx2
            · exact ⟨h2, h1, List.mem_cons_self _ _⟩
            · obtain ⟨a, b, c⟩ := (ih (strTrim s :: seen)).2 x hx2
              exact ⟨fun hmem => a (List.mem_cons_of_mem _ hmem), b,
                List.mem_cons_of_mem _ c⟩

theorem tus_fix : ∀ (l seen : List String),
    (∀ x ∈ l, strTrim x ≠ "") → ((l.map strTrim).Nodup) →
    (∀ x ∈ l, strTrim x ∉ seen) → tusGoS seen l = l := by
  intro l
  induction l with
  | nil => intro seen _ _ _; rfl
  | cons s rest ih =>
      intro seen hne hnd hseen
      rw [List.map_cons, List.nodup_cons] at hnd
      simp only [tusGoS]
      rw [if_neg (hne s (List.mem_cons_self _ _)),
        if_neg (hseen s (List.mem_cons_self _ _))]
      congr 1
      apply ih
      · exact fun x hx => hne x (List.mem_cons_of_mem _ hx)
      · exact hnd.2
      · intro x hx
        simp only [List.mem_cons, not_or]
        refine ⟨fun hh => hnd.1 ?_, hseen x (List.mem_cons_of_mem _ hx)⟩
        rw [← hh]
        exact List.mem_map_of_mem _ hx

theorem tusGoS_covers : ∀ (l seen : List String) (x : String), x ∈ l → strTrim x ≠ "" →
    strTrim x ∈ seen ∨ ∃ y ∈ tusGoS seen l, strTrim y = strTrim x := by
  intro l
  induction l with
  | nil => intro seen x hx; simp at hx
  | cons s rest ih =>
      intro seen x hx hne
      simp only [tusGoS]
      rcases List.mem_cons.mp hx with rfl | hx2
      · by_cases h2 : strTrim x ∈ seen
        · exact Or.inl h2
        · rw [if_neg hne, if_neg h2]
          exact Or.inr ⟨x, List.mem_cons_self _ _, rfl⟩
      · by_cases h1 : strTrim s = ""
        · rw [if_pos h1]; exact ih seen x hx2 hne
        · rw [if_neg h1]
          by_cases h2 : strTrim s ∈ seen
          · rw [if_pos h2]; exact ih seen x hx2 hne
          · rw [if_neg h2]
            rcases ih (strTrim s :: seen) x hx2 hne with hc | ⟨y, hy, hey⟩
            · rcases List.mem_cons.mp hc with heq | hin
              · exact Or.inr ⟨s, List.mem_cons_self _ _, heq.symm⟩
              · exact Or.inl hin
            · exact Or.inr ⟨y, List.mem_cons_of_mem _ hy, hey⟩

theorem tusGoV_props : ∀ (l : List JVal) (seen : List String),
    (((tusGoV seen l).map strTrim).Nodup) ∧
    ∀ x ∈ tusGoV seen l, strTrim x ∉ seen ∧ strTrim x ≠ "" ∧ (JVal.jstr x) ∈ l := by
  intro l
  induction l with
  | nil =>
      intro seen
      exact ⟨by simp [tusGoV], fun x hx => by simp [tusGoV] at hx⟩
  | cons v rest ih =>
      intro seen
      cases v with
      | jstr s =>
          simp only [tusGoV]
          by_cases h1 : strTrim s = ""
          · rw [if_pos h1]
            refine ⟨(ih seen).1, fun x hx => ?_⟩
            obtain ⟨a, b, c⟩ := (ih seen).2 x hx
            exact ⟨a, b, List.mem_cons_of_mem _ c⟩
          · rw [if_neg h1]
            by_cases h2 : strTrim s ∈ seen
            · rw [if_pos h2]
              refine ⟨(ih seen).1, fun x hx => ?_⟩
              obtain ⟨a, b, c⟩ := (ih seen).2 x hx
              exact ⟨a, b, List.mem_cons_of_mem _ c⟩
            · rw [if_neg h2]
              constructor
              · rw [List.map_cons, List.nodup_cons]
                constructor
                · intro hmem
                  obtain ⟨y, hy, hey⟩ := List.mem_map.mp hmem
                  have := ((ih (strTrim s :: seen)).2 y hy).1
                  rw [hey] at this
                  exact this (List.mem_cons_self _ _)
                · exact (ih (strTrim s :: seen)).1
              · intro x hx
                rcases List.mem_cons.mp hx with rfl | hx2
                · exact ⟨h2, h1, List.mem_cons_self _ _⟩
                · obtain ⟨a, b, c⟩ := (ih (strTrim s :: seen)).2 x hx2
                  exact ⟨fun hmem => a (List.mem_cons_of_mem _ hmem), b,
                    List.mem_cons_of_mem _ c⟩
      | jnum n =>
          refine ⟨(ih seen).1, fun x hx => ?_⟩
          obtain ⟨a, b, c⟩ := (ih seen).2 x hx
          exact ⟨a, b, List.mem_cons_of_mem _ c⟩
      | jbool b =>
          refine ⟨(ih seen).1, fun x hx => ?_⟩
          obtain ⟨a, b2, c⟩ := (ih seen).2 x hx
          exact ⟨a, b2, List.mem_cons_of_mem _ c⟩
      | jnull =>
          refine ⟨(ih seen).1, fun x hx => ?_⟩
          obtain ⟨a, b, c⟩ := (ih seen).2 x hx
          exact ⟨a, b, List.mem_cons_of_mem _ c⟩
      | jarr xs =>
          refine ⟨(ih seen).1, fun x hx => ?_⟩
          obtain ⟨a, b, c⟩ := (ih seen).2 x hx
          exact ⟨a, b, List.mem_cons_of_mem _ c⟩
      | jobj m =>
          refine ⟨(ih seen).1, fun x hx => ?_⟩
          obtain ⟨a, b, c⟩ := (ih seen).2 x hx
          exact ⟨a, b, List.mem_cons_of_mem _ c⟩

theorem tusGoV_map_jstr : ∀ (l seen : List String),
    tusGoV seen (l.map .jstr) = tusGoS seen l := by
  intro l
  induction l with
  | nil => intro seen; rfl
  | cons s rest ih =>
      intro seen
      simp only [List.map_cons, tusGoV, tusGoS]
      by_cases h1 : strTrim s = ""
      · rw [if_pos h1, if_pos h1, ih]
      · rw [if_neg h1, if_neg h1]
        by_cases h2 : strTrim s ∈ seen
        · rw [if_pos h2, if_pos h2, ih]
        · rw [if_neg h2, if_neg h2, ih]

/-! ### Provider-table facts and the merged-fallbacks fixpoint -/

theorem providers_models_wf : ∀ pc ∈ PROVIDERS, ∀ m ∈ pc.primaryModel :: pc.fallbackModels,
    providerFromModelS m = pc.provider ∧ strTrim m = m ∧ m ≠ "" ∧ pc.provider ≠ "" := by
  decide

theorem providers_nodup_keys : (PROVIDERS.map (fun pc => pc.profileKey)).Nodup := by decide

theorem providersByName_provider (x : String) (pc : ProviderSpec)
    (h : providersByName x = some pc) : pc.provider = x ∧ pc ∈ PROVIDERS := by
  constructor
  · have := List.find?_some h
    simpa using this
  · exact List.mem_of_find?_eq_some h

theorem avail_spec (e : Env) : ∀ (specs : List ProviderSpec) (seen : List String)
    (x : String), x ∈ availableFrom e specs seen → ∃ pc ∈ specs, pc.provider = x := by
  intro specs
  induction specs with
  | nil => intro seen x hx; simp [availableFrom] at hx
  | cons pc rest ih =>
      intro seen x hx
      simp only [availableFrom] at hx
      by_cases h1 : strTrim (e pc.envVar) = ""
      · rw [if_pos h1] at hx
        obtain ⟨pc2, hm, he⟩ := ih seen x hx
        exact ⟨pc2, List.mem_cons_of_mem _ hm, he⟩
      · rw [if_neg h1] at hx
        by_cases h2 : pc.envVar ∈ seen
        · rw [if_pos h2] at hx
          obtain ⟨pc2, hm, he⟩ := ih seen x hx
          exact ⟨pc2, List.mem_cons_of_mem _ hm, he⟩
        · rw [if_neg h2] at hx
          rcases List.mem_cons.mp hx with rfl | hx2
          · exact ⟨pc, List.mem_cons_self _ _, rfl⟩
          · obtain ⟨pc2, hm, he⟩ := ih _ x hx2
            exact ⟨pc2, List.mem_cons_of_mem _ hm, he⟩

theorem avail_byName (e : Env) (x : String) (h : x ∈ computeAvailable e) :
    ∃ pc, providersByName x = some pc ∧ pc.provider = x := by
  obtain ⟨pc, hmem, hpx⟩ := avail_spec e PROVIDERS [] x h
  have hs : (PROVIDERS.find? (fun pc => pc.provider = x)).isSome := by
    rw [List.find?_isSome]
    exact ⟨pc, hmem, by simp [hpx]⟩
  obtain ⟨pc', hpc'⟩ := Option.isSome_iff_exists.mp hs
  exact ⟨pc', hpc', (providersByName_provider x pc' hpc').1⟩

theorem avail_ne_empty (e : Env) (x : String) (h : x ∈ computeAvailable e) : x ≠ "" := by
  obtain ⟨pc, hmem, hpx⟩ := avail_spec e PROVIDERS [] x h
  subst hpx
  exact (providers_models_wf pc hmem pc.primaryModel (List.mem_cons_self _ _)).2.2.2

/-- Strict inequality against the primary holds for any string whose
provider differs from the primary's. -/
theorem jsStrictNe_of_provider_ne (x : String) (P : Option JVal)
    (h : providerFromModelS x ≠ providerFromModelO P) : jsStrictNe (.jstr x) P = true := by
  cases P with
  | none => rfl
  | some v =>
      cases v with
      | jstr b =>
          simp only [jsStrictNe, ne_eq, decide_eq_true_eq]
          exact fun heq => h (by rw [heq]; rfl)
      | jnum n => rfl
      | jbool b => rfl
      | jnull => rfl
      | jarr xs => rfl
      | jobj m => rfl

theorem recommendedFor_mem (av : List String) (act : String) (m : String)
    (h : m ∈ recommendedFor av act) :
    strTrim m = m ∧ m ≠ "" ∧ providerFromModelS m ≠ act ∧
    providerFromModelS m ∈ av ∧ providerFromModelS m ≠ "" := by
  unfold recommendedFor toUniqueStringsS at h
  have hprops := (tusGoS_props _ []).2 m h
  obtain ⟨-, hne_trim, hmem⟩ := hprops
  rw [List.mem_filter] at hmem
  obtain ⟨hmem2, hpred⟩ := hmem
  rw [List.mem_flatten] at hmem2
  obtain ⟨l2, hl2, hml⟩ := hmem2
  rw [List.mem_map] at hl2
  obtain ⟨p, hp, rfl⟩ := hl2
  rw [List.mem_filter] at hp
  obtain ⟨hpav, -⟩ := hp
  cases hb : providersByName p with
  | none => rw [hb] at hml; simp at hml
  | some pc =>
      rw [hb] at hml
      obtain ⟨hprov, htrim, hmne, hpne⟩ :=
        providers_models_wf pc (providersByName_provider p pc hb).2 m hml
      have hpcp : pc.provider = p := (providersByName_provider p pc hb).1
      refine ⟨htrim, hmne, by simpa using hpred, ?_, ?_⟩
      · rw [hprov, hpcp]; exact hpav
      · rw [hprov]; exact hpne

theorem mergedFor_facts (av : List String) (P : Option JVal) (E : List JVal) :
    (((mergedFor av P E).map strTrim).Nodup) ∧
    (∀ x ∈ mergedFor av P E, strTrim x ≠ "" ∧ fallbackKeep av P (.jstr x) = true) ∧
    (∀ r ∈ recommendedFor av (providerFromModelO P),
      ∃ y ∈ mergedFor av P E, providerFromModelS y = providerFromModelS r) := by
  refine ⟨?_, ?_, ?_⟩
  · exact (tusGoS_props _ []).1
  · intro x hx
    have hpr := (tusGoS_props _ []).2 x hx
    obtain ⟨-, hne, hmem⟩ := hpr
    refine ⟨hne, ?_⟩
    rcases List.mem_append.mp hmem with hf | hm
    · have := (tusGoV_props _ []).2 x hf
      obtain ⟨-, -, hin⟩ := this
      exact (List.mem_filter.mp hin).2
    · rw [List.mem_filter] at hm
      obtain ⟨hr, -⟩ := hm
      obtain ⟨-, -, hact, hin, hpne⟩ := recommendedFor_mem av _ x hr
      show (_ && _ && _) = true
      rw [Bool.and_eq_true, Bool.and_eq_true]
      refine ⟨⟨?_, ?_⟩, ?_⟩
      · show decide (providerFromModelV (.jstr x) ≠ "") = true
        simpa using hpne
      · show List.contains av (providerFromModelV (.jstr x)) = true
        have : providerFromModelV (.jstr x) = providerFromModelS x := rfl
        rw [this]
        exact List.elem_eq_true_of_mem hin
      · exact jsStrictNe_of_provider_ne x P hact
  · intro r hr
    have hset : ∀ f, f ∈ toUniqueStringsV (E.filter (fallbackKeep av P)) ++
        (recommendedFor av (providerFromModelO P)).filter
          (fun m => ¬ providerFromModelS m ∈
            (((toUniqueStringsV (E.filter (fallbackKeep av P))).map
              providerFromModelS).filter (fun p => p ≠ ""))) →
        strTrim f ≠ "" →
        ∃ y ∈ mergedFor av P E, strTrim y = strTrim f := by
      intro f hf hfe
      rcases tusGoS_covers _ [] f hf hfe with hc | hc
      · simp at hc
      · exact hc
    by_cases hin : providerFromModelS r ∈
        (((toUniqueStringsV (E.filter (fallbackKeep av P))).map
          providerFromModelS).filter (fun p => p ≠ ""))
    · rw [List.mem_filter] at hin
      obtain ⟨hmap, -⟩ := hin
      obtain ⟨f, hf, hef⟩ := List.mem_map.mp hmap
      have hfe : strTrim f ≠ "" := ((tusGoV_props _ []).2 f hf).2.1
      obtain ⟨y, hy, hey⟩ := hset f (List.mem_append.mpr (Or.inl hf)) hfe
      exact ⟨y, hy, (providerS_congr y f hey).trans hef⟩
    · have hrm : r ∈ (recommendedFor av (providerFromModelO P)).filter
          (fun m => ¬ providerFromModelS m ∈
            (((toUniqueStringsV (E.filter (fallbackKeep av P))).map
              providerFromModelS).filter (fun p => p ≠ ""))) :=
        List.mem_filter.mpr ⟨hr, by simpa using hin⟩
      obtain ⟨htrim, hrne, -, -, -⟩ := recommendedFor_mem av _ r hr
      have hfe : strTrim r ≠ "" := by rw [htrim]; exact hrne
      obtain ⟨y, hy, hey⟩ := hset r (List.mem_append.mpr (Or.inr hrm)) hfe
      exact ⟨y, hy, providerS_congr y r hey⟩

theorem mergedFor_fixpoint (av : List String) (P : Option JVal) (E : List JVal) :
    mergedFor av P ((mergedFor av P E).map .jstr) = mergedFor av P E := by
  obtain ⟨hnodup, hel, hcov⟩ := mergedFor_facts av P E
  have hfilter : (((mergedFor av P E).map JVal.jstr).filter (fallbackKeep av P))
      = (mergedFor av P E).map JVal.jstr := by
    rw [List.filter_eq_self]
    intro a ha
    obtain ⟨x, hx, rfl⟩ := List.mem_map.mp ha
    exact (hel x hx).2
  have hfix : tusGoS [] (mergedFor av P E) = mergedFor av P E :=
    tus_fix _ [] (fun x hx => (hel x hx).1) hnodup (by simp)
  conv_lhs => rw [mergedFor]
  rw [show toUniqueStringsV (((mergedFor av P E).map JVal.jstr).filter (fallbackKeep av P))
      = mergedFor av P E by
    rw [hfilter, show toUniqueStringsV ((mergedFor av P E).map JVal.jstr)
        = tusGoS [] (mergedFor av P E) from tusGoV_map_jstr _ [], hfix]]
  have hmiss : (recommendedFor av (providerFromModelO P)).filter
      (fun m => ¬ providerFromModelS m ∈
        (((mergedFor av P E).map providerFromModelS).filter (fun p => p ≠ ""))) = [] := by
    rw [List.filter_eq_nil_iff]
    intro r hr
    obtain ⟨y, hy, hey⟩ := hcov r hr
    obtain ⟨-, -, -, -, hrne⟩ := recommendedFor_mem av _ r hr
    have hmem : providerFromModelS r ∈
        (((mergedFor av P E).map providerFromModelS).filter (fun p => p ≠ "")) := by
      refine List.mem_filter.mpr ⟨List.mem_map.mpr ⟨y, hy, hey⟩, by simpa using hrne⟩
    simp only [decide_eq_true_eq, not_not]
    exact hmem
  rw [hmiss, List.append_nil]
  exact hfix

/-! ### Model-rule no-op and establishment lemmas -/

theorem existingFallbacks_congr (d d' : JVal)
    (h : getPath (some d') (modelPath ++ ["fallbacks"])
      = getPath (some d) (modelPath ++ ["fallbacks"])) :
    existingFallbacks d' = existingFallbacks d := by
  unfold existingFallbacks
  rw [h]

theorem modelPrimaryStep_noop (av : List String) (d : JVal)
    (h : av = [] ∨
      (trimOfO (getPath (some d) (modelPath ++ ["primary"])) ≠ "" ∧
       providerFromModelS (trimOfO (getPath (some d) (modelPath ++ ["primary"]))) ∈ av)) :
    modelPrimaryStep av d = d := by
  cases av with
  | nil => rfl
  | cons a0 rest =>
      rcases h with h | h
      · exact absurd h (by simp)
      · simp only [modelPrimaryStep]
        rw [if_neg (by push_neg; exact h)]

theorem modelFallbacksStep_noop (av : List String) (d : JVal)
    (h : jsonStringify (.jarr (existingFallbacks d))
      = jsonStringify (.jarr ((mergedFor av
          (getPath (some d) (modelPath ++ ["primary"])) (existingFallbacks d)).map .jstr))) :
    modelFallbacksStep av d = d := by
  simp only [modelFallbacksStep]
  rw [if_neg (not_not_intro h)]

theorem modelRule_noop (av : List String) (d : JVal)
    (hobj : isObjAt d modelPath)
    (hprim : av = [] ∨
      (trimOfO (getPath (some d) (modelPath ++ ["primary"])) ≠ "" ∧
       providerFromModelS (trimOfO (getPath (some d) (modelPath ++ ["primary"]))) ∈ av))
    (hfb : jsonStringify (.jarr (existingFallbacks d))
      = jsonStringify (.jarr ((mergedFor av
          (getPath (some d) (modelPath ++ ["primary"])) (existingFallbacks d)).map .jstr))) :
    modelRule av d = d := by
  cases av with
  | nil => rfl
  | cons a0 rest =>
      show modelFallbacksStep _ (modelPrimaryStep _ (ensureAt d ["agents", "defaults"] "model")) = d
      obtain ⟨lm, hlm⟩ := hobj
      rw [ensureAt_noop d ["agents", "defaults"] "model" lm hlm,
        modelPrimaryStep_noop _ _ hprim]
      exact modelFallbacksStep_noop _ _ hfb

theorem modelPrimaryStep_post (a0 : String) (rest : List String) (d1 : JVal)
    (hobj : isObjAt d1 modelPath)
    (ha0 : ∃ pc, providersByName a0 = some pc ∧ pc.provider = a0) :
    isObjAt (modelPrimaryStep (a0 :: rest) d1) modelPath ∧
    (trimOfO (getPath (some (modelPrimaryStep (a0 :: rest) d1))
        (modelPath ++ ["primary"])) ≠ "" ∧
     providerFromModelS (trimOfO (getPath (some (modelPrimaryStep (a0 :: rest) d1))
        (modelPath ++ ["primary"]))) ∈ (a0 :: rest)) := by
  obtain ⟨pc, hb, hpca⟩ := ha0
  obtain ⟨lm, hlm⟩ := id hobj
  obtain ⟨hprov, htrim, hne, -⟩ := providers_models_wf pc
    (providersByName_provider a0 pc hb).2 pc.primaryModel (List.mem_cons_self _ _)
  have ht : trimOfO (some (.jstr pc.primaryModel)) = pc.primaryModel := by
    show strTrim pc.primaryModel = pc.primaryModel
    exact htrim
  simp only [modelPrimaryStep]
  split
  · rw [hb]
    have hgp : getPath (some
        (if getPath (some d1) (modelPath ++ ["primary"]) ≠ some (.jstr pc.primaryModel)
         then setPath d1 (modelPath ++ ["primary"]) (.jstr pc.primaryModel)
         else d1)) (modelPath ++ ["primary"]) = some (.jstr pc.primaryModel) :=
      condSet_post _ _ _ _ (fun hng => not_not.mp hng)
        (canWrite_of_isObj modelPath d1 lm "primary" hlm)
    constructor
    · exact condSet_objPres _ _ _ _ _
        (strictPre_self_append modelPath "primary" []) hobj
    · rw [hgp, ht]
      constructor
      · exact hne
      · rw [hprov, hpca]
        exact List.mem_cons_self _ _
  · next hng =>
      push_neg at hng
      exact ⟨hobj, hng⟩

theorem modelFallbacksStep_post (av : List String) (d2 : JVal)
    (hobj : isObjAt d2 modelPath) :
    getPath (some (modelFallbacksStep av d2)) (modelPath ++ ["primary"])
      = getPath (some d2) (modelPath ++ ["primary"]) ∧
    isObjAt (modelFallbacksStep av d2) modelPath ∧
    jsonStringify (.jarr (existingFallbacks (modelFallbacksStep av d2)))
      = jsonStringify (.jarr ((mergedFor av
          (getPath (some (modelFallbacksStep av d2)) (modelPath ++ ["primary"]))
          (existingFallbacks (modelFallbacksStep av d2))).map .jstr)) := by
  obtain ⟨lm, hlm⟩ := id hobj
  simp only [modelFallbacksStep]
  split
  · have hP : getPath (some (setPath d2 (modelPath ++ ["fallbacks"])
        (.jarr ((mergedFor av (getPath (some d2) (modelPath ++ ["primary"]))
          (existingFallbacks d2)).map .jstr)))) (modelPath ++ ["primary"])
        = getPath (some d2) (modelPath ++ ["primary"]) :=
      getPath_setPath_diverges _ _ _ _ (by decide)
    have hEF : existingFallbacks (setPath d2 (modelPath ++ ["fallbacks"])
        (.jarr ((mergedFor av (getPath (some d2) (modelPath ++ ["primary"]))
          (existingFallbacks d2)).map .jstr)))
        = (mergedFor av (getPath (some d2) (modelPath ++ ["primary"]))
            (existingFallbacks d2)).map .jstr := by
      unfold existingFallbacks
      rw [getPath_setPath_self _ _ _ (canWrite_of_isObj modelPath d2 lm "fallbacks" hlm)]
    refine ⟨hP, ?_, ?_⟩
    · exact isObjAt_setPath_strictPre _ _ _ _
        (strictPre_self_append modelPath "fallbacks" []) hobj
    · rw [hEF, hP, mergedFor_fixpoint]
  · next hng =>
      exact ⟨rfl, hobj, not_not.mp hng⟩

theorem modelRule_post (a0 : String) (rest : List String) (d : JVal)
    (hD : isObjAt d ["agents", "defaults"])
    (ha0 : ∃ pc, providersByName a0 = some pc ∧ pc.provider = a0) :
    isObjAt (modelRule (a0 :: rest) d) modelPath ∧
    (trimOfO (getPath (some (modelRule (a0 :: rest) d)) (modelPath ++ ["primary"])) ≠ "" ∧
     providerFromModelS (trimOfO (getPath (some (modelRule (a0 :: rest) d))
        (modelPath ++ ["primary"]))) ∈ (a0 :: rest)) ∧
    jsonStringify (.jarr (existingFallbacks (modelRule (a0 :: rest) d)))
      = jsonStringify (.jarr ((mergedFor (a0 :: rest)
          (getPath (some (modelRule (a0 :: rest) d)) (modelPath ++ ["primary"]))
          (existingFallbacks (modelRule (a0 :: rest) d))).map .jstr)) := by
  obtain ⟨ld, hld⟩ := hD
  have h1 : isObjAt (ensureAt d ["agents", "defaults"] "model") modelPath :=
    ensureAt_isObj d ["agents", "defaults"] "model" ld hld
  obtain ⟨hobj2, hprim2⟩ := modelPrimaryStep_post a0 rest _ h1 ha0
  obtain ⟨hpframe, hobj3, hfix3⟩ := modelFallbacksStep_post (a0 :: rest) _ hobj2
  have hDval : modelRule (a0 :: rest) d
      = modelFallbacksStep (a0 :: rest)
          (modelPrimaryStep (a0 :: rest) (ensureAt d ["agents", "defaults"] "model")) := rfl
  rw [hDval]
  refine ⟨hobj3, ?_, hfix3⟩
  rw [hpframe]
  exact hprim2

/-! ### The pass is the identity on non-object roots -/

theorem divergesPath_head (a b : String) (as bs : List String) (h : ¬ a = b) :
    divergesPath (a :: as) (b :: bs) = true := by
  rw [show divergesPath (a :: as) (b :: bs)
    = if a = b then divergesPath as bs else true from rfl, if_neg h]

theorem setPath_nonobj (d : JVal) (p : List String) (v : JVal) (hp : p ≠ [])
    (h : ∀ l, d ≠ .jobj l) : setPath d p v = d := by
  cases p with
  | nil => exact absurd rfl hp
  | cons k ks =>
      simp only [setPath]
      cases d with
      | jobj l => exact absurd rfl (h l)
      | jstr s => rfl
      | jnum n => rfl
      | jbool b => rfl
      | jnull => rfl
      | jarr xs => rfl

theorem ensureAt_nonobj (d : JVal) (p : List String) (k : String)
    (h : ∀ l, d ≠ .jobj l) : ensureAt d p k = d := by
  rcases ensureAt_cases d p k with hc | hc
  · exact hc
  · rw [hc]
    exact setPath_nonobj d (p ++ [k]) _ (by simp) h

theorem wsRule_id (e : Env) (d : JVal) (h : ∀ l, d ≠ .jobj l) : wsRule e d = d := by
  simp only [wsRule]
  rw [ensureAt_nonobj d [] "agents" h, ensureAt_nonobj d ["agents"] "defaults" h]
  split
  · exact setPath_nonobj _ _ _ (by simp) h
  · rfl

theorem authRule_id (d : JVal) (h : ∀ l, d ≠ .jobj l) : authRule d = d := by
  unfold authRule
  rw [ensureAt_nonobj d [] "auth" h, ensureAt_nonobj d ["auth"] "profiles" h]

theorem profilesStep_id (e : Env) : ∀ (specs : List ProviderSpec) (seen : List String)
    (d : JVal), (∀ l, d ≠ .jobj l) → profilesStep e specs seen d = d := by
  intro specs
  induction specs with
  | nil => intro seen d _; rfl
  | cons pc rest ih =>
      intro seen d h
      simp only [profilesStep]
      by_cases h1 : strTrim (e pc.envVar) = ""
      · rw [if_pos h1]; exact ih seen d h
      · rw [if_neg h1]
        by_cases h2 : pc.envVar ∈ seen
        · rw [if_pos h2]; exact ih seen d h
        · rw [if_neg h2]
          split
          · exact ih _ d h
          · rw [setPath_nonobj d _ _ (by simp) h]
            exact ih _ d h

theorem modelRule_id (av : List String) (d : JVal) (h : ∀ l, d ≠ .jobj l) :
    modelRule av d = d := by
  cases av with
  | nil => rfl
  | cons a0 rest =>
      show modelFallbacksStep _ (modelPrimaryStep _ (ensureAt d ["agents", "defaults"] "model")) = d
      rw [ensureAt_nonobj d ["agents", "defaults"] "model" h]
      have hps : modelPrimaryStep (a0 :: rest) d = d := by
        simp only [modelPrimaryStep]
        repeat' split
        all_goals first
          | rfl
          | exact setPath_nonobj _ _ _ (by simp [modelPath]) h
      rw [hps]
      simp only [modelFallbacksStep]
      split
      · exact setPath_nonobj _ _ _ (by simp [modelPath]) h
      · rfl

theorem tdRule_id (e : Env) (d : JVal) (h : ∀ l, d ≠ .jobj l) : tdRule e d = d := by
  simp only [tdRule]
  split
  · exact setPath_nonobj _ _ _ (by simp) h
  · rfl

theorem mcRule_id (e : Env) (d : JVal) (h : ∀ l, d ≠ .jobj l) : mcRule e d = d := by
  simp only [mcRule]
  split
  · exact setPath_nonobj _ _ _ (by simp) h
  · rfl

theorem cpRule_id (e : Env) (d : JVal) (h : ∀ l, d ≠ .jobj l) : cpRule e d = d := by
  simp only [cpRule]
  split
  · rfl
  · rw [ensureAt_nonobj d ["agents", "defaults"] "contextPruning" h]
    have hm : (if getPath (some d) ["agents", "defaults", "contextPruning", "mode"]
        ≠ some (.jstr (strTrim (e "OPENCLAW_CONTEXT_PRUNING_MODE")))
        then setPath d ["agents", "defaults", "contextPruning", "mode"]
          (.jstr (strTrim (e "OPENCLAW_CONTEXT_PRUNING_MODE")))
        else d) = d := by
      split
      · exact setPath_nonobj _ _ _ (by simp) h
      · rfl
    rw [hm]
    split
    · exact setPath_nonobj _ _ _ (by simp) h
    · rfl

theorem compRule_id (e : Env) (d : JVal) (h : ∀ l, d ≠ .jobj l) : compRule e d = d := by
  simp only [compRule]
  split
  · rfl
  · rw [ensureAt_nonobj d ["agents", "defaults"] "compaction" h]
    split
    · exact setPath_nonobj _ _ _ (by simp) h
    · rfl

theorem hbRule_id (e : Env) (d : JVal) (h : ∀ l, d ≠ .jobj l) : hbRule e d = d := by
  simp only [hbRule]
  split
  · rfl
  · rw [ensureAt_nonobj d ["agents", "defaults"] "heartbeat" h]
    split
    · exact setPath_nonobj _ _ _ (by simp) h
    · rfl

theorem gwRule_id (e : Env) (d : JVal) (h : ∀ l, d ≠ .jobj l) : gwRule e d = d := by
  simp only [gwRule]
  split
  · rfl
  · rw [ensureAt_nonobj d [] "gateway" h, ensureAt_nonobj d ["gateway"] "auth" h]
    split
    · rw [setPath_nonobj d _ _ (by simp) h, setPath_nonobj d _ _ (by simp) h]
    · rfl

theorem tgRule_id (e : Env) (d : JVal) (h : ∀ l, d ≠ .jobj l) : tgRule e d = d := by
  simp only [tgRule]
  split
  · rfl
  · rw [ensureAt_nonobj d [] "channels" h, ensureAt_nonobj d ["channels"] "telegram" h]
    have hm : (if getPath (some d) ["channels", "telegram", "enabled"]
        ≠ some (.jbool true)
        then setPath d ["channels", "telegram", "enabled"] (.jbool true)
        else d) = d := by
      split
      · exact setPath_nonobj _ _ _ (by simp) h
      · rfl
    rw [hm, ensureAt_nonobj d [] "plugins" h, ensureAt_nonobj d ["plugins"] "entries" h,
      ensureAt_nonobj d ["plugins", "entries"] "telegram" h]
    split
    · exact setPath_nonobj _ _ _ (by simp) h
    · rfl

theorem dcRule_id (e : Env) (d : JVal) (h : ∀ l, d ≠ .jobj l) : dcRule e d = d := by
  simp only [dcRule]
  split
  · rfl
  · rw [ensureAt_nonobj d [] "channels" h, ensureAt_nonobj d ["channels"] "discord" h]
    have hm : (if getPath (some d) ["channels", "discord", "enabled"]
        ≠ some (.jbool true)
        then setPath d ["channels", "discord", "enabled"] (.jbool true)
        else d) = d := by
      split
      · exact setPath_nonobj _ _ _ (by simp) h
      · rfl
    rw [hm, ensureAt_nonobj d [] "plugins" h, ensureAt_nonobj d ["plugins"] "entries" h,
      ensureAt_nonobj d ["plugins", "entries"] "discord" h]
    split
    · exact setPath_nonobj _ _ _ (by simp) h
    · rfl

/-- On a non-object root the whole pass is the identity (matching the
script: a primitive root raises before any write, and property writes on
an array root are not part of the serialized document). -/
theorem syncPass_id (e : Env) (d : JVal) (h : ∀ l, d ≠ .jobj l) : syncPass e d = d := by
  unfold syncPass
  rw [wsRule_id e d h, authRule_id d h, profilesStep_id e PROVIDERS [] d h,
    modelRule_id _ d h, tdRule_id e d h, mcRule_id e d h, cpRule_id e d h,
    compRule_id e d h, hbRule_id e d h, gwRule_id e d h, tgRule_id e d h,
    dcRule_id e d h]

/-! ### The full post-state of one pass -/

theorem syncPass_post (e : Env) (d : JVal) (hroot : rootObj d) :
    rootObj (syncPass e d) ∧
    isObjAt (syncPass e d) ["agents"] ∧
    isObjAt (syncPass e d) ["agents", "defaults"] ∧
    getPath (some (syncPass e d)) ["agents", "defaults", "workspace"]
      = some (.jstr (wsDesired e)) ∧
    isObjAt (syncPass e d) ["auth"] ∧
    isObjAt (syncPass e d) ["auth", "profiles"] ∧
    (∀ pc ∈ activeFrom e PROVIDERS [],
      profileOk (getPath (some (syncPass e d)) ["auth", "profiles", pc.profileKey]) pc
        = true) ∧
    (∀ a0 rest, computeAvailable e = a0 :: rest →
      isObjAt (syncPass e d) modelPath ∧
      (trimOfO (getPath (some (syncPass e d)) (modelPath ++ ["primary"])) ≠ "" ∧
       providerFromModelS (trimOfO (getPath (some (syncPass e d))
          (modelPath ++ ["primary"]))) ∈ (a0 :: rest)) ∧
      jsonStringify (.jarr (existingFallbacks (syncPass e d)))
        = jsonStringify (.jarr ((mergedFor (a0 :: rest)
            (getPath (some (syncPass e d)) (modelPath ++ ["primary"]))
            (existingFallbacks (syncPass e d))).map .jstr))) ∧
    (strTrim (e "OPENCLAW_THINKING_DEFAULT") ≠ "" →
      getPath (some (syncPass e d)) ["agents", "defaults", "thinkingDefault"]
        = some (.jstr (strTrim (e "OPENCLAW_THINKING_DEFAULT")))) ∧
    (strTrim (e "OPENCLAW_MAX_CONCURRENT") ≠ "" →
      getPath (some (syncPass e d)) ["agents", "defaults", "maxConcurrent"]
        = some (.jnum (jsNumber (strTrim (e "OPENCLAW_MAX_CONCURRENT"))))) ∧
    (strTrim (e "OPENCLAW_CONTEXT_PRUNING_MODE") ≠ "" →
      isObjAt (syncPass e d) ["agents", "defaults", "contextPruning"] ∧
      getPath (some (syncPass e d)) ["agents", "defaults", "contextPruning", "mode"]
        = some (.jstr (strTrim (e "OPENCLAW_CONTEXT_PRUNING_MODE"))) ∧
      (strTrim (e "OPENCLAW_CONTEXT_PRUNING_TTL") ≠ "" →
        getPath (some (syncPass e d)) ["agents", "defaults", "contextPruning", "ttl"]
          = some (.jstr (strTrim (e "OPENCLAW_CONTEXT_PRUNING_TTL"))))) ∧
    (strTrim (e "OPENCLAW_COMPACTION_MODE") ≠ "" →
      isObjAt (syncPass e d) ["agents", "defaults", "compaction"] ∧
      getPath (some (syncPass e d)) ["agents", "defaults", "compaction", "mode"]
        = some (.jstr (strTrim (e "OPENCLAW_COMPACTION_MODE")))) ∧
    (strTrim (e "OPENCLAW_HEARTBEAT_EVERY") ≠ "" →
      isObjAt (syncPass e d) ["agents", "defaults", "heartbeat"] ∧
      getPath (some (syncPass e d)) ["agents", "defaults", "heartbeat", "every"]
        = some (.jstr (strTrim (e "OPENCLAW_HEARTBEAT_EVERY")))) ∧
    (strTrim (e "OPENCLAW_GATEWAY_TOKEN") ≠ "" →
      isObjAt (syncPass e d) ["gateway"] ∧ isObjAt (syncPass e d) ["gateway", "auth"] ∧
      getPath (some (syncPass e d)) ["gateway", "auth", "mode"] = some (.jstr "token") ∧
      getPath (some (syncPass e d)) ["gateway", "auth", "token"]
        = some (.jstr (strTrim (e "OPENCLAW_GATEWAY_TOKEN")))) ∧
    (strTrim (e "TELEGRAM_BOT_TOKEN") ≠ "" →
      isObjAt (syncPass e d) ["channels"] ∧
      isObjAt (syncPass e d) ["channels", "telegram"] ∧
      getPath (some (syncPass e d)) ["channels", "telegram", "enabled"]
        = some (.jbool true) ∧
      isObjAt (syncPass e d) ["plugins"] ∧
      isObjAt (syncPass e d) ["plugins", "entries"] ∧
      isObjAt (syncPass e d) ["plugins", "entries", "telegram"] ∧
      getPath (some (syncPass e d)) ["plugins", "entries", "telegram", "enabled"]
        = some (.jbool true)) ∧
    (strTrim (e "DISCORD_BOT_TOKEN") ≠ "" → strTrim (e "DISCORD_GUILD_ID") ≠ "" →
      isObjAt (syncPass e d) ["channels"] ∧
      isObjAt (syncPass e d) ["channels", "discord"] ∧
      getPath (some (syncPass e d)) ["channels", "discord", "enabled"]
        = some (.jbool true) ∧
      isObjAt (syncPass e d) ["plugins"] ∧
      isObjAt (syncPass e d) ["plugins", "entries"] ∧
      isObjAt (syncPass e d) ["plugins", "entries", "discord"] ∧
      getPath (some (syncPass e d)) ["plugins", "entries", "discord", "enabled"]
        = some (.jbool true)) := by
  simp only [syncPass]
  set s1 := wsRule e d with hs1
  set s2 := authRule s1 with hs2
  set s3 := profilesStep e PROVIDERS [] s2 with hs3
  set s4 := modelRule (computeAvailable e) s3 with hs4
  set s5 := tdRule e s4 with hs5
  set s6 := mcRule e s5 with hs6
  set s7 := cpRule e s6 with hs7
  set s8 := compRule e s7 with hs8
  set s9 := hbRule e s8 with hs9
  set s10 := gwRule e s9 with hs10
  set s11 := tgRule e s10 with hs11
  -- stage 1
  have r1 : rootObj s1 := wsRule_rootObj e d hroot
  obtain ⟨a1_1, a2_1, w_1⟩ := wsRule_post e d hroot
  -- stage 2
  have r2 : rootObj s2 := authRule_rootObj s1 r1
  have a1_2 : isObjAt s2 ["agents"] :=
    isObjAt_congr _ _ _ (authRule_frame s1 _ (by decide)) a1_1
  have a2_2 : isObjAt s2 ["agents", "defaults"] :=
    isObjAt_congr _ _ _ (authRule_frame s1 _ (by decide)) a2_1
  have w_2 : getPath (some s2) ["agents", "defaults", "workspace"]
      = some (.jstr (wsDesired e)) :=
    (authRule_frame s1 _ (by decide)).trans w_1
  obtain ⟨u1_2, u2_2⟩ := authRule_post s1 r1
  -- stage 3
  have r3 : rootObj s3 := profilesStep_rootObj e PROVIDERS [] s2 r2
  have a1_3 : isObjAt s3 ["agents"] :=
    isObjAt_congr _ _ _ (profilesStep_frame e PROVIDERS [] s2 _ (by decide)) a1_2
  have a2_3 : isObjAt s3 ["agents", "defaults"] :=
    isObjAt_congr _ _ _ (profilesStep_frame e PROVIDERS [] s2 _ (by decide)) a2_2
  have w_3 : getPath (some s3) ["agents", "defaults", "workspace"]
      = some (.jstr (wsDesired e)) :=
    (profilesStep_frame e PROVIDERS [] s2 _ (by decide)).trans w_2
  have u1_3 : isObjAt s3 ["auth"] :=
    profilesStep_objPres e PROVIDERS [] s2 ["auth"] (Or.inl (by decide)) u1_2
  have u2_3 : isObjAt s3 ["auth", "profiles"] :=
    profilesStep_objPres e PROVIDERS [] s2 ["auth", "profiles"] (Or.inr rfl) u2_2
  have pr_3 : ∀ pc ∈ activeFrom e PROVIDERS [],
      profileOk (getPath (some s3) ["auth", "profiles", pc.profileKey]) pc = true :=
    profilesStep_post e PROVIDERS [] s2 providers_nodup_keys u2_2
  -- stage 4
  have r4 : rootObj s4 := modelRule_rootObj _ s3 r3
  have a1_4 : isObjAt s4 ["agents"] := modelRule_objPres _ s3 ["agents"] (by decide) a1_3
  have a2_4 : isObjAt s4 ["agents", "defaults"] :=
    modelRule_objPres _ s3 ["agents", "defaults"] (by decide) a2_3
  have w_4 : getPath (some s4) ["agents", "defaults", "workspace"]
      = some (.jstr (wsDesired e)) :=
    (modelRule_frame _ s3 _ (by decide)).trans w_3
  have u1_4 : isObjAt s4 ["auth"] :=
    isObjAt_congr _ _ _ (modelRule_frame _ s3 ["auth"] (by decide)) u1_3
  have u2_4 : isObjAt s4 ["auth", "profiles"] :=
    isObjAt_congr _ _ _ (modelRule_frame _ s3 ["auth", "profiles"] (by decide)) u2_3
  have pr_4 : ∀ pc ∈ activeFrom e PROVIDERS [],
      profileOk (getPath (some s4) ["auth", "profiles", pc.profileKey]) pc = true := by
    intro pc hm
    rw [modelRule_frame _ s3 _
      (divergesPath_head "agents" "auth" _ _ (by decide))]
    exact pr_3 pc hm
  have m_4 : ∀ a0 rest, computeAvailable e = a0 :: rest →
      isObjAt s4 modelPath ∧
      (trimOfO (getPath (some s4) (modelPath ++ ["primary"])) ≠ "" ∧
       providerFromModelS (trimOfO (getPath (some s4) (modelPath ++ ["primary"])))
         ∈ (a0 :: rest)) ∧
      jsonStringify (.jarr (existingFallbacks s4))
        = jsonStringify (.jarr ((mergedFor (a0 :: rest)
            (getPath (some s4) (modelPath ++ ["primary"]))
            (existingFallbacks s4)).map .jstr)) := by
    intro a0 rest hav
    have ha0 : ∃ pc, providersByName a0 = some pc ∧ pc.provider = a0 :=
      avail_byName e a0 (by rw [hav]; exact List.mem_cons_self _ _)
    have hpost := modelRule_post a0 rest s3 a2_3 ha0
    have hs4' : s4 = modelRule (a0 :: rest) s3 := by rw [hs4, hav]
    rw [← hs4'] at hpost
    exact hpost
  -- stage 5
  have r5 : rootObj s5 := tdRule_rootObj e s4 r4
  have a1_5 : isObjAt s5 ["agents"] := tdRule_objPres e s4 ["agents"] (by decide) a1_4
  have a2_5 : isObjAt s5 ["agents", "defaults"] :=
    tdRule_objPres e s4 ["agents", "defaults"] (by decide) a2_4
  have w_5 : getPath (some s5) ["agents", "defaults", "workspace"]
      = some (.jstr (wsDesired e)) := (tdRule_frame e s4 _ (by decide)).trans w_4
  have u1_5 : isObjAt s5 ["auth"] :=
    isObjAt_congr _ _ _ (tdRule_frame e s4 ["auth"] (by decide)) u1_4
  have u2_5 : isObjAt s5 ["auth", "profiles"] :=
    isObjAt_congr _ _ _ (tdRule_frame e s4 ["auth", "profiles"] (by decide)) u2_4
  have pr_5 : ∀ pc ∈ activeFrom e PROVIDERS [],
      profileOk (getPath (some s5) ["auth", "profiles", pc.profileKey]) pc = true := by
    intro pc hm
    rw [tdRule_frame e s4 _ (divergesPath_head "agents" "auth" _ _ (by decide))]
    exact pr_4 pc hm
  have m_5 : ∀ a0 rest, computeAvailable e = a0 :: rest →
      isObjAt s5 modelPath ∧
      (trimOfO (getPath (some s5) (modelPath ++ ["primary"])) ≠ "" ∧
       providerFromModelS (trimOfO (getPath (some s5) (modelPath ++ ["primary"])))
         ∈ (a0 :: rest)) ∧
      jsonStringify (.jarr (existingFallbacks s5))
        = jsonStringify (.jarr ((mergedFor (a0 :: rest)
            (getPath (some s5) (modelPath ++ ["primary"]))
            (existingFallbacks s5)).map .jstr)) := by
    intro a0 rest hav
    obtain ⟨h1, h2, h3⟩ := m_4 a0 rest hav
    have hpf : getPath (some s5) (modelPath ++ ["primary"])
        = getPath (some s4) (modelPath ++ ["primary"]) := tdRule_frame e s4 _ (by decide)
    have hef : existingFallbacks s5 = existingFallbacks s4 :=
      existingFallbacks_congr _ _ (tdRule_frame e s4 _ (by decide))
    exact ⟨isObjAt_congr _ _ _ (tdRule_frame e s4 modelPath (by decide)) h1,
      by rw [hpf]; exact h2, by rw [hef, hpf]; exact h3⟩
  have td_5 : strTrim (e "OPENCLAW_THINKING_DEFAULT") ≠ "" →
      getPath (some s5) ["agents", "defaults", "thinkingDefault"]
        = some (.jstr (strTrim (e "OPENCLAW_THINKING_DEFAULT"))) :=
    fun hv => tdRule_post e s4 a2_4 hv
  -- stage 6
  have r6 : rootObj s6 := mcRule_rootObj e s5 r5
  have a1_6 : isObjAt s6 ["agents"] := mcRule_objPres e s5 ["agents"] (by decide) a1_5
  have a2_6 : isObjAt s6 ["agents", "defaults"] :=
    mcRule_objPres e s5 ["agents", "defaults"] (by decide) a2_5
  have w_6 : getPath (some s6) ["agents", "defaults", "workspace"]
      = some (.jstr (wsDesired e)) := (mcRule_frame e s5 _ (by decide)).trans w_5
  have u1_6 : isObjAt s6 ["auth"] :=
    isObjAt_congr _ _ _ (mcRule_frame e s5 ["auth"] (by decide)) u1_5
  have u2_6 : isObjAt s6 ["auth", "profiles"] :=
    isObjAt_congr _ _ _ (mcRule_frame e s5 ["auth", "profiles"] (by decide)) u2_5
  have pr_6 : ∀ pc ∈ activeFrom e PROVIDERS [],
      profileOk (getPath (some s6) ["auth", "profiles", pc.profileKey]) pc = true := by
    intro pc hm
    rw [mcRule_frame e s5 _ (divergesPath_head "agents" "auth" _ _ (by decide))]
    exact pr_5 pc hm
  have m_6 : ∀ a0 rest, computeAvailable e = a0 :: rest →
      isObjAt s6 modelPath ∧
      (trimOfO (getPath (some s6) (modelPath ++ ["primary"])) ≠ "" ∧
       providerFromModelS (trimOfO (getPath (some s6) (modelPath ++ ["primary"])))
         ∈ (a0 :: rest)) ∧
      jsonStringify (.jarr (existingFallbacks s6))
        = jsonStringify (.jarr ((mergedFor (a0 :: rest)
            (getPath (some s6) (modelPath ++ ["primary"]))
            (existingFallbacks s6)).map .jstr)) := by
    intro a0 rest hav
    obtain ⟨h1, h2, h3⟩ := m_5 a0 rest hav
    have hpf : getPath (some s6) (modelPath ++ ["primary"])
        = getPath (some s5) (modelPath ++ ["primary"]) := mcRule_frame e s5 _ (by decide)
    have hef : existingFallbacks s6 = existingFallbacks s5 :=
      existingFallbacks_congr _ _ (mcRule_frame e s5 _ (by decide))
    exact ⟨isObjAt_congr _ _ _ (mcRule_frame e s5 modelPath (by decide)) h1,
      by rw [hpf]; exact h2, by rw [hef, hpf]; exact h3⟩
  have td_6 : strTrim (e "OPENCLAW_THINKING_DEFAULT") ≠ "" →
      getPath (some s6) ["agents", "defaults", "thinkingDefault"]
        = some (.jstr (strTrim (e "OPENCLAW_THINKING_DEFAULT"))) :=
    fun hv => (mcRule_frame e s5 _ (by decide)).trans (td_5 hv)
  have mc_6 : strTrim (e "OPENCLAW_MAX_CONCURRENT") ≠ "" →
      getPath (some s6) ["agents", "defaults", "maxConcurrent"]
        = some (.jnum (jsNumber (strTrim (e "OPENCLAW_MAX_CONCURRENT")))) :=
    fun hv => mcRule_post e s5 a2_5 hv
  -- stage 7
  have r7 : rootObj s7 := cpRule_rootObj e s6 r6
  have a1_7 : isObjAt s7 ["agents"] := cpRule_objPres e s6 ["agents"] (by decide) a1_6
  have a2_7 : isObjAt s7 ["agents", "defaults"] :=
    cpRule_objPres e s6 ["agents", "defaults"] (by decide) a2_6
  have w_7 : getPath (some s7) ["agents", "defaults", "workspace"]
      = some (.jstr (wsDesired e)) := (cpRule_frame e s6 _ (by decide)).trans w_6
  have u1_7 : isObjAt s7 ["auth"] :=
    isObjAt_congr _ _ _ (cpRule_frame e s6 ["auth"] (by decide)) u1_6
  have u2_7 : isObjAt s7 ["auth", "profiles"] :=
    isObjAt_congr _ _ _ (cpRule_frame e s6 ["auth", "profiles"] (by decide)) u2_6
  have pr_7 : ∀ pc ∈ activeFrom e PROVIDERS [],
      profileOk (getPath (some s7) ["auth", "profiles", pc.profileKey]) pc = true := by
    intro pc hm
    rw [cpRule_frame e s6 _ (divergesPath_head "agents" "auth" _ _ (by decide))]
    exact pr_6 pc hm
  have m_7 : ∀ a0 rest, computeAvailable e = a0 :: rest →
      isObjAt s7 modelPath ∧
      (trimOfO (getPath (some s7) (modelPath ++ ["primary"])) ≠ "" ∧
       providerFromModelS (trimOfO (getPath (some s7) (modelPath ++ ["primary"])))
         ∈ (a0 :: rest)) ∧
      jsonStringify (.jarr (existingFallbacks s7))
        = jsonStringify (.jarr ((mergedFor (a0 :: rest)
            (getPath (some s7) (modelPath ++ ["primary"]))
            (existingFallbacks s7)).map .jstr)) := by
    intro a0 rest hav
    obtain ⟨h1, h2, h3⟩ := m_6 a0 rest hav
    have hpf : getPath (some s7) (modelPath ++ ["primary"])
        = getPath (some s6) (modelPath ++ ["primary"]) := cpRule_frame e s6 _ (by decide)
    have hef : existingFallbacks s7 = existingFallbacks s6 :=
      existingFallbacks_congr _ _ (cpRule_frame e s6 _ (by decide))
    exact ⟨isObjAt_congr _ _ _ (cpRule_frame e s6 modelPath (by decide)) h1,
      by rw [hpf]; exact h2, by rw [hef, hpf]; exact h3⟩
  have td_7 : strTrim (e "OPENCLAW_THINKING_DEFAULT") ≠ "" →
      getPath (some s7) ["agents", "defaults", "thinkingDefault"]
        = some (.jstr (strTrim (e "OPENCLAW_THINKING_DEFAULT"))) :=
    fun hv => (cpRule_frame e s6 _ (by decide)).trans (td_6 hv)
  have mc_7 : strTrim (e "OPENCLAW_MAX_CONCURRENT") ≠ "" →
      getPath (some s7) ["agents", "defaults", "maxConcurrent"]
        = some (.jnum (jsNumber (strTrim (e "OPENCLAW_MAX_CONCURRENT")))) :=
    fun hv => (cpRule_frame e s6 _ (by decide)).trans (mc_6 hv)
  have cp_7 : strTrim (e "OPENCLAW_CONTEXT_PRUNING_MODE") ≠ "" →
      isObjAt s7 ["agents", "defaults", "contextPruning"] ∧
      getPath (some s7) ["agents", "defaults", "contextPruning", "mode"]
        = some (.jstr (strTrim (e "OPENCLAW_CONTEXT_PRUNING_MODE"))) ∧
      (strTrim (e "OPENCLAW_CONTEXT_PRUNING_TTL") ≠ "" →
        getPath (some s7) ["agents", "defaults", "contextPruning", "ttl"]
          = some (.jstr (strTrim (e "OPENCLAW_CONTEXT_PRUNING_TTL")))) :=
    fun hm => cpRule_post e s6 a2_6 hm
  -- stage 8
  have r8 : rootObj s8 := compRule_rootObj e s7 r7
  have a1_8 : isObjAt s8 ["agents"] := compRule_objPres e s7 ["agents"] (by decide) a1_7
  have a2_8 : isObjAt s8 ["agents", "defaults"] :=
    compRule_objPres e s7 ["agents", "defaults"] (by decide) a2_7
  have w_8 : getPath (some s8) ["agents", "defaults", "workspace"]
      = some (.jstr (wsDesired e)) := (compRule_frame e s7 _ (by decide)).trans w_7
  have u1_8 : isObjAt s8 ["auth"] :=
    isObjAt_congr _ _ _ (compRule_frame e s7 ["auth"] (by decide)) u1_7
  have u2_8 : isObjAt s8 ["auth", "profiles"] :=
    isObjAt_congr _ _ _ (compRule_frame e s7 ["auth", "profiles"] (by decide)) u2_7
  have pr_8 : ∀ pc ∈ activeFrom e PROVIDERS [],
      profileOk (getPath (some s8) ["auth", "profiles", pc.profileKey]) pc = true := by
    intro pc hm
    rw [compRule_frame e s7 _ (divergesPath_head "agents" "auth" _ _ (by decide))]
    exact pr_7 pc hm
  have m_8 : ∀ a0 rest, computeAvailable e = a0 :: rest →
      isObjAt s8 modelPath ∧
      (trimOfO (getPath (some s8) (modelPath ++ ["primary"])) ≠ "" ∧
       providerFromModelS (trimOfO (getPath (some s8) (modelPath ++ ["primary"])))
         ∈ (a0 :: rest)) ∧
      jsonStringify (.jarr (existingFallbacks s8))
        = jsonStringify (.jarr ((mergedFor (a0 :: rest)
            (getPath (some s8) (modelPath ++ ["primary"]))
            (existingFallbacks s8)).map .jstr)) := by
    intro a0 rest hav
    obtain ⟨h1, h2, h3⟩ := m_7 a0 rest hav
    have hpf : getPath (some s8) (modelPath ++ ["primary"])
        = getPath (some s7) (modelPath ++ ["primary"]) := compRule_frame e s7 _ (by decide)
    have hef : existingFallbacks s8 = existingFallbacks s7 :=
      existingFallbacks_congr _ _ (compRule_frame e s7 _ (by decide))
    exact ⟨isObjAt_congr _ _ _ (compRule_frame e s7 modelPath (by decide)) h1,
      by rw [hpf]; exact h2, by rw [hef, hpf]; exact h3⟩
  have td_8 : strTrim (e "OPENCLAW_THINKING_DEFAULT") ≠ "" →
      getPath (some s8) ["agents", "defaults", "thinkingDefault"]
        = some (.jstr (strTrim (e "OPENCLAW_THINKING_DEFAULT"))) :=
    fun hv => (compRule_frame e s7 _ (by decide)).trans (td_7 hv)
  have mc_8 : strTrim (e "OPENCLAW_MAX_CONCURRENT") ≠ "" →
      getPath (some s8) ["agents", "defaults", "maxConcurrent"]
        = some (.jnum (jsNumber (strTrim (e "OPENCLAW_MAX_CONCURRENT")))) :=
    fun hv => (compRule_frame e s7 _ (by decide)).trans (mc_7 hv)
  have cp_8 : strTrim (e "OPENCLAW_CONTEXT_PRUNING_MODE") ≠ "" →
      isObjAt s8 ["agents", "defaults", "contextPruning"] ∧
      getPath (some s8) ["agents", "defaults", "contextPruning", "mode"]
        = some (.jstr (strTrim (e "OPENCLAW_CONTEXT_PRUNING_MODE"))) ∧
      (strTrim (e "OPENCLAW_CONTEXT_PRUNING_TTL") ≠ "" →
        getPath (some s8) ["agents", "defaults", "contextPruning", "ttl"]
          = some (.jstr (strTrim (e "OPENCLAW_CONTEXT_PRUNING_TTL")))) := by
    intro hm
    obtain ⟨h1, h2, h3⟩ := cp_7 hm
    exact ⟨isObjAt_congr _ _ _ (compRule_frame e s7 _ (by decide)) h1,
      (compRule_frame e s7 _ (by decide)).trans h2,
      fun ht => (compRule_frame e s7 _ (by decide)).trans (h3 ht)⟩
  have comp_8 : strTrim (e "OPENCLAW_COMPACTION_MODE") ≠ "" →
      isObjAt s8 ["agents", "defaults", "compaction"] ∧
      getPath (some s8) ["agents", "defaults", "compaction", "mode"]
        = some (.jstr (strTrim (e "OPENCLAW_COMPACTION_MODE"))) :=
    fun hm => compRule_post e s7 a2_7 hm
  -- stage 9
  have r9 : rootObj s9 := hbRule_rootObj e s8 r8
  have a1_9 : isObjAt s9 ["agents"] := hbRule_objPres e s8 ["agents"] (by decide) a1_8
  have a2_9 : isObjAt s9 ["agents", "defaults"] :=
    hbRule_objPres e s8 ["agents", "defaults"] (by decide) a2_8
  have w_9 : getPath (some s9) ["agents", "defaults", "workspace"]
      = some (.jstr (wsDesired e)) := (hbRule_frame e s8 _ (by decide)).trans w_8
  have u1_9 : isObjAt s9 ["auth"] :=
    isObjAt_congr _ _ _ (hbRule_frame e s8 ["auth"] (by decide)) u1_8
  have u2_9 : isObjAt s9 ["auth", "profiles"] :=
    isObjAt_congr _ _ _ (hbRule_frame e s8 ["auth", "profiles"] (by decide)) u2_8
  have pr_9 : ∀ pc ∈ activeFrom e PROVIDERS [],
      profileOk (getPath (some s9) ["auth", "profiles", pc.profileKey]) pc = true := by
    intro pc hm
    rw [hbRule_frame e s8 _ (divergesPath_head "agents" "auth" _ _ (by decide))]
    exact pr_8 pc hm
  have m_9 : ∀ a0 rest, computeAvailable e = a0 :: rest →
      isObjAt s9 modelPath ∧
      (trimOfO (getPath (some s9) (modelPath ++ ["primary"])) ≠ "" ∧
       providerFromModelS (trimOfO (getPath (some s9) (modelPath ++ ["primary"])))
         ∈ (a0 :: rest)) ∧
      jsonStringify (.jarr (existingFallbacks s9))
        = jsonStringify (.jarr ((mergedFor (a0 :: rest)
            (getPath (some s9) (modelPath ++ ["primary"]))
            (existingFallbacks s9)).map .jstr)) := by
    intro a0 rest hav
    obtain ⟨h1, h2, h3⟩ := m_8 a0 rest hav
    have hpf : getPath (some s9) (modelPath ++ ["primary"])
        = getPath (some s8) (modelPath ++ ["primary"]) := hbRule_frame e s8 _ (by decide)
    have hef : existingFallbacks s9 = existingFallbacks s8 :=
      existingFallbacks_congr _ _ (hbRule_frame e s8 _ (by decide))
    exact ⟨isObjAt_congr _ _ _ (hbRule_frame e s8 modelPath (by decide)) h1,
      by rw [hpf]; exact h2, by rw [hef, hpf]; exact h3⟩
  have td_9 : strTrim (e "OPENCLAW_THINKING_DEFAULT") ≠ "" →
      getPath (some s9) ["agents", "defaults", "thinkingDefault"]
        = some (.jstr (strTrim (e "OPENCLAW_THINKING_DEFAULT"))) :=
    fun hv => (hbRule_frame e s8 _ (by decide)).trans (td_8 hv)
  have mc_9 : strTrim (e "OPENCLAW_MAX_CONCURRENT") ≠ "" →
      getPath (some s9) ["agents", "defaults", "maxConcurrent"]
        = some (.jnum (jsNumber (strTrim (e "OPENCLAW_MAX_CONCURRENT")))) :=
    fun hv => (hbRule_frame e s8 _ (by decide)).trans (mc_8 hv)
  have cp_9 : strTrim (e "OPENCLAW_CONTEXT_PRUNING_MODE") ≠ "" →
      isObjAt s9 ["agents", "defaults", "contextPruning"] ∧
      getPath (some s9) ["agents", "defaults", "contextPruning", "mode"]
        = some (.jstr (strTrim (e "OPENCLAW_CONTEXT_PRUNING_MODE"))) ∧
      (strTrim (e "OPENCLAW_CONTEXT_PRUNING_TTL") ≠ "" →
        getPath (some s9) ["agents", "defaults", "contextPruning", "ttl"]
          = some (.jstr (strTrim (e "OPENCLAW_CONTEXT_PRUNING_TTL")))) := by
    intro hm
    obtain ⟨h1, h2, h3⟩ := cp_8 hm
    exact ⟨isObjAt_congr _ _ _ (hbRule_frame e s8 _ (by decide)) h1,
      (hbRule_frame e s8 _ (by decide)).trans h2,
      fun ht => (hbRule_frame e s8 _ (by decide)).trans (h3 ht)⟩
  have comp_9 : strTrim (e "OPENCLAW_COMPACTION_MODE") ≠ "" →
      isObjAt s9 ["agents", "defaults", "compaction"] ∧
      getPath (some s9) ["agents", "defaults", "compaction", "mode"]
        = some (.jstr (strTrim (e "OPENCLAW_COMPACTION_MODE"))) := by
    intro hm
    obtain ⟨h1, h2⟩ := comp_8 hm
    exact ⟨isObjAt_congr _ _ _ (hbRule_frame e s8 _ (by decide)) h1,
      (hbRule_frame e s8 _ (by decide)).trans h2⟩
  have hb_9 : strTrim (e "OPENCLAW_HEARTBEAT_EVERY") ≠ "" →
      isObjAt s9 ["agents", "defaults", "heartbeat"] ∧
      getPath (some s9) ["agents", "defaults", "heartbeat", "every"]
        = some (.jstr (strTrim (e "OPENCLAW_HEARTBEAT_EVERY"))) :=
    fun hm => hbRule_post e s8 a2_8 hm
  -- stage 10
  have r10 : rootObj s10 := gwRule_rootObj e s9 r9
  have a1_10 : isObjAt s10 ["agents"] :=
    isObjAt_congr _ _ _ (gwRule_frame e s9 ["agents"] (by decide)) a1_9
  have a2_10 : isObjAt s10 ["agents", "defaults"] :=
    isObjAt_congr _ _ _ (gwRule_frame e s9 ["agents", "defaults"] (by decide)) a2_9
  have w_10 : getPath (some s10) ["agents", "defaults", "workspace"]
      = some (.jstr (wsDesired e)) := (gwRule_frame e s9 _ (by decide)).trans w_9
  have u1_10 : isObjAt s10 ["auth"] :=
    isObjAt_congr _ _ _ (gwRule_frame e s9 ["auth"] (by decide)) u1_9
  have u2_10 : isObjAt s10 ["auth", "profiles"] :=
    isObjAt_congr _ _ _ (gwRule_frame e s9 ["auth", "profiles"] (by decide)) u2_9
  have pr_10 : ∀ pc ∈ activeFrom e PROVIDERS [],
      profileOk (getPath (some s10) ["auth", "profiles", pc.profileKey]) pc = true := by
    intro pc hm
    rw [gwRule_frame e s9 _ (divergesPath_head "gateway" "auth" _ _ (by decide))]
    exact pr_9 pc hm
  have m_10 : ∀ a0 rest, computeAvailable e = a0 :: rest →
      isObjAt s10 modelPath ∧
      (trimOfO (getPath (some s10) (modelPath ++ ["primary"])) ≠ "" ∧
       providerFromModelS (trimOfO (getPath (some s10) (modelPath ++ ["primary"])))
         ∈ (a0 :: rest)) ∧
      jsonStringify (.jarr (existingFallbacks s10))
        = jsonStringify (.jarr ((mergedFor (a0 :: rest)
            (getPath (some s10) (modelPath ++ ["primary"]))
            (existingFallbacks s10)).map .jstr)) := by
    intro a0 rest hav
    obtain ⟨h1, h2, h3⟩ := m_9 a0 rest hav
    have hpf : getPath (some s10) (modelPath ++ ["primary"])
        = getPath (some s9) (modelPath ++ ["primary"]) := gwRule_frame e s9 _ (by decide)
    have hef : existingFallbacks s10 = existingFallbacks s9 :=
      existingFallbacks_congr _ _ (gwRule_frame e s9 _ (by decide))
    exact ⟨isObjAt_congr _ _ _ (gwRule_frame e s9 modelPath (by decide)) h1,
      by rw [hpf]; exact h2, by rw [hef, hpf]; exact h3⟩
  have td_10 : strTrim (e "OPENCLAW_THINKING_DEFAULT") ≠ "" →
      getPath (some s10) ["agents", "defaults", "thinkingDefault"]
        = some (.jstr (strTrim (e "OPENCLAW_THINKING_DEFAULT"))) :=
    fun hv => (gwRule_frame e s9 _ (by decide)).trans (td_9 hv)
  have mc_10 : strTrim (e "OPENCLAW_MAX_CONCURRENT") ≠ "" →
      getPath (some s10) ["agents", "defaults", "maxConcurrent"]
        = some (.jnum (jsNumber (strTrim (e "OPENCLAW_MAX_CONCURRENT")))) :=
    fun hv => (gwRule_frame e s9 _ (by decide)).trans (mc_9 hv)
  have cp_10 : strTrim (e "OPENCLAW_CONTEXT_PRUNING_MODE") ≠ "" →
      isObjAt s10 ["agents", "defaults", "contextPruning"] ∧
      getPath (some s10) ["agents", "defaults", "contextPruning", "mode"]
        = some (.jstr (strTrim (e "OPENCLAW_CONTEXT_PRUNING_MODE"))) ∧
      (strTrim (e "OPENCLAW_CONTEXT_PRUNING_TTL") ≠ "" →
        getPath (some s10) ["agents", "defaults", "contextPruning", "ttl"]
          = some (.jstr (strTrim (e "OPENCLAW_CONTEXT_PRUNING_TTL")))) := by
    intro hm
    obtain ⟨h1, h2, h3⟩ := cp_9 hm
    exact ⟨isObjAt_congr _ _ _ (gwRule_frame e s9 _ (by decide)) h1,
      (gwRule_frame e s9 _ (by decide)).trans h2,
      fun ht => (gwRule_frame e s9 _ (by decide)).trans (h3 ht)⟩
  have comp_10 : strTrim (e "OPENCLAW_COMPACTION_MODE") ≠ "" →
      isObjAt s10 ["agents", "defaults", "compaction"] ∧
      getPath (some s10) ["agents", "defaults", "compaction", "mode"]
        = some (.jstr (strTrim (e "OPENCLAW_COMPACTION_MODE"))) := by
    intro hm
    obtain ⟨h1, h2⟩ := comp_9 hm
    exact ⟨isObjAt_congr _ _ _ (gwRule_frame e s9 _ (by decide)) h1,
      (gwRule_frame e s9 _ (by decide)).trans h2⟩
  have hb_10 : strTrim (e "OPENCLAW_HEARTBEAT_EVERY") ≠ "" →
      isObjAt s10 ["agents", "defaults", "heartbeat"] ∧
      getPath (some s10) ["agents", "defaults", "heartbeat", "every"]
        = some (.jstr (strTrim (e "OPENCLAW_HEARTBEAT_EVERY"))) := by
    intro hm
    obtain ⟨h1, h2⟩ := hb_9 hm
    exact ⟨isObjAt_congr _ _ _ (gwRule_frame e s9 _ (by decide)) h1,
      (gwRule_frame e s9 _ (by decide)).trans h2⟩
  have gw_10 : strTrim (e "OPENCLAW_GATEWAY_TOKEN") ≠ "" →
      isObjAt s10 ["gateway"] ∧ isObjAt s10 ["gateway", "auth"] ∧
      getPath (some s10) ["gateway", "auth", "mode"] = some (.jstr "token") ∧
      getPath (some s10) ["gateway", "auth", "token"]
        = some (.jstr (strTrim (e "OPENCLAW_GATEWAY_TOKEN"))) :=
    fun hg => gwRule_post e s9 r9 hg
  -- stage 11
  have r11 : rootObj s11 := tgRule_rootObj e s10 r10
  have a1_11 : isObjAt s11 ["agents"] :=
    isObjAt_congr _ _ _ (tgRule_frame e s10 ["agents"] (by decide) (by decide)) a1_10
  have a2_11 : isObjAt s11 ["agents", "defaults"] :=
    isObjAt_congr _ _ _ (tgRule_frame e s10 ["agents", "defaults"] (by decide) (by decide))
      a2_10
  have w_11 : getPath (some s11) ["agents", "defaults", "workspace"]
      = some (.jstr (wsDesired e)) :=
    (tgRule_frame e s10 _ (by decide) (by decide)).trans w_10
  have u1_11 : isObjAt s11 ["auth"] :=
    isObjAt_congr _ _ _ (tgRule_frame e s10 ["auth"] (by decide) (by decide)) u1_10
  have u2_11 : isObjAt s11 ["auth", "profiles"] :=
    isObjAt_congr _ _ _ (tgRule_frame e s10 ["auth", "profiles"] (by decide) (by decide))
      u2_10
  have pr_11 : ∀ pc ∈ activeFrom e PROVIDERS [],
      profileOk (getPath (some s11) ["auth", "profiles", pc.profileKey]) pc = true := by
    intro pc hm
    rw [tgRule_frame e s10 _ (divergesPath_head "channels" "auth" _ _ (by decide))
      (divergesPath_head "plugins" "auth" _ _ (by decide))]
    exact pr_10 pc hm
  have m_11 : ∀ a0 rest, computeAvailable e = a0 :: rest →
      isObjAt s11 modelPath ∧
      (trimOfO (getPath (some s11) (modelPath ++ ["primary"])) ≠ "" ∧
       providerFromModelS (trimOfO (getPath (some s11) (modelPath ++ ["primary"])))
         ∈ (a0 :: rest)) ∧
      jsonStringify (.jarr (existingFallbacks s11))
        = jsonStringify (.jarr ((mergedFor (a0 :: rest)
            (getPath (some s11) (modelPath ++ ["primary"]))
            (existingFallbacks s11)).map .jstr)) := by
    intro a0 rest hav
    obtain ⟨h1, h2, h3⟩ := m_10 a0 rest hav
    have hpf : getPath (some s11) (modelPath ++ ["primary"])
        = getPath (some s10) (modelPath ++ ["primary"]) :=
      tgRule_frame e s10 _ (by decide) (by decide)
    have hef : existingFallbacks s11 = existingFallbacks s10 :=
      existingFallbacks_congr _ _ (tgRule_frame e s10 _ (by decide) (by decide))
    exact ⟨isObjAt_congr _ _ _ (tgRule_frame e s10 modelPath (by decide) (by decide)) h1,
      by rw [hpf]; exact h2, by rw [hef, hpf]; exact h3⟩
  have td_11 : strTrim (e "OPENCLAW_THINKING_DEFAULT") ≠ "" →
      getPath (some s11) ["agents", "defaults", "thinkingDefault"]
        = some (.jstr (strTrim (e "OPENCLAW_THINKING_DEFAULT"))) :=
    fun hv => (tgRule_frame e s10 _ (by decide) (by decide)).trans (td_10 hv)
  have mc_11 : strTrim (e "OPENCLAW_MAX_CONCURRENT") ≠ "" →
      getPath (some s11) ["agents", "defaults", "maxConcurrent"]
        = some (.jnum (jsNumber (strTrim (e "OPENCLAW_MAX_CONCURRENT")))) :=
    fun hv => (tgRule_frame e s10 _ (by decide) (by decide)).trans (mc_10 hv)
  have cp_11 : strTrim (e "OPENCLAW_CONTEXT_PRUNING_MODE") ≠ "" →
      isObjAt s11 ["agents", "defaults", "contextPruning"] ∧
      getPath (some s11) ["agents", "defaults", "contextPruning", "mode"]
        = some (.jstr (strTrim (e "OPENCLAW_CONTEXT_PRUNING_MODE"))) ∧
      (strTrim (e "OPENCLAW_CONTEXT_PRUNING_TTL") ≠ "" →
        getPath (some s11) ["agents", "defaults", "contextPruning", "ttl"]
          = some (.jstr (strTrim (e "OPENCLAW_CONTEXT_PRUNING_TTL")))) := by
    intro hm
    obtain ⟨h1, h2, h3⟩ := cp_10 hm
    exact ⟨isObjAt_congr _ _ _ (tgRule_frame e s10 _ (by decide) (by decide)) h1,
      (tgRule_frame e s10 _ (by decide) (by decide)).trans h2,
      fun ht => (tgRule_frame e s10 _ (by decide) (by decide)).trans (h3 ht)⟩
  have comp_11 : strTrim (e "OPENCLAW_COMPACTION_MODE") ≠ "" →
      isObjAt s11 ["agents", "defaults", "compaction"] ∧
      getPath (some s11) ["agents", "defaults", "compaction", "mode"]
        = some (.jstr (strTrim (e "OPENCLAW_COMPACTION_MODE"))) := by
    intro hm
    obtain ⟨h1, h2⟩ := comp_10 hm
    exact ⟨isObjAt_congr _ _ _ (tgRule_frame e s10 _ (by decide) (by decide)) h1,
      (tgRule_frame e s10 _ (by decide) (by decide)).trans h2⟩
  have hb_11 : strTrim (e "OPENCLAW_HEARTBEAT_EVERY") ≠ "" →
      isObjAt s11 ["agents", "defaults", "heartbeat"] ∧
      getPath (some s11) ["agents", "defaults", "heartbeat", "every"]
        = some (.jstr (strTrim (e "OPENCLAW_HEARTBEAT_EVERY"))) := by
    intro hm
    obtain ⟨h1, h2⟩ := hb_10 hm
    exact ⟨isObjAt_congr _ _ _ (tgRule_frame e s10 _ (by decide) (by decide)) h1,
      (tgRule_frame e s10 _ (by decide) (by decide)).trans h2⟩
  have gw_11 : strTrim (e "OPENCLAW_GATEWAY_TOKEN") ≠ "" →
      isObjAt s11 ["gateway"] ∧ isObjAt s11 ["gateway", "auth"] ∧
      getPath (some s11) ["gateway", "auth", "mode"] = some (.jstr "token") ∧
      getPath (some s11) ["gateway", "auth", "token"]
        = some (.jstr (strTrim (e "OPENCLAW_GATEWAY_TOKEN"))) := by
    intro hg
    obtain ⟨h1, h2, h3, h4⟩ := gw_10 hg
    exact ⟨isObjAt_congr _ _ _ (tgRule_frame e s10 _ (by decide) (by decide)) h1,
      isObjAt_congr _ _ _ (tgRule_frame e s10 _ (by decide) (by decide)) h2,
      (tgRule_frame e s10 _ (by decide) (by decide)).trans h3,
      (tgRule_frame e s10 _ (by decide) (by decide)).trans h4⟩
  have tg_11 : strTrim (e "TELEGRAM_BOT_TOKEN") ≠ "" →
      isObjAt s11 ["channels"] ∧ isObjAt s11 ["channels", "telegram"] ∧
      getPath (some s11) ["channels", "telegram", "enabled"] = some (.jbool true) ∧
      isObjAt s11 ["plugins"] ∧ isObjAt s11 ["plugins", "entries"] ∧
      isObjAt s11 ["plugins", "entries", "telegram"] ∧
      getPath (some s11) ["plugins", "entries", "telegram", "enabled"]
        = some (.jbool true) :=
    fun ht => tgRule_post e s10 r10 ht
  -- stage 12 (discord, final)
  refine ⟨dcRule_rootObj e s11 r11, ?_, ?_, ?_, ?_, ?_, ?_, ?_, ?_, ?_, ?_, ?_, ?_, ?_,
    ?_, ?_⟩
  · exact isObjAt_congr _ _ _ (dcRule_frame e s11 ["agents"] (by decide) (by decide)) a1_11
  · exact isObjAt_congr _ _ _
      (dcRule_frame e s11 ["agents", "defaults"] (by decide) (by decide)) a2_11
  · exact (dcRule_frame e s11 _ (by decide) (by decide)).trans w_11
  · exact isObjAt_congr _ _ _ (dcRule_frame e s11 ["auth"] (by decide) (by decide)) u1_11
  · exact isObjAt_congr _ _ _
      (dcRule_frame e s11 ["auth", "profiles"] (by decide) (by decide)) u2_11
  · intro pc hm
    rw [dcRule_frame e s11 _ (divergesPath_head "channels" "auth" _ _ (by decide))
      (divergesPath_head "plugins" "auth" _ _ (by decide))]
    exact pr_11 pc hm
  · intro a0 rest hav
    obtain ⟨h1, h2, h3⟩ := m_11 a0 rest hav
    have hpf : getPath (some (dcRule e s11)) (modelPath ++ ["primary"])
        = getPath (some s11) (modelPath ++ ["primary"]) :=
      dcRule_frame e s11 _ (by decide) (by decide)
    have hef : existingFallbacks (dcRule e s11) = existingFallbacks s11 :=
      existingFallbacks_congr _ _ (dcRule_frame e s11 _ (by decide) (by decide))
    exact ⟨isObjAt_congr _ _ _ (dcRule_frame e s11 modelPath (by decide) (by decide)) h1,
      by rw [hpf]; exact h2, by rw [hef, hpf]; exact h3⟩
  · exact fun hv => (dcRule_frame e s11 _ (by decide) (by decide)).trans (td_11 hv)
  · exact fun hv => (dcRule_frame e s11 _ (by decide) (by decide)).trans (mc_11 hv)
  · intro hm
    obtain ⟨h1, h2, h3⟩ := cp_11 hm
    exact ⟨isObjAt_congr _ _ _ (dcRule_frame e s11 _ (by decide) (by decide)) h1,
      (dcRule_frame e s11 _ (by decide) (by decide)).trans h2,
      fun ht => (dcRule_frame e s11 _ (by decide) (by decide)).trans (h3 ht)⟩
  · intro hm
    obtain ⟨h1, h2⟩ := comp_11 hm
    exact ⟨isObjAt_congr _ _ _ (dcRule_frame e s11 _ (by decide) (by decide)) h1,
      (dcRule_frame e s11 _ (by decide) (by decide)).trans h2⟩
  · intro hm
    obtain ⟨h1, h2⟩ := hb_11 hm
    exact ⟨isObjAt_congr _ _ _ (dcRule_frame e s11 _ (by decide) (by decide)) h1,
      (dcRule_frame e s11 _ (by decide) (by decide)).trans h2⟩
  · intro hg
    obtain ⟨h1, h2, h3, h4⟩ := gw_11 hg
    exact ⟨isObjAt_congr _ _ _ (dcRule_frame e s11 _ (by decide) (by decide)) h1,
      isObjAt_congr _ _ _ (dcRule_frame e s11 _ (by decide) (by decide)) h2,
      (dcRule_frame e s11 _ (by decide) (by decide)).trans h3,
      (dcRule_frame e s11 _ (by decide) (by decide)).trans h4⟩
  · intro ht
    obtain ⟨h1, h2, h3, h4, h5, h6, h7⟩ := tg_11 ht
    exact dcRule_pres_tg e s11 h1 h2 h3 h4 h5 h6 h7
  · intro ht hg
    exact dcRule_post e s11 r11 ht hg

/-! ### Idempotence of the reconciliation pass -/

theorem syncPass_idem (e : Env) (d : JVal) :
    syncPass e (syncPass e d) = syncPass e d := by
  by_cases hroot : rootObj d
  · obtain ⟨hr, hA1, hA2, hW, hU1, hU2, hPr, hM, hTd, hMc, hCp, hComp, hHb, hGw,
      hTg, hDc⟩ := syncPass_post e d hroot
    show dcRule e (tgRule e (gwRule e (hbRule e (compRule e (cpRule e (mcRule e
      (tdRule e (modelRule (computeAvailable e) (profilesStep e PROVIDERS []
        (authRule (wsRule e (syncPass e d)))))))))))) = syncPass e d
    rw [wsRule_noop e _ hA1 hA2 hW]
    rw [authRule_noop _ hU1 hU2]
    rw [profilesStep_noop e PROVIDERS [] _ hPr]
    have hmodel : modelRule (computeAvailable e) (syncPass e d) = syncPass e d := by
      cases hav : computeAvailable e with
      | nil => rfl
      | cons a0 rest =>
          obtain ⟨h1, h2, h3⟩ := hM a0 rest hav
          exact modelRule_noop (a0 :: rest) _ h1 (Or.inr h2) h3
    rw [hmodel]
    have htd : strTrim (e "OPENCLAW_THINKING_DEFAULT") = "" ∨
        getPath (some (syncPass e d)) ["agents", "defaults", "thinkingDefault"]
          = some (.jstr (strTrim (e "OPENCLAW_THINKING_DEFAULT"))) := by
      by_cases hv : strTrim (e "OPENCLAW_THINKING_DEFAULT") = ""
      · exact Or.inl hv
      · exact Or.inr (hTd hv)
    rw [tdRule_noop e _ htd]
    have hmc : strTrim (e "OPENCLAW_MAX_CONCURRENT") = "" ∨
        getPath (some (syncPass e d)) ["agents", "defaults", "maxConcurrent"]
          = some (.jnum (jsNumber (strTrim (e "OPENCLAW_MAX_CONCURRENT")))) := by
      by_cases hv : strTrim (e "OPENCLAW_MAX_CONCURRENT") = ""
      · exact Or.inl hv
      · exact Or.inr (hMc hv)
    rw [mcRule_noop e _ hmc]
    have hcp : strTrim (e "OPENCLAW_CONTEXT_PRUNING_MODE") = "" ∨
        (isObjAt (syncPass e d) ["agents", "defaults", "contextPruning"] ∧
         getPath (some (syncPass e d)) ["agents", "defaults", "contextPruning", "mode"]
           = some (.jstr (strTrim (e "OPENCLAW_CONTEXT_PRUNING_MODE"))) ∧
         (strTrim (e "OPENCLAW_CONTEXT_PRUNING_TTL") ≠ "" →
           getPath (some (syncPass e d)) ["agents", "defaults", "contextPruning", "ttl"]
             = some (.jstr (strTrim (e "OPENCLAW_CONTEXT_PRUNING_TTL"))))) := by
      by_cases hv : strTrim (e "OPENCLAW_CONTEXT_PRUNING_MODE") = ""
      · exact Or.inl hv
      · exact Or.inr (hCp hv)
    rw [cpRule_noop e _ hcp]
    have hcomp : strTrim (e "OPENCLAW_COMPACTION_MODE") = "" ∨
        (isObjAt (syncPass e d) ["agents", "defaults", "compaction"] ∧
         getPath (some (syncPass e d)) ["agents", "defaults", "compaction", "mode"]
           = some (.jstr (strTrim (e "OPENCLAW_COMPACTION_MODE")))) := by
      by_cases hv : strTrim (e "OPENCLAW_COMPACTION_MODE") = ""
      · exact Or.inl hv
      · exact Or.inr (hComp hv)
    rw [compRule_noop e _ hcomp]
    have hhb : strTrim (e "OPENCLAW_HEARTBEAT_EVERY") = "" ∨
        (isObjAt (syncPass e d) ["agents", "defaults", "heartbeat"] ∧
         getPath (some (syncPass e d)) ["agents", "defaults", "heartbeat", "every"]
           = some (.jstr (strTrim (e "OPENCLAW_HEARTBEAT_EVERY")))) := by
      by_cases hv : strTrim (e "OPENCLAW_HEARTBEAT_EVERY") = ""
      · exact Or.inl hv
      · exact Or.inr (hHb hv)
    rw [hbRule_noop e _ hhb]
    have hgw : strTrim (e "OPENCLAW_GATEWAY_TOKEN") = "" ∨
        (isObjAt (syncPass e d) ["gateway"] ∧
         isObjAt (syncPass e d) ["gateway", "auth"] ∧
         getPath (some (syncPass e d)) ["gateway", "auth", "mode"]
           = some (.jstr "token") ∧
         getPath (some (syncPass e d)) ["gateway", "auth", "token"]
           = some (.jstr (strTrim (e "OPENCLAW_GATEWAY_TOKEN")))) := by
      by_cases hv : strTrim (e "OPENCLAW_GATEWAY_TOKEN") = ""
      · exact Or.inl hv
      · exact Or.inr (hGw hv)
    rw [gwRule_noop e _ hgw]
    have htg : strTrim (e "TELEGRAM_BOT_TOKEN") = "" ∨
        (isObjAt (syncPass e d) ["channels"] ∧
         isObjAt (syncPass e d) ["channels", "telegram"] ∧
         getPath (some (syncPass e d)) ["channels", "telegram", "enabled"]
           = some (.jbool true) ∧
         isObjAt (syncPass e d) ["plugins"] ∧
         isObjAt (syncPass e d) ["plugins", "entries"] ∧
         isObjAt (syncPass e d) ["plugins", "entries", "telegram"] ∧
         getPath (some (syncPass e d)) ["plugins", "entries", "telegram", "enabled"]
           = some (.jbool true)) := by
      by_cases hv : strTrim (e "TELEGRAM_BOT_TOKEN") = ""
      · exact Or.inl hv
      · exact Or.inr (hTg hv)
    rw [tgRule_noop e _ htg]
    have hdc : strTrim (e "DISCORD_BOT_TOKEN") = "" ∨
        strTrim (e "DISCORD_GUILD_ID") = "" ∨
        (isObjAt (syncPass e d) ["channels"] ∧
         isObjAt (syncPass e d) ["channels", "discord"] ∧
         getPath (some (syncPass e d)) ["channels", "discord", "enabled"]
           = some (.jbool true) ∧
         isObjAt (syncPass e d) ["plugins"] ∧
         isObjAt (syncPass e d) ["plugins", "entries"] ∧
         isObjAt (syncPass e d) ["plugins", "entries", "discord"] ∧
         getPath (some (syncPass e d)) ["plugins", "entries", "discord", "enabled"]
           = some (.jbool true)) := by
      by_cases hv1 : strTrim (e "DISCORD_BOT_TOKEN") = ""
      · exact Or.inl hv1
      · by_cases hv2 : strTrim (e "DISCORD_GUILD_ID") = ""
        · exact Or.inr (Or.inl hv2)
        · exact Or.inr (Or.inr (hDc hv1 hv2))
    rw [dcRule_noop e _ hdc]
  · have hid := syncPass_id e d (fun l hl => hroot ⟨l, hl⟩)
    rw [hid, hid]

/-! ### Further helper lemmas used by the claim-level theorems -/

/-- A successful read one level below `p` forces an object at `p`. -/
theorem isObjAt_of_getPath_append (d : JVal) (p : List String) (k : String) (v : JVal)
    (h : getPath (some d) (p ++ [k]) = some v) : isObjAt d p := by
  rw [getPath_append] at h
  cases hgp : getPath (some d) p with
  | none => rw [hgp] at h; simp [getPath, jget] at h
  | some w =>
      cases w with
      | jobj l => exact ⟨l, hgp⟩
      | jstr s => rw [hgp] at h; simp [getPath, jget] at h
      | jnum n => rw [hgp] at h; simp [getPath, jget] at h
      | jbool b => rw [hgp] at h; simp [getPath, jget] at h
      | jnull => rw [hgp] at h; simp [getPath, jget] at h
      | jarr xs => rw [hgp] at h; simp [getPath, jget] at h

/-- When `agents` and `agents.defaults` are already objects, the three
rules before model selection preserve every path diverging from both the
workspace field and the `auth` subtree. -/
theorem preModel_frame (e : Env) (d : JVal) (q : List String)
    (hA : isObjAt d ["agents"]) (hD : isObjAt d ["agents", "defaults"])
    (hdiv1 : divergesPath ["agents", "defaults", "workspace"] q = true)
    (hdiv2 : divergesPath ["auth"] q = true) :
    getPath (some (profilesStep e PROVIDERS [] (authRule (wsRule e d)))) q
      = getPath (some d) q := by
  obtain ⟨la, hla⟩ := hA
  obtain ⟨ld, hld⟩ := hD
  have h1 : getPath (some (wsRule e d)) q = getPath (some d) q := by
    simp only [wsRule]
    rw [ensureAt_noop d [] "agents" la hla,
      ensureAt_noop d ["agents"] "defaults" ld hld]
    exact condSet_frame d _ _ _ q hdiv1
  exact (profilesStep_frame e PROVIDERS [] _ q hdiv2).trans
    ((authRule_frame _ q hdiv2).trans h1)

/-- The concrete available-provider list when the Anthropic and OpenAI
keys are present and the Google key is not. -/
theorem computeAvailable_AC (e : Env) (hA : strTrim (e "ANTHROPIC_API_KEY") ≠ "")
    (hO : strTrim (e "OPENAI_API_KEY") ≠ "") (hG : strTrim (e "GOOGLE_API_KEY") = "") :
    computeAvailable e = ["anthropic", "openai-codex"] := by
  simp [computeAvailable, availableFrom, PROVIDERS, hA, hO, hG]

/-- `availableProviders` depends on a credential value only through its
emptiness after trimming. -/
theorem availableFrom_congr (e1 e2 : Env) : ∀ (specs : List ProviderSpec)
    (seen : List String),
    (∀ pc ∈ specs, (strTrim (e1 pc.envVar) = "") = (strTrim (e2 pc.envVar) = "")) →
    availableFrom e1 specs seen = availableFrom e2 specs seen := by
  intro specs
  induction specs with
  | nil => intro seen _; rfl
  | cons pc rest ih =>
      intro seen h
      have hpc := h pc (List.mem_cons_self _ _)
      have hr := fun pc2 hm => h pc2 (List.mem_cons_of_mem _ hm)
      simp only [availableFrom]
      by_cases h1c : strTrim (e1 pc.envVar) = ""
      · have h2c : strTrim (e2 pc.envVar) = "" := hpc ▸ h1c
        rw [if_pos h1c, if_pos h2c, ih seen hr]
      · have h2c : ¬ strTrim (e2 pc.envVar) = "" := fun hq => h1c (hpc.symm ▸ hq)
        rw [if_neg h1c, if_neg h2c]
        by_cases hm : pc.envVar ∈ seen
        · rw [if_pos hm, if_pos hm, ih seen hr]
        · rw [if_neg hm, if_neg hm, ih (pc.envVar :: seen) hr]

/-- The profile loop likewise inspects a credential value only through
its emptiness after trimming. -/
theorem profilesStep_congr (e1 e2 : Env) : ∀ (specs : List ProviderSpec)
    (seen : List String) (d : JVal),
    (∀ pc ∈ specs, (strTrim (e1 pc.envVar) = "") = (strTrim (e2 pc.envVar) = "")) →
    profilesStep e1 specs seen d = profilesStep e2 specs seen d := by
  intro specs
  induction specs with
  | nil => intro seen d _; rfl
  | cons pc rest ih =>
      intro seen d h
      have hpc := h pc (List.mem_cons_self _ _)
      have hr := fun pc2 hm => h pc2 (List.mem_cons_of_mem _ hm)
      simp only [profilesStep]
      by_cases h1c : strTrim (e1 pc.envVar) = ""
      · have h2c : strTrim (e2 pc.envVar) = "" := hpc ▸ h1c
        rw [if_pos h1c, if_pos h2c, ih seen d hr]
      · have h2c : ¬ strTrim (e2 pc.envVar) = "" := fun hq => h1c (hpc.symm ▸ hq)
        rw [if_neg h1c, if_neg h2c]
        by_cases hm : pc.envVar ∈ seen
        · rw [if_pos hm, if_pos hm, ih seen d hr]
        · rw [if_neg hm, if_neg hm, ih (pc.envVar :: seen) _ hr]

/-! ### Concrete documents and environments for the claim theorems -/

/-- The empty environment: every variable unset. -/
def envEmpty : Env := fun _ => ""

/-- Environment with both OpenAI and Anthropic credentials. -/
def c1Env : Env := fun k =>
  if k = "OPENAI_API_KEY" then "sk-openai-test"
  else if k = "ANTHROPIC_API_KEY" then "sk-anthropic-test" else ""

/-- Document whose primary model is `openai/gpt-5.2`. -/
def c1Doc : JVal :=
  .jobj [("agents", .jobj [("defaults", .jobj [("model",
    .jobj [("primary", .jstr "openai/gpt-5.2")])])])]

/-- Environment with only the (shared) OpenAI credential. -/
def c2Env : Env := fun k => if k = "OPENAI_API_KEY" then "sk-openai-test" else ""

/-- Environment with only the Anthropic credential. -/
def c3Env : Env := fun k => if k = "ANTHROPIC_API_KEY" then "sk-anthropic-test" else ""

/-- Document with an Anthropic primary and a pre-existing second
Anthropic model in the fallbacks. -/
def c3Doc : JVal :=
  .jobj [("agents", .jobj [("defaults", .jobj [("model",
    .jobj [("primary", .jstr "anthropic/claude-sonnet-4-5"),
           ("fallbacks", .jarr [.jstr "anthropic/claude-opus-4"])])])])]

/-- Environment with only the Anthropic credential (for primary
preservation). -/
def c5Env : Env := fun k => if k = "ANTHROPIC_API_KEY" then "sk-anthropic-alt" else ""

/-- Document whose primary names an available provider but not the
provider table's preferred model. -/
def c5Doc : JVal :=
  .jobj [("agents", .jobj [("defaults", .jobj [("model",
    .jobj [("primary", .jstr "anthropic/claude-opus-4")])])])]

/-- Environment with the pruning ttl set but the pruning mode unset. -/
def c7Env : Env := fun k => if k = "OPENCLAW_CONTEXT_PRUNING_TTL" then "5m" else ""

/-- Two environments that differ only in the Anthropic credential value. -/
def c10Env1 : Env := fun k => if k = "ANTHROPIC_API_KEY" then "credential-one" else ""

/-- See `c10Env1`. -/
def c10Env2 : Env := fun k => if k = "ANTHROPIC_API_KEY" then "credential-two" else ""

/-! ### Claim theorems -/

/-- C2, counterexample: with only OPENAI_API_KEY set, the available set
does not contain both sharers of the variable — the alias dedup keeps
"openai-codex" and drops "openai". -/
theorem c2_counterexample :
    "openai-codex" ∈ computeAvailable c2Env ∧ "openai" ∉ computeAvailable c2Env := by
  decide

/-- C2 (corrected): in every environment the computed
AvailableProviderSet omits "openai" — the "openai-codex" spec precedes
it in priority order and shares its env var, so the loop has always
marked OPENAI_API_KEY as seen before reaching "openai" — and whenever
the shared variable is non-empty the set contains "openai-codex". -/
theorem c2_amended (e : Env) :
    "openai" ∉ computeAvailable e ∧
    (strTrim (e "OPENAI_API_KEY") ≠ "" → "openai-codex" ∈ computeAvailable e) := by
  by_cases hO : strTrim (e "OPENAI_API_KEY") = "" <;>
    by_cases hA : strTrim (e "ANTHROPIC_API_KEY") = "" <;>
      by_cases hG : strTrim (e "GOOGLE_API_KEY") = "" <;>
        simp [computeAvailable, availableFrom, PROVIDERS, hO, hA, hG]

/-- C2 witness: the amended statement at a concrete environment. -/
theorem c2_amended_witness :
    "openai" ∉ computeAvailable c2Env ∧
    (strTrim (c2Env "OPENAI_API_KEY") ≠ "" → "openai-codex" ∈ computeAvailable c2Env) :=
  c2_amended c2Env

/-- C4 (confirmed): the reconciliation pass is idempotent — a second
pass returns the same document, and a second process run on the file the
first run produced performs no write. -/
theorem c4_idempotent (e : Env) (d : JVal) :
    syncPass e (syncPass e d) = syncPass e d ∧
    (runSync (some (some (syncPass e d))) e).writes = 0 := by
  refine ⟨syncPass_idem e d, ?_⟩
  cases hsp : syncPass e d with
  | jobj l =>
      have hfix := syncPass_idem e d
      rw [hsp] at hfix
      simp [runSync, loadedDoc, hfix]
  | jstr s => rfl
  | jnum n => rfl
  | jbool b => rfl
  | jnull => rfl
  | jarr xs => rfl

/-- C6, counterexample: on an absent file the run performs two writes
(the creation write of the minimal default plus the conditional write
after the pass changes the empty document), not at most one. -/
theorem c6_counterexample : (runSync none envEmpty).writes = 2 := by decide

/-- The entries part of a non-empty object's serialization is at least
the opening quote, closing quote and colon of its first key. -/
theorem length_jsonStringifyObj_cons (k : String) (v : JVal)
    (rest : List (String × JVal)) :
    3 ≤ (jsonStringifyObj ((k, v) :: rest)).length := by
  cases rest with
  | nil =>
      show 3 ≤ ("\"" ++ jsonEscape k ++ "\":" ++ jsonStringify v).length
      simp only [String.length_append]
      rw [show ("\"" : String).length = 1 from rfl,
        show ("\":" : String).length = 2 from rfl]
      omega
  | cons q qs =>
      show 3 ≤ ("\"" ++ jsonEscape k ++ "\":" ++ jsonStringify v ++ ","
        ++ jsonStringifyObj (q :: qs)).length
      simp only [String.length_append]
      rw [show ("\"" : String).length = 1 from rfl,
        show ("\":" : String).length = 2 from rfl]
      omega

/-- A non-empty object never serializes like the empty object. -/
theorem jsonStringify_obj_cons_ne_empty (k : String) (v : JVal)
    (rest : List (String × JVal)) :
    jsonStringify (.jobj ((k, v) :: rest)) ≠ jsonStringify (.jobj []) := by
  intro heq
  have hlen : (jsonStringify (.jobj ((k, v) :: rest))).length
      = (jsonStringify (.jobj ([] : List (String × JVal)))).length :=
    congrArg String.length heq
  have hR : (jsonStringify (.jobj ([] : List (String × JVal)))).length = 2 := rfl
  have hL : (jsonStringify (.jobj ((k, v) :: rest))).length
      = 1 + (jsonStringifyObj ((k, v) :: rest)).length + 1 := by
    show ("\x7b" ++ jsonStringifyObj ((k, v) :: rest) ++ "\x7d").length = _
    simp only [String.length_append]
    rw [show ("\x7b" : String).length = 1 from rfl,
      show ("\x7d" : String).length = 1 from rfl]
  have h3 := length_jsonStringifyObj_cons k v rest
  omega

/-- C6 (corrected): an absent file always takes exactly two writes (the
creation write, then the conditional write — the workspace rule always
populates the fresh empty document); a run performs at most two writes
in general; when the file was initially present it performs at most one
write, and for a present parseable object file it writes exactly once
if and only if the serialized reconciled document differs from the
serialized loaded snapshot. -/
theorem c6_amended (e : Env) (fs : FileState) (l : List (String × JVal)) :
    (runSync none e).writes = 2 ∧
    (runSync fs e).writes ≤ 2 ∧
    (runSync (some (some (.jobj l))) e).writes ≤ 1 ∧
    ((runSync (some (some (.jobj l))) e).writes = 1 ↔
      jsonStringify (syncPass e (.jobj l)) ≠ jsonStringify (.jobj l)) := by
  refine ⟨?_, ?_, ?_, ?_⟩
  · obtain ⟨L, hL⟩ : rootObj (syncPass e (.jobj [])) := syncPass_rootObj e _ ⟨[], rfl⟩
    obtain ⟨-, hA1, -, -, -, -, -, -, -, -, -, -, -, -, -, -⟩ :=
      syncPass_post e (.jobj []) ⟨[], rfl⟩
    obtain ⟨la, hla⟩ := hA1
    rw [hL] at hla
    have hk : getKey L "agents" = some (.jobj la) := hla
    cases L with
    | nil => simp [getKey] at hk
    | cons p restL =>
        obtain ⟨k0, v0⟩ := p
        have hne : jsonStringify (syncPass e (.jobj [])) ≠ jsonStringify (.jobj []) := by
          rw [hL]
          exact jsonStringify_obj_cons_ne_empty k0 v0 restL
        simp only [runSync, loadedDoc]
        rw [if_pos hne]
  · cases fs with
    | none => simp only [runSync, loadedDoc]; split <;> simp
    | some c =>
        cases c with
        | none => simp only [runSync, loadedDoc]; split <;> simp
        | some v =>
            cases v with
            | jobj m => simp only [runSync, loadedDoc]; split <;> simp
            | jarr xs => simp [runSync, loadedDoc]
            | jstr s => simp [runSync, loadedDoc]
            | jnum n => simp [runSync, loadedDoc]
            | jbool b => simp [runSync, loadedDoc]
            | jnull => simp [runSync, loadedDoc]
  · simp only [runSync, loadedDoc]; split <;> simp
  · simp only [runSync, loadedDoc]
    split
    · next hc => simp [hc]
    · next hc => simp [hc]

/-- C7, counterexample: with the pruning ttl set (and certainly
differing from the absent field) but the pruning mode unset, the pass
does not set the ttl field. -/
theorem c7_counterexample :
    getPath (some (syncPass c7Env (.jobj [])))
      ["agents", "defaults", "contextPruning", "ttl"] ≠ some (.jstr "5m") := by
  decide

/-- C7 (corrected): the ttl update is nested inside the mode check —
when OPENCLAW_CONTEXT_PRUNING_MODE is unset the whole context-pruning
rule is the identity, no matter what OPENCLAW_CONTEXT_PRUNING_TTL holds
or how it compares to the document field. -/
theorem c7_amended (e : Env) (d : JVal)
    (hm : strTrim (e "OPENCLAW_CONTEXT_PRUNING_MODE") = "") :
    cpRule e d = d := by
  simp only [cpRule]
  rw [if_pos hm]

/-- C7 witness: the amended statement at a concrete input. -/
theorem c7_amended_witness : cpRule c7Env (.jobj []) = .jobj [] :=
  c7_amended c7Env (.jobj []) (by decide)

/-- C8 (confirmed): every run exits with status 0, and a run that hits
the caught error (a primitive config root making the first ensureObject
raise) performs no write beyond the creation write — the error is
treated as no change. -/
theorem c8_error_handling (fs : FileState) (e : Env) :
    (runSync fs e).exitCode = 0 ∧
    ((runSync fs e).warned = true →
      (runSync fs e).writes = (match fs with | none => 1 | some _ => 0)) := by
  cases fs with
  | none =>
      refine ⟨?_, ?_⟩
      · simp only [runSync, loadedDoc]; split <;> rfl
      · intro h
        simp only [runSync, loadedDoc] at h
        split at h <;> exact Bool.noConfusion h
  | some c =>
      cases c with
      | none =>
          refine ⟨?_, ?_⟩
          · simp only [runSync, loadedDoc]; split <;> rfl
          · intro h
            simp only [runSync, loadedDoc] at h
            split at h <;> exact Bool.noConfusion h
      | some v =>
          cases v with
          | jobj l =>
              refine ⟨?_, ?_⟩
              · simp only [runSync, loadedDoc]; split <;> rfl
              · intro h
                simp only [runSync, loadedDoc] at h
                split at h <;> exact Bool.noConfusion h
          | jarr xs => exact ⟨rfl, fun h => Bool.noConfusion h⟩
          | jstr s => exact ⟨rfl, fun _ => rfl⟩
          | jnum n => exact ⟨rfl, fun _ => rfl⟩
          | jbool b => exact ⟨rfl, fun _ => rfl⟩
          | jnull => exact ⟨rfl, fun _ => rfl⟩

/-- C9 (confirmed): for any object root, the pass coerces every
intermediate path it touches to an object — agents, agents.defaults,
auth and auth.profiles unconditionally on every run, the model node when
a provider is available, gateway.auth when the gateway token is set, and
channels.telegram plus plugins.entries when the telegram token is set —
replacing whatever non-object value stood there. -/
theorem c9_coercion (e : Env) (d : JVal) (hroot : rootObj d) :
    isObjAt (syncPass e d) ["agents"] ∧
    isObjAt (syncPass e d) ["agents", "defaults"] ∧
    isObjAt (syncPass e d) ["auth"] ∧
    isObjAt (syncPass e d) ["auth", "profiles"] ∧
    (computeAvailable e ≠ [] →
      isObjAt (syncPass e d) ["agents", "defaults", "model"]) ∧
    (strTrim (e "OPENCLAW_GATEWAY_TOKEN") ≠ "" →
      isObjAt (syncPass e d) ["gateway", "auth"]) ∧
    (strTrim (e "TELEGRAM_BOT_TOKEN") ≠ "" →
      isObjAt (syncPass e d) ["channels", "telegram"] ∧
      isObjAt (syncPass e d) ["plugins", "entries"]) := by
  obtain ⟨-, hA1, hA2, -, hU1, hU2, -, hM, -, -, -, -, -, hGw, hTg, -⟩ :=
    syncPass_post e d hroot
  refine ⟨hA1, hA2, hU1, hU2, ?_, ?_, ?_⟩
  · intro hne
    cases hav : computeAvailable e with
    | nil => exact absurd hav hne
    | cons a0 rest => exact (hM a0 rest hav).1
  · intro hg
    exact (hGw hg).2.1
  · intro ht
    obtain ⟨-, h2, -, -, h5, -, -⟩ := hTg ht
    exact ⟨h2, h5⟩

/-- C9 witness: the coercion facts at a concrete run. -/
theorem c9_witness :
    isObjAt (syncPass envEmpty (.jobj [])) ["agents"] ∧
    isObjAt (syncPass envEmpty (.jobj [])) ["agents", "defaults"] ∧
    isObjAt (syncPass envEmpty (.jobj [])) ["auth"] ∧
    isObjAt (syncPass envEmpty (.jobj [])) ["auth", "profiles"] ∧
    (computeAvailable envEmpty ≠ [] →
      isObjAt (syncPass envEmpty (.jobj [])) ["agents", "defaults", "model"]) ∧
    (strTrim (envEmpty "OPENCLAW_GATEWAY_TOKEN") ≠ "" →
      isObjAt (syncPass envEmpty (.jobj [])) ["gateway", "auth"]) ∧
    (strTrim (envEmpty "TELEGRAM_BOT_TOKEN") ≠ "" →
      isObjAt (syncPass envEmpty (.jobj [])) ["channels", "telegram"] ∧
      isObjAt (syncPass envEmpty (.jobj [])) ["plugins", "entries"]) :=
  c9_coercion envEmpty (.jobj []) ⟨[], rfl⟩

/-- C3, counterexample: with an Anthropic primary and a pre-existing
second Anthropic model among the fallbacks, the pass keeps that entry,
so the primary's provider does appear among the fallbacks' providers. -/
theorem c3_counterexample :
    providerFromModelO (getPath (some (syncPass c3Env c3Doc))
      (modelPath ++ ["primary"])) = "anthropic" ∧
    JVal.jstr "anthropic/claude-opus-4" ∈ existingFallbacks (syncPass c3Env c3Doc) ∧
    providerFromModelS "anthropic/claude-opus-4" = "anthropic" := by
  decide

/-- C3 (corrected): what the merge does guarantee: no merged fallback
entry is strictly equal to the primary, and every merged entry either
survives from the pre-existing fallbacks array or (when newly added from
the recommended set) names a provider different from the primary's.
Pre-existing entries of the primary's own provider that differ from the
primary are kept. -/
theorem c3_amended (available : List String) (primaryVal : Option JVal)
    (existing : List JVal) :
    ∀ s ∈ mergedFor available primaryVal existing,
      jsStrictNe (.jstr s) primaryVal = true ∧
      (JVal.jstr s ∈ existing ∨
        providerFromModelS s ≠ providerFromModelO primaryVal) := by
  intro s hs
  have hkeep := (mergedFor_facts available primaryVal existing).2.1 s hs
  constructor
  · have hk := hkeep.2
    simp only [fallbackKeep, Bool.and_eq_true] at hk
    exact hk.2
  · simp only [mergedFor, toUniqueStringsS] at hs
    have hmem := ((tusGoS_props _ []).2 s hs).2.2
    rw [List.mem_append] at hmem
    rcases hmem with hflt | hmiss
    · simp only [toUniqueStringsV] at hflt
      have hsrc := ((tusGoV_props _ []).2 s hflt).2.2
      rw [List.mem_filter] at hsrc
      exact Or.inl hsrc.1
    · rw [List.mem_filter] at hmiss
      exact Or.inr (recommendedFor_mem _ _ s hmiss.1).2.2.1

/-- C3 witness: the amended statement at a concrete input (a surviving
same-provider entry). -/
theorem c3_amended_witness :
    jsStrictNe (.jstr "anthropic/claude-opus-4")
      (some (.jstr "anthropic/claude-sonnet-4-5")) = true ∧
    (JVal.jstr "anthropic/claude-opus-4" ∈ [JVal.jstr "anthropic/claude-opus-4"] ∨
      providerFromModelS "anthropic/claude-opus-4"
        ≠ providerFromModelO (some (.jstr "anthropic/claude-sonnet-4-5"))) :=
  c3_amended ["anthropic"] (some (.jstr "anthropic/claude-sonnet-4-5"))
    [.jstr "anthropic/claude-opus-4"] "anthropic/claude-opus-4" (by decide)

/-- C5 (confirmed): when the trimmed primary's provider prefix is in the
available set, one pass leaves the primary field exactly as it was. -/
theorem c5_primary_preserved (e : Env) (d : JVal)
    (h : providerFromModelS (trimOfO (getPath (some d) (modelPath ++ ["primary"])))
      ∈ computeAvailable e) :
    getPath (some (syncPass e d)) (modelPath ++ ["primary"])
      = getPath (some d) (modelPath ++ ["primary"]) := by
  have hPne : providerFromModelS
      (trimOfO (getPath (some d) (modelPath ++ ["primary"]))) ≠ "" :=
    avail_ne_empty e _ h
  have htr : trimOfO (getPath (some d) (modelPath ++ ["primary"])) ≠ "" := by
    intro h0
    exact hPne (by rw [h0]; rfl)
  have hsome : ∃ v, getPath (some d) (modelPath ++ ["primary"]) = some v := by
    cases hg : getPath (some d) (modelPath ++ ["primary"]) with
    | none => exact absurd (by rw [hg]; rfl) htr
    | some v => exact ⟨v, rfl⟩
  obtain ⟨v, hv⟩ := hsome
  obtain ⟨lm, hlm⟩ := isObjAt_of_getPath_append d modelPath "primary" v hv
  obtain ⟨ldf, hldf⟩ := isObjAt_of_getPath_append d ["agents", "defaults"] "model" _ hlm
  obtain ⟨la, hla⟩ := isObjAt_of_getPath_append d ["agents"] "defaults" _ hldf
  simp only [syncPass]
  set s3 := profilesStep e PROVIDERS [] (authRule (wsRule e d)) with hs3
  set s4 := modelRule (computeAvailable e) s3 with hs4
  have h3 : getPath (some s3) (modelPath ++ ["primary"])
      = getPath (some d) (modelPath ++ ["primary"]) :=
    preModel_frame e d (modelPath ++ ["primary"]) ⟨la, hla⟩ ⟨ldf, hldf⟩
      (by decide) (by decide)
  cases hav : computeAvailable e with
  | nil =>
      rw [hav] at h
      exact absurd h (List.not_mem_nil _)
  | cons a0 rest =>
      rw [hav] at h
      obtain ⟨lm3, hlm3⟩ := isObjAt_of_getPath_append s3 modelPath "primary" v (h3.trans hv)
      have hens : ensureAt s3 ["agents", "defaults"] "model" = s3 :=
        ensureAt_noop s3 ["agents", "defaults"] "model" lm3 hlm3
      have htr3 : trimOfO (getPath (some s3) (modelPath ++ ["primary"])) ≠ "" := by
        rw [h3]; exact htr
      have hin3 : providerFromModelS
          (trimOfO (getPath (some s3) (modelPath ++ ["primary"]))) ∈ (a0 :: rest) := by
        rw [h3]; exact h
      have hnoop : modelPrimaryStep (a0 :: rest) s3 = s3 :=
        modelPrimaryStep_noop (a0 :: rest) s3 (Or.inr ⟨htr3, hin3⟩)
      have hfbs : getPath (some (modelFallbacksStep (a0 :: rest) s3))
          (modelPath ++ ["primary"]) = getPath (some s3) (modelPath ++ ["primary"]) := by
        simp only [modelFallbacksStep]
        exact condSet_frame s3 _ _ _ _ (by decide)
      have h4 : getPath (some s4) (modelPath ++ ["primary"])
          = getPath (some d) (modelPath ++ ["primary"]) := by
        have hs4c : s4 = modelFallbacksStep (a0 :: rest)
            (modelPrimaryStep (a0 :: rest) (ensureAt s3 ["agents", "defaults"] "model")) := by
          rw [hs4, hav]
          rfl
        rw [hs4c, hens, hnoop]
        exact hfbs.trans h3
      exact (dcRule_frame e _ (modelPath ++ ["primary"]) (by decide) (by decide)).trans
        ((tgRule_frame e _ (modelPath ++ ["primary"]) (by decide) (by decide)).trans
        ((gwRule_frame e _ (modelPath ++ ["primary"]) (by decide)).trans
        ((hbRule_frame e _ (modelPath ++ ["primary"]) (by decide)).trans
        ((compRule_frame e _ (modelPath ++ ["primary"]) (by decide)).trans
        ((cpRule_frame e _ (modelPath ++ ["primary"]) (by decide)).trans
        ((mcRule_frame e _ (modelPath ++ ["primary"]) (by decide)).trans
        ((tdRule_frame e _ (modelPath ++ ["primary"]) (by decide)).trans h4)))))))

/-- C5 witness: a primary naming an available provider but not the
preferred model is untouched. -/
theorem c5_witness :
    getPath (some (syncPass c5Env c5Doc)) (modelPath ++ ["primary"])
      = getPath (some c5Doc) (modelPath ++ ["primary"]) :=
  c5_primary_preserved c5Env c5Doc (by decide)

/-- C1, counterexample: with primary "openai/gpt-5.2" and both keys
set, the pass changes the primary (the alias dedup removed "openai"
from the available set) and produces the codex fallbacks, not the
Anthropic ones. -/
theorem c1_counterexample :
    getPath (some (syncPass c1Env c1Doc)) (modelPath ++ ["primary"])
      = some (.jstr "anthropic/claude-sonnet-4-5") ∧
    getPath (some (syncPass c1Env c1Doc)) (modelPath ++ ["fallbacks"])
      = some (.jarr [.jstr "openai-codex/gpt-5.3-codex",
                     .jstr "openai-codex/gpt-5.2-codex"]) := by
  decide

/-- C1 (corrected): for any document with primary "openai/gpt-5.2" and
no fallbacks field, in any environment with non-empty OpenAI and
Anthropic keys and no Google key, the pass resets the primary to the
Anthropic preferred model ("openai" is not in the available set, only
"openai-codex" is) and sets the fallbacks to the two codex models. -/
theorem c1_amended (e : Env) (d : JVal)
    (hp : getPath (some d) (modelPath ++ ["primary"]) = some (.jstr "openai/gpt-5.2"))
    (hf : getPath (some d) (modelPath ++ ["fallbacks"]) = none)
    (hA : strTrim (e "ANTHROPIC_API_KEY") ≠ "")
    (hO : strTrim (e "OPENAI_API_KEY") ≠ "")
    (hG : strTrim (e "GOOGLE_API_KEY") = "") :
    getPath (some (syncPass e d)) (modelPath ++ ["primary"])
      = some (.jstr "anthropic/claude-sonnet-4-5") ∧
    getPath (some (syncPass e d)) (modelPath ++ ["fallbacks"])
      = some (.jarr [.jstr "openai-codex/gpt-5.3-codex",
                     .jstr "openai-codex/gpt-5.2-codex"]) := by
  obtain ⟨lm, hlm⟩ := isObjAt_of_getPath_append d modelPath "primary" _ hp
  obtain ⟨ldf, hldf⟩ := isObjAt_of_getPath_append d ["agents", "defaults"] "model" _ hlm
  obtain ⟨la, hla⟩ := isObjAt_of_getPath_append d ["agents"] "defaults" _ hldf
  have hav := computeAvailable_AC e hA hO hG
  simp only [syncPass]
  set s3 := profilesStep e PROVIDERS [] (authRule (wsRule e d)) with hs3
  set s4 := modelRule (computeAvailable e) s3 with hs4
  have h3p : getPath (some s3) (modelPath ++ ["primary"])
      = some (.jstr "openai/gpt-5.2") :=
    (preModel_frame e d (modelPath ++ ["primary"]) ⟨la, hla⟩ ⟨ldf, hldf⟩
      (by decide) (by decide)).trans hp
  have h3f : getPath (some s3) (modelPath ++ ["fallbacks"]) = none :=
    (preModel_frame e d (modelPath ++ ["fallbacks"]) ⟨la, hla⟩ ⟨ldf, hldf⟩
      (by decide) (by decide)).trans hf
  obtain ⟨lm3, hlm3⟩ := isObjAt_of_getPath_append s3 modelPath "primary" _ h3p
  have hens : ensureAt s3 ["agents", "defaults"] "model" = s3 :=
    ensureAt_noop s3 ["agents", "defaults"] "model" lm3 hlm3
  have hpstep : modelPrimaryStep ["anthropic", "openai-codex"] s3
      = setPath s3 (modelPath ++ ["primary"]) (.jstr "anthropic/claude-sonnet-4-5") := by
    simp only [modelPrimaryStep, h3p]
    rw [if_pos (by decide)]
    rfl
  have h5p : getPath (some (setPath s3 (modelPath ++ ["primary"])
        (.jstr "anthropic/claude-sonnet-4-5"))) (modelPath ++ ["primary"])
      = some (.jstr "anthropic/claude-sonnet-4-5") :=
    getPath_setPath_self _ s3 _ (canWrite_of_getPath _ s3 _ h3p)
  have h5f : getPath (some (setPath s3 (modelPath ++ ["primary"])
        (.jstr "anthropic/claude-sonnet-4-5"))) (modelPath ++ ["fallbacks"]) = none :=
    (getPath_setPath_diverges _ _ _ _ (by decide)).trans h3f
  have hex5 : existingFallbacks (setPath s3 (modelPath ++ ["primary"])
      (.jstr "anthropic/claude-sonnet-4-5")) = [] := by
    unfold existingFallbacks
    rw [h5f]
  have hfbstep : modelFallbacksStep ["anthropic", "openai-codex"]
        (setPath s3 (modelPath ++ ["primary"]) (.jstr "anthropic/claude-sonnet-4-5"))
      = setPath (setPath s3 (modelPath ++ ["primary"])
          (.jstr "anthropic/claude-sonnet-4-5")) (modelPath ++ ["fallbacks"])
          (.jarr [.jstr "openai-codex/gpt-5.3-codex",
                  .jstr "openai-codex/gpt-5.2-codex"]) := by
    simp only [modelFallbacksStep, h5p, hex5]
    rw [if_pos (by decide)]
    rfl
  obtain ⟨lm5, hlm5⟩ := isObjAt_of_getPath_append
    (setPath s3 (modelPath ++ ["primary"]) (.jstr "anthropic/claude-sonnet-4-5"))
    modelPath "primary" _ h5p
  have hs4c : s4 = modelFallbacksStep ["anthropic", "openai-codex"]
      (modelPrimaryStep ["anthropic", "openai-codex"]
        (ensureAt s3 ["agents", "defaults"] "model")) := by
    rw [hs4, hav]
    rfl
  have h4p : getPath (some s4) (modelPath ++ ["primary"])
      = some (.jstr "anthropic/claude-sonnet-4-5") := by
    rw [hs4c, hens, hpstep, hfbstep]
    exact (getPath_setPath_diverges _ _ _ _ (by decide)).trans h5p
  have h4f : getPath (some s4) (modelPath ++ ["fallbacks"])
      = some (.jarr [.jstr "openai-codex/gpt-5.3-codex",
                     .jstr "openai-codex/gpt-5.2-codex"]) := by
    rw [hs4c, hens, hpstep, hfbstep]
    exact getPath_setPath_self _ _ _ (canWrite_of_isObj modelPath _ lm5 "fallbacks" hlm5)
  constructor
  · exact (dcRule_frame e _ (modelPath ++ ["primary"]) (by decide) (by decide)).trans
      ((tgRule_frame e _ (modelPath ++ ["primary"]) (by decide) (by decide)).trans
      ((gwRule_frame e _ (modelPath ++ ["primary"]) (by decide)).trans
      ((hbRule_frame e _ (modelPath ++ ["primary"]) (by decide)).trans
      ((compRule_frame e _ (modelPath ++ ["primary"]) (by decide)).trans
      ((cpRule_frame e _ (modelPath ++ ["primary"]) (by decide)).trans
      ((mcRule_frame e _ (modelPath ++ ["primary"]) (by decide)).trans
      ((tdRule_frame e _ (modelPath ++ ["primary"]) (by decide)).trans h4p)))))))
  · exact (dcRule_frame e _ (modelPath ++ ["fallbacks"]) (by decide) (by decide)).trans
      ((tgRule_frame e _ (modelPath ++ ["fallbacks"]) (by decide) (by decide)).trans
      ((gwRule_frame e _ (modelPath ++ ["fallbacks"]) (by decide)).trans
      ((hbRule_frame e _ (modelPath ++ ["fallbacks"]) (by decide)).trans
      ((compRule_frame e _ (modelPath ++ ["fallbacks"]) (by decide)).trans
      ((cpRule_frame e _ (modelPath ++ ["fallbacks"]) (by decide)).trans
      ((mcRule_frame e _ (modelPath ++ ["fallbacks"]) (by decide)).trans
      ((tdRule_frame e _ (modelPath ++ ["fallbacks"]) (by decide)).trans h4f)))))))

/-- C1 witness: the amended statement at a concrete document and
environment. -/
theorem c1_amended_witness :
    getPath (some (syncPass c1Env c1Doc)) (modelPath ++ ["primary"])
      = some (.jstr "anthropic/claude-sonnet-4-5") ∧
    getPath (some (syncPass c1Env c1Doc)) (modelPath ++ ["fallbacks"])
      = some (.jarr [.jstr "openai-codex/gpt-5.3-codex",
                     .jstr "openai-codex/gpt-5.2-codex"]) :=
  c1_amended c1Env c1Doc (by decide) (by decide) (by decide) (by decide) (by decide)

/-- C10 (confirmed): two environments that differ only in the value of
one provider credential variable, both values non-empty after trimming,
produce identical reconciled documents — credential values matter only
through their presence. The gateway token, by contrast, is written
verbatim (trimmed) into gateway.auth.token. -/
theorem c10_credential_hyperproperty (e1 e2 : Env) (d : JVal) (K : String)
    (hK : K = "ANTHROPIC_API_KEY" ∨ K = "OPENAI_API_KEY" ∨ K = "GOOGLE_API_KEY")
    (hagree : ∀ k, k ≠ K → e1 k = e2 k)
    (h1 : strTrim (e1 K) ≠ "") (h2 : strTrim (e2 K) ≠ "") :
    syncPass e1 d = syncPass e2 d ∧
    (rootObj d → strTrim (e1 "OPENCLAW_GATEWAY_TOKEN") ≠ "" →
      getPath (some (syncPass e1 d)) ["gateway", "auth", "token"]
        = some (.jstr (strTrim (e1 "OPENCLAW_GATEWAY_TOKEN")))) := by
  have hvar : ∀ x : String, x ≠ "ANTHROPIC_API_KEY" → x ≠ "OPENAI_API_KEY" →
      x ≠ "GOOGLE_API_KEY" → e1 x = e2 x := by
    intro x hx1 hx2 hx3
    refine hagree x ?_
    rcases hK with rfl | rfl | rfl
    exacts [hx1, hx2, hx3]
  have hcred : ∀ pc ∈ PROVIDERS,
      (strTrim (e1 pc.envVar) = "") = (strTrim (e2 pc.envVar) = "") := by
    intro pc hmem
    have hv : pc.envVar = "ANTHROPIC_API_KEY" ∨ pc.envVar = "OPENAI_API_KEY" ∨
        pc.envVar = "GOOGLE_API_KEY" := by
      simp only [PROVIDERS, List.mem_cons, List.not_mem_nil, or_false] at hmem
      rcases hmem with rfl | rfl | rfl | rfl <;> simp
    by_cases hvK : pc.envVar = K
    · rw [hvK]
      exact propext (iff_of_false h1 h2)
    · rw [hagree pc.envVar hvK]
  have hws : ∀ d0, wsRule e1 d0 = wsRule e2 d0 := by
    intro d0
    have hwd : wsDesired e1 = wsDesired e2 := by
      unfold wsDesired
      rw [hvar "OPENCLAW_STATE_DIR" (by decide) (by decide) (by decide),
        hvar "OPENCLAW_WORKSPACE_DIR" (by decide) (by decide) (by decide)]
    unfold wsRule
    rw [hwd]
  have hps : ∀ d0, profilesStep e1 PROVIDERS [] d0 = profilesStep e2 PROVIDERS [] d0 :=
    fun d0 => profilesStep_congr e1 e2 PROVIDERS [] d0 hcred
  have havC : computeAvailable e1 = computeAvailable e2 :=
    availableFrom_congr e1 e2 PROVIDERS [] hcred
  have htd : ∀ d0, tdRule e1 d0 = tdRule e2 d0 := by
    intro d0
    unfold tdRule
    rw [hvar "OPENCLAW_THINKING_DEFAULT" (by decide) (by decide) (by decide)]
  have hmc : ∀ d0, mcRule e1 d0 = mcRule e2 d0 := by
    intro d0
    unfold mcRule
    rw [hvar "OPENCLAW_MAX_CONCURRENT" (by decide) (by decide) (by decide)]
  have hcp : ∀ d0, cpRule e1 d0 = cpRule e2 d0 := by
    intro d0
    unfold cpRule
    rw [hvar "OPENCLAW_CONTEXT_PRUNING_MODE" (by decide) (by decide) (by decide),
      hvar "OPENCLAW_CONTEXT_PRUNING_TTL" (by decide) (by decide) (by decide)]
  have hcomp : ∀ d0, compRule e1 d0 = compRule e2 d0 := by
    intro d0
    unfold compRule
    rw [hvar "OPENCLAW_COMPACTION_MODE" (by decide) (by decide) (by decide)]
  have hhb : ∀ d0, hbRule e1 d0 = hbRule e2 d0 := by
    intro d0
    unfold hbRule
    rw [hvar "OPENCLAW_HEARTBEAT_EVERY" (by decide) (by decide) (by decide)]
  have hgw : ∀ d0, gwRule e1 d0 = gwRule e2 d0 := by
    intro d0
    unfold gwRule
    rw [hvar "OPENCLAW_GATEWAY_TOKEN" (by decide) (by decide) (by decide)]
  have htg : ∀ d0, tgRule e1 d0 = tgRule e2 d0 := by
    intro d0
    unfold tgRule
    rw [hvar "TELEGRAM_BOT_TOKEN" (by decide) (by decide) (by decide)]
  have hdc : ∀ d0, dcRule e1 d0 = dcRule e2 d0 := by
    intro d0
    unfold dcRule
    rw [hvar "DISCORD_BOT_TOKEN" (by decide) (by decide) (by decide),
      hvar "DISCORD_GUILD_ID" (by decide) (by decide) (by decide)]
  constructor
  · simp only [syncPass, hws, hps, havC, htd, hmc, hcp, hcomp, hhb, hgw, htg, hdc]
  · intro hroot hg
    obtain ⟨-, -, -, -, -, -, -, -, -, -, -, -, -, hGw, -, -⟩ := syncPass_post e1 d hroot
    exact (hGw hg).2.2.2

/-- C10 witness: the hyperproperty at two concrete environments that
differ only in the Anthropic credential value. -/
theorem c10_witness :
    syncPass c10Env1 (.jobj []) = syncPass c10Env2 (.jobj []) ∧
    (rootObj (JVal.jobj []) → strTrim (c10Env1 "OPENCLAW_GATEWAY_TOKEN") ≠ "" →
      getPath (some (syncPass c10Env1 (.jobj []))) ["gateway", "auth", "token"]
        = some (.jstr (strTrim (c10Env1 "OPENCLAW_GATEWAY_TOKEN")))) :=
  c10_credential_hyperproperty c10Env1 c10Env2 (.jobj []) "ANTHROPIC_API_KEY"
    (Or.inl rfl) (fun k hk => by simp [c10Env1, c10Env2, hk]) (by decide) (by decide)

end SyncConfig
